import Mathlib

/-!
# SimpleEntryImpl (net/disk_cache/simple/simple_entry_impl.cc)

A shallow embedding of the control-thread side of the simple disk cache entry.
Every function of `simple_entry_impl.cc` becomes a function on an explicit
`World`: the index cell behind `WeakPtr<SimpleIndex>`, the objects held by the
worker (`SimpleSynchronousEntry`), the heap of `SimpleEntryImpl` objects, the
`Entry**` output slots, and a chronological trace of the calls that leave the
file (index calls, `WorkerPool::PostTask`, `CompletionCallback::Run`).

Conventions of the embedding:
* all code runs on the single IO thread, so `io_thread_checker_` always passes;
* `DCHECK`s are compiled out (release build); `CHECK(false)` aborts;
* `NOTIMPLEMENTED()` only writes to the log and has no effect on the `World`;
* a callback is identified by a number; `Run` records the call in the trace
  together with the state of the index at that instant, which is what the body
  of the callback is able to observe;
* `MessageLoopProxy::current()` is the IO thread itself and is left out of the
  posted jobs; the `true` passed to `PostTask` (task is slow) is left out too.
-/

namespace disk_cache

/-- The type `base::Time`, kept abstract as a number of ticks. -/
abbrev Time := Int

namespace net

/-- Modelled from the spec: the result codes of `net/base/net_errors.h`, which
is not among the sources ("Closed result set: Pending, Ok, Failed,
NotSupported"). `OK` is the spec's Ok. -/
def OK : Int := 0

/-- Modelled from the spec: the result code Pending of the closed result set
(`net::ERR_IO_PENDING`). -/
def ERR_IO_PENDING : Int := -1

/-- Modelled from the spec: the result code Failed of the closed result set
(`net::ERR_FAILED`). -/
def ERR_FAILED : Int := -2

/-- Modelled from the spec: the result code NotSupported of the closed result
set, a code of its own, different from the three others
(`net::ERR_NOT_IMPLEMENTED`). -/
def ERR_NOT_IMPLEMENTED : Int := -11

end net

/-- Modelled from the spec: the class `SimpleIndex` of
`net/disk_cache/simple/simple_index.h`, which is not among the sources. The
index holds one entry per key tracked as existing, with its authoritative byte
size; the order of the list is the recency order, most recently used first. -/
structure SimpleIndex where
  entries : List (String × Int)
deriving DecidableEq, Repr

namespace SimpleIndex

/-- Modelled from the spec: whether `key` is currently tracked as existing. -/
def Has (idx : SimpleIndex) (key : String) : Bool :=
  idx.entries.any (fun e => e.1 == key)

/-- Modelled from the spec: `UseIfExists(key) -> bool`, "true iff K is currently
tracked as existing; also refreshes recency". The entry of a tracked key moves
to the front of the recency order. -/
def UseIfExists (idx : SimpleIndex) (key : String) : Bool × SimpleIndex :=
  match idx.entries.find? (fun e => e.1 == key) with
  | some e => (true, ⟨e :: idx.entries.filter (fun e => e.1 != key)⟩)
  | none => (false, idx)

/-- Modelled from the spec: `Insert(key)`, "marks K existing". -/
def Insert (idx : SimpleIndex) (key : String) : SimpleIndex :=
  if idx.Has key then idx else ⟨(key, 0) :: idx.entries⟩

/-- Modelled from the spec: `Remove(key)`, "marks K absent". -/
def Remove (idx : SimpleIndex) (key : String) : SimpleIndex :=
  ⟨idx.entries.filter (fun e => e.1 != key)⟩

/-- Modelled from the spec: `UpdateEntrySize(key, size)`, "overwrites the
authoritative size for K". -/
def UpdateEntrySize (idx : SimpleIndex) (key : String) (size : Int) : SimpleIndex :=
  ⟨idx.entries.map (fun e => if e.1 == key then (e.1, size) else e)⟩

end SimpleIndex

/-- Modelled from the spec: the accessors of `SimpleSynchronousEntry`
(`simple_synchronous_entry.h` is not among the sources) that
`simple_entry_impl.cc` reads: `path()`, `key()`, `last_used()`,
`last_modified()`, `data_size(i)` and `GetFileSize()`. A value of this type is
the content of the worker-held object at one instant. -/
structure SimpleSynchronousEntry where
  path : String
  key : String
  last_used : Time
  last_modified : Time
  data_size : Nat → Int
  GetFileSize : Int

/-- A `CompletionCallback`: `none` is the null callback `CompletionCallback()`,
`some n` the callback handed in by the caller, identified by `n`. -/
abbrev CompletionCallback := Option Nat

/-- The callback built by `base::Bind(&SimpleEntryImpl::CreationOperationComplete,
index, callback, key, entry)`. The bound `index` is the index cell of the world;
`entry` names the `Entry**` output slot. -/
structure SynchronousCreationCallback where
  callback : CompletionCallback
  key : String
  entry : Nat
deriving DecidableEq, Repr

/-- The callback built by `base::Bind(&SimpleEntryImpl::EntryOperationComplete,
index_, callback, weak_ptr_factory_.GetWeakPtr(), synchronous_entry_)`: `entry`
is the address the weak pointer refers to, `sync_entry` the address of the
worker-held object. -/
structure SynchronousOperationCallback where
  callback : CompletionCallback
  entry : Nat
  sync_entry : Nat
deriving DecidableEq, Repr

/-- The closures handed to `WorkerPool::PostTask`: the jobs of
`SimpleSynchronousEntry`, with their bound arguments. An `IOBuffer*` is named by
a number. -/
inductive Job where
  | OpenEntry (path key : String) (callback : SynchronousCreationCallback)
  | CreateEntry (path key : String) (callback : SynchronousCreationCallback)
  | DoomEntry (path key : String) (callback : CompletionCallback)
  | ReadData (sync_entry : Nat) (index offset : Int) (buf : Nat) (buf_len : Int)
      (callback : SynchronousOperationCallback)
  | WriteData (sync_entry : Nat) (index offset : Int) (buf : Nat) (buf_len : Int)
      (callback : SynchronousOperationCallback) (truncate : Bool)
  | Close (sync_entry : Nat)
deriving DecidableEq, Repr

/-- One call that leaves `simple_entry_impl.cc`, in the order the calls are
made. `Run` carries the state of the index cell at the instant of the call. -/
inductive Event where
  | UseIfExists (key : String)
  | Insert (key : String)
  | Remove (key : String)
  | UpdateEntrySize (key : String) (size : Int)
  | PostTask (job : Job)
  | Run (callback : CompletionCallback) (result : Int) (index_seen : Option SimpleIndex)
deriving DecidableEq, Repr

/-- The fields of a `SimpleEntryImpl` object. `index_` is the index cell of the
world and `weak_ptr_factory_` hands out the address of the object itself, so
neither is a field here; `data_size_` is the array of `kSimpleEntryFileCount`
sizes. -/
structure SimpleEntryImpl where
  path_ : String
  key_ : String
  synchronous_entry_ : Nat
  synchronous_entry_in_use_by_worker_ : Bool
  last_used_ : Time
  last_modified_ : Time
  data_size_ : List Int
deriving DecidableEq, Repr

/-- The state the control thread works on.
* `index`: the target of every `WeakPtr<SimpleIndex>`; `none` once the index has
  been torn down (the weak pointer tests false);
* `sync_entries`: the content of the worker-held `SimpleSynchronousEntry` at
  each address;
* `entries`: the heap of `SimpleEntryImpl` objects; the address of an object is
  its position, `none` marks a deleted object, so that a
  `WeakPtr<SimpleEntryImpl>` to it tests false;
* `out_entries`: the content of each `Entry**` output slot, `none` while unset;
* `trace`: the calls made so far, oldest first. -/
structure World where
  index : Option SimpleIndex
  sync_entries : Nat → SimpleSynchronousEntry
  entries : List (Option SimpleEntryImpl)
  out_entries : Nat → Option Nat
  trace : List Event

/-- The ways a call ends without returning. -/
inductive Fault where
  | CHECK_failed
  | null_dereference
  | use_after_free
deriving DecidableEq, Repr

/-- The outcome of a member function: it returns a value in a new world, or the
process aborts in the world reached so far. -/
inductive Outcome (α : Type) where
  | returned (value : α) (w : World)
  | aborted (fault : Fault) (w : World)

namespace Outcome

/-- The value returned, `none` when the call aborted. -/
def value {α : Type} (o : Outcome α) : Option α :=
  match o with
  | returned v _ => some v
  | aborted _ _ => none

/-- The fault the call aborted with, `none` when it returned. -/
def fault {α : Type} (o : Outcome α) : Option Fault :=
  match o with
  | returned _ _ => none
  | aborted f _ => some f

/-- The world the call ends in. -/
def world {α : Type} (o : Outcome α) : World :=
  match o with
  | returned _ w => w
  | aborted _ w => w

end Outcome

namespace World

/-- Appends one call to the trace. -/
def log (w : World) (e : Event) : World :=
  { w with trace := w.trace ++ [e] }

/-- The jobs handed to `WorkerPool::PostTask` so far, oldest first. -/
def jobs (w : World) : List Job :=
  w.trace.filterMap (fun e => match e with
    | .PostTask job => some job
    | _ => none)

/-- The callback invocations so far, oldest first. -/
def runs (w : World) : List (CompletionCallback × Int) :=
  w.trace.filterMap (fun e => match e with
    | .Run callback result _ => some (callback, result)
    | _ => none)

/-- The calls made on the index so far, oldest first. -/
def index_calls (w : World) : List Event :=
  w.trace.filter (fun e => match e with
    | .UseIfExists _ => true
    | .Insert _ => true
    | .Remove _ => true
    | .UpdateEntrySize _ _ => true
    | _ => false)

/-- The live object at address `p`, if any: what a `WeakPtr<SimpleEntryImpl>`
to `p` resolves to. -/
def entry (w : World) (p : Nat) : Option SimpleEntryImpl :=
  (w.entries.get? p).join

/-- Writes the fields of the object at address `p`. -/
def set_entry (w : World) (p : Nat) (e : SimpleEntryImpl) : World :=
  { w with entries := w.entries.set p (some e) }

/-- The statement `delete this` for the object at address `p`. -/
def delete (w : World) (p : Nat) : World :=
  { w with entries := w.entries.set p none }

/-- Whether `key` is tracked as existing by an available index. -/
def index_has (w : World) (key : String) : Bool :=
  match w.index with
  | some idx => idx.Has key
  | none => false

end World

/-- The call `WorkerPool::PostTask(FROM_HERE, job, true)`. -/
def PostTask (w : World) (job : Job) : World :=
  w.log (.PostTask job)

/-- The call `callback.Run(result)`. None of the callers tests
`callback.is_null()`: on the null callback the call goes through a null
pointer, and the process aborts in the world reached so far. -/
def Run (w : World) (callback : CompletionCallback) (result : Int) : Outcome Unit :=
  match callback with
  | some _ => Outcome.returned () (w.log (.Run callback result w.index))
  | none => Outcome.aborted Fault.null_dereference w

namespace SimpleEntryImpl

/-- The call `index->UseIfExists(key)` on an available index `idx`: the index
cell takes the refreshed index and the call is recorded; the first component is
the value returned. -/
def call_UseIfExists (w : World) (idx : SimpleIndex) (key : String) : Bool × World :=
  ((idx.UseIfExists key).1,
    { w with index := some (idx.UseIfExists key).2, trace := w.trace ++ [Event.UseIfExists key] })

/-- The statement `if (index) index->Insert(key);`. -/
def if_index_Insert (w : World) (key : String) : World :=
  match w.index with
  | some idx => { w with index := some (idx.Insert key), trace := w.trace ++ [Event.Insert key] }
  | none => w

/-- The statement `if (index) index->Remove(key);`. -/
def if_index_Remove (w : World) (key : String) : World :=
  match w.index with
  | some idx => { w with index := some (idx.Remove key), trace := w.trace ++ [Event.Remove key] }
  | none => w

/-- The statement `if (index) index->UpdateEntrySize(key, size);`. -/
def if_index_UpdateEntrySize (w : World) (key : String) (size : Int) : World :=
  match w.index with
  | some idx =>
    { w with index := some (idx.UpdateEntrySize key size),
             trace := w.trace ++ [Event.UpdateEntrySize key size] }
  | none => w

/-- `SimpleEntryImpl::OpenEntry` (static). `entry` names the output slot. -/
def OpenEntry (w : World) (path key : String) (entry : Nat)
    (callback : CompletionCallback) : Int × World :=
  match w.index with
  | none =>
    (net.ERR_IO_PENDING, PostTask w (Job.OpenEntry path key ⟨callback, key, entry⟩))
  | some idx =>
    let r := call_UseIfExists w idx key
    if r.1 then
      (net.ERR_IO_PENDING, PostTask r.2 (Job.OpenEntry path key ⟨callback, key, entry⟩))
    else
      (net.ERR_FAILED, r.2)

/-- `SimpleEntryImpl::CreateEntry` (static). -/
def CreateEntry (w : World) (path key : String) (entry : Nat)
    (callback : CompletionCallback) : Int × World :=
  (net.ERR_IO_PENDING, PostTask w (Job.CreateEntry path key ⟨callback, key, entry⟩))

/-- `SimpleEntryImpl::DoomEntry` (static). -/
def DoomEntry (w : World) (path key : String) (callback : CompletionCallback) : Int × World :=
  (net.ERR_IO_PENDING, PostTask (if_index_Remove w key) (Job.DoomEntry path key callback))

/-- `SimpleEntryImpl::Doom`. `os_posix` is the build flag `defined(OS_POSIX)`;
without it the body is `NOTIMPLEMENTED()`. -/
def Doom (os_posix : Bool) (w : World) (this : Nat) : Outcome Unit :=
  match w.entry this with
  | none => Outcome.aborted Fault.use_after_free w
  | some e =>
    if os_posix then Outcome.returned () (DoomEntry w e.path_ e.key_ none).2
    else Outcome.returned () w

/-- `SimpleEntryImpl::Close`. -/
def Close (w : World) (this : Nat) : Outcome Unit :=
  match w.entry this with
  | none => Outcome.aborted Fault.use_after_free w
  | some e =>
    let w1 := if !e.synchronous_entry_in_use_by_worker_ then
        PostTask w (Job.Close e.synchronous_entry_)
      else w
    Outcome.returned () (w1.delete this)

/-- `SimpleEntryImpl::GetKey`. -/
def GetKey (e : SimpleEntryImpl) : String := e.key_

/-- `SimpleEntryImpl::GetLastUsed`. -/
def GetLastUsed (e : SimpleEntryImpl) : Time := e.last_used_

/-- `SimpleEntryImpl::GetLastModified`. -/
def GetLastModified (e : SimpleEntryImpl) : Time := e.last_modified_

/-- `SimpleEntryImpl::GetDataSize`: the read `data_size_[index]`, `none` for a
read outside the array. -/
def GetDataSize (e : SimpleEntryImpl) (index : Int) : Option Int :=
  if 0 ≤ index then e.data_size_.get? index.toNat else none

/-- `SimpleEntryImpl::ReadData`. -/
def ReadData (w : World) (this : Nat) (index offset : Int) (buf : Nat) (buf_len : Int)
    (callback : CompletionCallback) : Outcome Int :=
  match w.entry this with
  | none => Outcome.aborted Fault.use_after_free w
  | some e =>
    if e.synchronous_entry_in_use_by_worker_ then
      Outcome.aborted Fault.CHECK_failed w
    else
      let w1 := w.set_entry this { e with synchronous_entry_in_use_by_worker_ := true }
      match w1.index with
      | none => Outcome.aborted Fault.null_dereference w1
      | some idx =>
        let w2 := (call_UseIfExists w1 idx e.key_).2
        Outcome.returned net.ERR_IO_PENDING
          (PostTask w2 (Job.ReadData e.synchronous_entry_ index offset buf buf_len
            ⟨callback, this, e.synchronous_entry_⟩))

/-- `SimpleEntryImpl::WriteData`. -/
def WriteData (w : World) (this : Nat) (index offset : Int) (buf : Nat) (buf_len : Int)
    (callback : CompletionCallback) (truncate : Bool) : Outcome Int :=
  match w.entry this with
  | none => Outcome.aborted Fault.use_after_free w
  | some e =>
    if e.synchronous_entry_in_use_by_worker_ then
      Outcome.aborted Fault.CHECK_failed w
    else
      let w1 := w.set_entry this { e with synchronous_entry_in_use_by_worker_ := true }
      match w1.index with
      | none => Outcome.aborted Fault.null_dereference w1
      | some idx =>
        let w2 := (call_UseIfExists w1 idx e.key_).2
        Outcome.returned net.ERR_IO_PENDING
          (PostTask w2 (Job.WriteData e.synchronous_entry_ index offset buf buf_len
            ⟨callback, this, e.synchronous_entry_⟩ truncate))

/-- `SimpleEntryImpl::ReadSparseData`. -/
def ReadSparseData (w : World) (_this : Nat) (_offset : Int) (_buf : Nat) (_buf_len : Int)
    (_callback : CompletionCallback) : Int × World :=
  (net.ERR_FAILED, w)

/-- `SimpleEntryImpl::WriteSparseData`. -/
def WriteSparseData (w : World) (_this : Nat) (_offset : Int) (_buf : Nat) (_buf_len : Int)
    (_callback : CompletionCallback) : Int × World :=
  (net.ERR_FAILED, w)

/-- `SimpleEntryImpl::GetAvailableRange`; `_start` names the `int64*` argument,
which the body never writes. -/
def GetAvailableRange (w : World) (_this : Nat) (_offset : Int) (_len : Int) (_start : Nat)
    (_callback : CompletionCallback) : Int × World :=
  (net.ERR_FAILED, w)

/-- `SimpleEntryImpl::CouldBeSparse`. -/
def CouldBeSparse (_w : World) (_this : Nat) : Bool :=
  false

/-- `SimpleEntryImpl::CancelSparseIO`. -/
def CancelSparseIO (w : World) (_this : Nat) : World :=
  w

/-- `SimpleEntryImpl::ReadyForSparseIO`. -/
def ReadyForSparseIO (w : World) (_this : Nat) (_callback : CompletionCallback) : Int × World :=
  (net.ERR_FAILED, w)

/-- `SimpleEntryImpl::SetSynchronousData`, on the fields `e` of the object, with
`se` the current content of `*synchronous_entry_`. The constant
`kSimpleEntryFileCount` (of `simple_disk_format.h`, not among the sources) is a
parameter. -/
def SetSynchronousData (kSimpleEntryFileCount : Nat) (se : SimpleSynchronousEntry)
    (e : SimpleEntryImpl) : SimpleEntryImpl :=
  { e with last_used_ := se.last_used,
           last_modified_ := se.last_modified,
           data_size_ := (List.range kSimpleEntryFileCount).map se.data_size }

/-- The constructor `SimpleEntryImpl::SimpleEntryImpl(synchronous_entry, index)`:
the member initialisers, then `SetSynchronousData()`. The members assigned by
`SetSynchronousData` start empty. -/
def ctor (kSimpleEntryFileCount : Nat) (w : World) (synchronous_entry : Nat) : SimpleEntryImpl :=
  SetSynchronousData kSimpleEntryFileCount (w.sync_entries synchronous_entry)
    { path_ := (w.sync_entries synchronous_entry).path,
      key_ := (w.sync_entries synchronous_entry).key,
      synchronous_entry_ := synchronous_entry,
      synchronous_entry_in_use_by_worker_ := false,
      last_used_ := 0,
      last_modified_ := 0,
      data_size_ := [] }

/-- `SimpleEntryImpl::CreationOperationComplete` (static). `sync_entry` is `none`
for the null pointer. The new object is placed at the end of the heap. -/
def CreationOperationComplete (kSimpleEntryFileCount : Nat) (w : World)
    (completion_callback : CompletionCallback) (key : String) (out_entry : Nat)
    (sync_entry : Option Nat) : Outcome Unit :=
  match sync_entry with
  | none =>
    match Run w completion_callback net.ERR_FAILED with
    | Outcome.returned _ w1 => Outcome.returned () (if_index_Remove w1 key)
    | Outcome.aborted fault w1 => Outcome.aborted fault w1
  | some p =>
    let w1 := if_index_Insert w (w.sync_entries p).key
    let w2 := { w1 with
      entries := w1.entries ++ [some (ctor kSimpleEntryFileCount w1 p)],
      out_entries := Function.update w1.out_entries out_entry (some w1.entries.length) }
    Run w2 completion_callback net.OK

/-- `SimpleEntryImpl::EntryOperationComplete` (static). `entry` is the address
the weak pointer was taken from; it tests true while the object is live. -/
def EntryOperationComplete (kSimpleEntryFileCount : Nat) (w : World)
    (completion_callback : CompletionCallback) (entry : Nat) (sync_entry : Nat)
    (result : Int) : Outcome Unit :=
  let w1 := if_index_UpdateEntrySize w (w.sync_entries sync_entry).key
    (w.sync_entries sync_entry).GetFileSize
  let w2 := match w1.entry entry with
    | some e =>
      w1.set_entry entry (SetSynchronousData kSimpleEntryFileCount
        (w1.sync_entries e.synchronous_entry_)
        { e with synchronous_entry_in_use_by_worker_ := false })
    | none => PostTask w1 (Job.Close sync_entry)
  Run w2 completion_callback result

end SimpleEntryImpl

/-- A worker-held object for the key "abc": five bytes in stream 0. -/
def abc_sync_entry : SimpleSynchronousEntry :=
  { path := "/cache/abc", key := "abc", last_used := 100, last_modified := 90,
    data_size := fun i => if i = 0 then 5 else 0, GetFileSize := 5 }

/-- A world whose index tracks "abc" only, with no entry object yet. -/
def abc_world : World :=
  { index := some ⟨[("abc", 5)]⟩,
    sync_entries := fun _ => abc_sync_entry,
    entries := [],
    out_entries := fun _ => none,
    trace := [] }

/-- An idle entry object for "abc" wrapping the worker-held object at address 0. -/
def abc_entry : SimpleEntryImpl :=
  { path_ := "/cache/abc", key_ := "abc", synchronous_entry_ := 0,
    synchronous_entry_in_use_by_worker_ := false,
    last_used_ := 100, last_modified_ := 90, data_size_ := [5, 0, 0] }

/-- The world `abc_world` with the idle entry object `abc_entry` at address 0. -/
def abc_idle_world : World :=
  { abc_world with entries := [some abc_entry] }

/-- The world `abc_world` with, at address 0, the entry object `abc_entry` while
an operation is in flight. -/
def abc_busy_world : World :=
  { abc_world with
    entries := [some { abc_entry with synchronous_entry_in_use_by_worker_ := true }] }

/-- What `ReadData` and `WriteData` have in common on an idle entry: starting from
the world `w` with the idle entry `e` at address `this`, the call returned
`ERR_IO_PENDING` in the world `w1`, where the entry is `e` with the in-use flag
set (same key, same worker-held object, same cached times and sizes), the calls
made are one `UseIfExists` of the entry's key followed by the `PostTask` of
`job`, and nothing else moved. -/
def idle_operation_started (w : World) (this : Nat) (e : SimpleEntryImpl) (job : Job)
    (o : Outcome Int) : Prop :=
  o.value = some net.ERR_IO_PENDING
  ∧ o.fault = none
  ∧ o.world.entry this = some { e with synchronous_entry_in_use_by_worker_ := true }
  ∧ (∀ q, q ≠ this → o.world.entry q = w.entry q)
  ∧ o.world.trace = w.trace ++ [Event.UseIfExists e.key_, Event.PostTask job]
  ∧ o.world.index_calls = w.index_calls ++ [Event.UseIfExists e.key_]
  ∧ o.world.jobs = w.jobs ++ [job]
  ∧ o.world.runs = w.runs
  ∧ o.world.sync_entries = w.sync_entries
  ∧ o.world.out_entries = w.out_entries

/-- The world `abc_idle_world` once the index has been torn down: the entry
object `abc_entry` is still live and idle. -/
def abc_torn_down_world : World :=
  { abc_idle_world with index := none }

/-- The number of teardown jobs (`SimpleSynchronousEntry::Close`) posted so far
for the worker-held object at address `sync_entry`. -/
def World.teardowns (w : World) (sync_entry : Nat) : Nat :=
  w.jobs.count (Job.Close sync_entry)

/-- The completion bound into a read or a write job; `none` for the other jobs. -/
def Job.completion : Job → Option SynchronousOperationCallback
  | Job.ReadData _ _ _ _ _ callback => some callback
  | Job.WriteData _ _ _ _ _ callback _ => some callback
  | _ => none

/-- What can happen to one entry object once it exists: the caller calls
`ReadData`, `WriteData`, `Doom` or `Close` on it; the worker finishes the
oldest outstanding read or write, leaving its object with the given content,
and the reply is delivered on the IO thread; the index is torn down. -/
inductive Call where
  | ReadData (index offset : Int) (buf : Nat) (buf_len : Int) (callback : CompletionCallback)
  | WriteData (index offset : Int) (buf : Nat) (buf_len : Int) (callback : CompletionCallback)
      (truncate : Bool)
  | Doom
  | Close
  | complete (result : Int) (content : SimpleSynchronousEntry)
  | index_torn_down

/-- The state of the execution of one entry object: the world, and the
completions of the read and write jobs posted for it that have not been
delivered yet, oldest first. -/
structure Machine where
  w : World
  outstanding : List SynchronousOperationCallback

namespace Machine

/-- The machine right after the successful completion of an open or a create in
the world `w0`, with the worker-held object at address `sync_entry`: the world
is the one `CreationOperationComplete` ends in, and the new entry object is at
address `w0.entries.length`. -/
def created (kSimpleEntryFileCount : Nat) (w0 : World)
    (completion_callback : CompletionCallback) (key : String) (out_entry sync_entry : Nat) :
    Machine :=
  { w := (SimpleEntryImpl.CreationOperationComplete kSimpleEntryFileCount w0
      completion_callback key out_entry (some sync_entry)).world,
    outstanding := [] }

/-- The machine after a call of a member function: if the call returned, the
completions of the read and write jobs it posted become outstanding; if it
aborted, the execution is over. -/
def after_call {α : Type} (s : Machine) (o : Outcome α) : Option Machine :=
  match o with
  | Outcome.returned _ w1 =>
    some { w := w1,
           outstanding := s.outstanding
             ++ (w1.jobs.drop s.w.jobs.length).filterMap Job.completion }
  | Outcome.aborted _ _ => none

/-- The machine after the delivery of a reply: if `EntryOperationComplete`
returned, the completions left are outstanding; if it aborted, the execution is
over. -/
def after_reply (o : Outcome Unit) (rest : List SynchronousOperationCallback) :
    Option Machine :=
  match o with
  | Outcome.returned _ w1 => some { w := w1, outstanding := rest }
  | Outcome.aborted _ _ => none

/-- One step of the execution of the entry object at address `this`. -/
def step (kSimpleEntryFileCount : Nat) (os_posix : Bool) (this : Nat) (s : Machine) :
    Call → Option Machine
  | Call.ReadData index offset buf buf_len callback =>
    s.after_call (SimpleEntryImpl.ReadData s.w this index offset buf buf_len callback)
  | Call.WriteData index offset buf buf_len callback truncate =>
    s.after_call (SimpleEntryImpl.WriteData s.w this index offset buf buf_len callback truncate)
  | Call.Doom => s.after_call (SimpleEntryImpl.Doom os_posix s.w this)
  | Call.Close => s.after_call (SimpleEntryImpl.Close s.w this)
  | Call.complete result content =>
    match s.outstanding with
    | [] => none
    | cb :: rest =>
      after_reply
        (SimpleEntryImpl.EntryOperationComplete kSimpleEntryFileCount
          { s.w with sync_entries := Function.update s.w.sync_entries cb.sync_entry content }
          cb.callback cb.entry cb.sync_entry result)
        rest
  | Call.index_torn_down => some { s with w := { s.w with index := none } }

/-- The execution of a list of calls, `none` as soon as one of them aborts, the
delivery of a reply included, or a reply is delivered that no job is waiting
for. -/
def run (kSimpleEntryFileCount : Nat) (os_posix : Bool) (this : Nat) :
    Machine → List Call → Option Machine
  | s, [] => some s
  | s, c :: cs =>
    match step kSimpleEntryFileCount os_posix this s c with
    | some s1 => run kSimpleEntryFileCount os_posix this s1 cs
    | none => none

/-- The invariant of the execution of the entry object at address `this` that
wraps the worker-held object at address `h`, `base` being the number of
teardowns of `h` posted before the entry object was created: every outstanding
completion is bound to this entry and this object; at most one is outstanding;
while the entry object is live it wraps `h`, its in-use flag is set exactly
when one completion is outstanding, and no teardown of `h` has been posted
since; once it is deleted, the teardown of `h` has been posted once if nothing
is outstanding and not at all otherwise. -/
def inv (this h base : Nat) (s : Machine) : Prop :=
  (∀ cb ∈ s.outstanding, cb.entry = this ∧ cb.sync_entry = h)
  ∧ s.outstanding.length ≤ 1
  ∧ (∀ e, s.w.entry this = some e →
      e.synchronous_entry_ = h
      ∧ (e.synchronous_entry_in_use_by_worker_ = true ↔ s.outstanding.length = 1)
      ∧ s.w.teardowns h = base)
  ∧ (s.w.entry this = none →
      s.w.teardowns h = base + if s.outstanding = [] then 1 else 0)

end Machine

/-- Write "hello", close while the write is outstanding, then the write
completes. -/
def abc_close_first : List Call :=
  [Call.WriteData 0 0 7 5 (some 8) true, Call.Close, Call.complete 5 abc_sync_entry]

/-- Write "hello", the write completes, doom, then a read that is still
outstanding. -/
def abc_read_outstanding : List Call :=
  [Call.WriteData 0 0 7 5 (some 8) true, Call.complete 5 abc_sync_entry, Call.Doom,
   Call.ReadData 0 0 9 5 (some 10)]

/-- The number of live entry objects whose key is `key`. -/
def World.live_coordinators (w : World) (key : String) : Nat :=
  w.entries.countP (fun o => match o with
    | some e => e.key_ == key
    | none => false)

/-- The world reached from `abc_world` when "abc" is opened twice, for the
output slots 0 and 1, and then both opens complete, with the worker-held
objects at addresses 0 and 1. -/
def abc_opened_twice : World :=
  (SimpleEntryImpl.CreationOperationComplete 3
    (SimpleEntryImpl.CreationOperationComplete 3
      (SimpleEntryImpl.OpenEntry
        (SimpleEntryImpl.OpenEntry abc_world "/cache/abc" "abc" 0 (some 1)).2
        "/cache/abc" "abc" 1 (some 2)).2
      (some 1) "abc" 0 (some 0)).world
    (some 2) "abc" 1 (some 1)).world

/-! ## The cache with its executor: definitions -/

/-- Modelled from the spec: a Record, "a fixed number of named data streams
(e.g., a header stream and a body stream), each with its own byte length; two
timestamps (last-used, last-modified)". A byte is a `Char`. -/
structure Record where
  streams : List (List Char)
  last_used : Time
  last_modified : Time
deriving DecidableEq, Repr

/-- Modelled from the spec: the record once a write at time `now` has left
`stream` as its stream number `index`. -/
def Record.write (record : Record) (index : Nat) (stream : List Char) (now : Time) : Record :=
  { streams := record.streams.set index stream, last_used := now, last_modified := now }

/-- The world once the worker-held object at the address `sync_entry` has the
content `content`. -/
def World.report (w : World) (sync_entry : Nat) (content : SimpleSynchronousEntry) : World :=
  { w with sync_entries := Function.update w.sync_entries sync_entry content }

/-- Modelled from the spec: the state of the BlockingExecutor, the external
collaborator that "performs the actual file I/O for open/create/doom/read/write
on a worker pool" (`simple_synchronous_entry.cc` is not among the sources).
* `directory`: the directory entries, each naming a record by its number for a
  cache path and a key ("identified by key → derived path");
* `records`: the records, by number; a record outlives its directory entry
  ("removal of on-disk artifacts ... only unlinks directory entries");
* `handles`: the record behind the resource handle at each address of a
  worker-held object, `none` where there is no handle or it has been torn down;
* `next_handle`: the address the next resource handle is issued at;
* `buffers`: the bytes of each `IOBuffer`. -/
structure BlockingExecutor where
  directory : List ((String × String) × Nat)
  records : List Record
  handles : Nat → Option Nat
  next_handle : Nat
  buffers : Nat → List Char

/-- What the executor hands back for one job: the bound callback of
`simple_entry_impl.cc` to run on the IO thread, with its last argument. -/
inductive Reply where
  | creation (callback : SynchronousCreationCallback) (sync_entry : Option Nat)
  | operation (callback : SynchronousOperationCallback) (result : Int)
  | doomed (callback : CompletionCallback) (result : Int)
  | nothing
deriving DecidableEq, Repr

namespace BlockingExecutor

/-- Modelled from the spec: the number of the record that the directory entry
for the cache path and the key names, if there is one. -/
def lookup (x : BlockingExecutor) (path key : String) : Option Nat :=
  (x.directory.find? (fun e => e.1 = (path, key))).map Prod.snd

/-- Modelled from the spec: what the worker-held object reports for a record,
"the authoritative copy of size/timestamps lives with the executor-held
resource handle": the times of the record, the byte length of each stream,
and as file size the bytes of all the streams. -/
def content (path key : String) (record : Record) : SimpleSynchronousEntry :=
  { path := path,
    key := key,
    last_used := record.last_used,
    last_modified := record.last_modified,
    data_size := fun i => ((record.streams.get? i).map (fun s => (s.length : Int))).getD 0,
    GetFileSize := ((record.streams.map List.length).sum : Nat) }

/-- Modelled from the spec: the bytes of a stream after `data` is written at
`offset`: the bytes before the offset stay, a gap up to the offset is filled
with zero bytes, and the bytes after the written range stay unless `truncate`
is set. -/
def written (stream data : List Char) (offset : Nat) (truncate : Bool) : List Char :=
  stream.take offset ++ List.replicate (offset - stream.length) (Char.ofNat 0) ++ data
    ++ (if truncate then [] else stream.drop (offset + data.length))

/-- Modelled from the spec: the record and the stream a read or a write on a
resource handle addresses: the handle is open, and the stream is one of the
record's streams. -/
def stream_of (x : BlockingExecutor) (sync_entry : Nat) (index : Int) :
    Option (Nat × Record × List Char) :=
  if 0 ≤ index then
    (x.handles sync_entry).bind (fun r =>
      (x.records.get? r).bind (fun record =>
        (record.streams.get? index.toNat).map (fun stream => (r, record, stream))))
  else none

/-- Modelled from the spec: the job functions of the BlockingExecutor,
"`OpenEntry`, `CreateEntry`, `DoomEntry` (path, key, completion callback →
resource handle or failure) and, given a resource handle, `ReadData`,
`WriteData`, `Close` (each → a result code via callback)". One job runs at time
`now` on a record of `kSimpleEntryFileCount` streams; the result is the world
with the content of the worker-held object the job worked on, the executor,
and the reply. A create makes an empty record and fails when the key has a
record; an open fails when it has none; a doom unlinks the directory entry; a
read fills the buffer with the bytes of the stream from the offset on, at most
`buf_len` of them; a write takes `buf_len` bytes of the buffer; a close tears
the handle down. The result code of a read or a write is `OK` or
`ERR_FAILED`, of the "closed result set". -/
def perform (kSimpleEntryFileCount : Nat) (now : Time) (w : World) (x : BlockingExecutor) :
    Job → World × BlockingExecutor × Reply
  | Job.CreateEntry path key callback =>
    match x.lookup path key with
    | some _ => (w, x, Reply.creation callback none)
    | none =>
      (w.report x.next_handle
          (content path key ⟨List.replicate kSimpleEntryFileCount [], now, now⟩),
        { x with
          directory := ((path, key), x.records.length) :: x.directory,
          records := x.records ++ [⟨List.replicate kSimpleEntryFileCount [], now, now⟩],
          handles := Function.update x.handles x.next_handle (some x.records.length),
          next_handle := x.next_handle + 1 },
        Reply.creation callback (some x.next_handle))
  | Job.OpenEntry path key callback =>
    match (x.lookup path key).bind
        (fun r => (x.records.get? r).map (fun record => (r, record))) with
    | none => (w, x, Reply.creation callback none)
    | some (r, record) =>
      (w.report x.next_handle (content path key record),
        { x with
          handles := Function.update x.handles x.next_handle (some r),
          next_handle := x.next_handle + 1 },
        Reply.creation callback (some x.next_handle))
  | Job.DoomEntry path key callback =>
    (w, { x with directory := x.directory.filter (fun e => e.1 ≠ (path, key)) },
      Reply.doomed callback net.OK)
  | Job.ReadData sync_entry index offset buf buf_len callback =>
    match x.stream_of sync_entry index with
    | none => (w, x, Reply.operation callback net.ERR_FAILED)
    | some (r, record, stream) =>
      if 0 ≤ offset ∧ 0 ≤ buf_len then
        (w.report sync_entry
            (content (w.sync_entries sync_entry).path (w.sync_entries sync_entry).key
              { record with last_used := now }),
          { x with
            records := x.records.set r { record with last_used := now },
            buffers := Function.update x.buffers buf
              ((stream.drop offset.toNat).take buf_len.toNat
                ++ (x.buffers buf).drop
                    ((stream.drop offset.toNat).take buf_len.toNat).length) },
          Reply.operation callback net.OK)
      else (w, x, Reply.operation callback net.ERR_FAILED)
  | Job.WriteData sync_entry index offset buf buf_len callback truncate =>
    match x.stream_of sync_entry index with
    | none => (w, x, Reply.operation callback net.ERR_FAILED)
    | some (r, record, stream) =>
      if 0 ≤ offset ∧ 0 ≤ buf_len ∧ buf_len.toNat ≤ (x.buffers buf).length then
        (w.report sync_entry
            (content (w.sync_entries sync_entry).path (w.sync_entries sync_entry).key
              (record.write index.toNat
                (written stream ((x.buffers buf).take buf_len.toNat) offset.toNat truncate)
                now)),
          { x with
            records := x.records.set r
              (record.write index.toNat
                (written stream ((x.buffers buf).take buf_len.toNat) offset.toNat truncate)
                now) },
          Reply.operation callback net.OK)
      else (w, x, Reply.operation callback net.ERR_FAILED)
  | Job.Close sync_entry =>
    (w, { x with handles := Function.update x.handles sync_entry none }, Reply.nothing)

end BlockingExecutor

/-- The delivery of a reply on the IO thread: the bound callback runs. A doom
job has a reply only for a callback that is not null. -/
def deliver (kSimpleEntryFileCount : Nat) (w : World) : Reply → Outcome Unit
  | Reply.creation callback sync_entry =>
    SimpleEntryImpl.CreationOperationComplete kSimpleEntryFileCount w callback.callback
      callback.key callback.entry sync_entry
  | Reply.operation callback result =>
    SimpleEntryImpl.EntryOperationComplete kSimpleEntryFileCount w callback.callback
      callback.entry callback.sync_entry result
  | Reply.doomed callback result =>
    match callback with
    | some _ => Run w callback result
    | none => Outcome.returned () w
  | Reply.nothing => Outcome.returned () w

/-- A request of the caller, or one job done by the executor. The member
functions are called on the entry object whose address is in the output slot
`entry`; `perform i now` has the executor run the queued job at position `i`
at time `now`, and delivers its reply. -/
inductive Request where
  | CreateEntry (path key : String) (entry : Nat) (callback : CompletionCallback)
  | OpenEntry (path key : String) (entry : Nat) (callback : CompletionCallback)
  | DoomEntry (path key : String) (callback : CompletionCallback)
  | ReadData (entry : Nat) (index offset : Int) (buf : Nat) (buf_len : Int)
      (callback : CompletionCallback)
  | WriteData (entry : Nat) (index offset : Int) (buf : Nat) (buf_len : Int)
      (callback : CompletionCallback) (truncate : Bool)
  | Doom (entry : Nat)
  | Close (entry : Nat)
  | perform (i : Nat) (now : Time)

/-- The cache as a whole: the world of the IO thread, the executor, and the jobs
posted that the executor has not run yet, oldest first. -/
structure System where
  w : World
  x : BlockingExecutor
  queue : List Job

namespace System

/-- The system once the IO thread has moved to the world `w1`: the jobs posted
on the way are queued. -/
def moved (s : System) (w1 : World) : System :=
  { s with w := w1, queue := s.queue ++ w1.jobs.drop s.w.jobs.length }

/-- The system after a call of a member function, `none` when the call
aborted. -/
def after_call {α : Type} (s : System) (o : Outcome α) : Option System :=
  match o with
  | Outcome.returned _ w1 => some (s.moved w1)
  | Outcome.aborted _ _ => none

/-- The system after the executor, now in the state `x1`, has run the queued job
at position `i` and its reply has been delivered: the jobs posted on the way
are queued; `none` when the delivery aborted. -/
def after_reply (s : System) (x1 : BlockingExecutor) (i : Nat) (o : Outcome Unit) :
    Option System :=
  match o with
  | Outcome.returned _ w1 =>
    some { w := w1, x := x1, queue := s.queue.eraseIdx i ++ w1.jobs.drop s.w.jobs.length }
  | Outcome.aborted _ _ => none

/-- One request. The result is `none` when a member function is called through
an output slot that is not set or aborts, when there is no job at the position
to perform, or when the delivery of the reply aborts. -/
def step (kSimpleEntryFileCount : Nat) (os_posix : Bool) (s : System) : Request → Option System
  | Request.CreateEntry path key entry callback =>
    some (s.moved (SimpleEntryImpl.CreateEntry s.w path key entry callback).2)
  | Request.OpenEntry path key entry callback =>
    some (s.moved (SimpleEntryImpl.OpenEntry s.w path key entry callback).2)
  | Request.DoomEntry path key callback =>
    some (s.moved (SimpleEntryImpl.DoomEntry s.w path key callback).2)
  | Request.ReadData entry index offset buf buf_len callback =>
    match s.w.out_entries entry with
    | none => none
    | some this =>
      s.after_call (SimpleEntryImpl.ReadData s.w this index offset buf buf_len callback)
  | Request.WriteData entry index offset buf buf_len callback truncate =>
    match s.w.out_entries entry with
    | none => none
    | some this =>
      s.after_call
        (SimpleEntryImpl.WriteData s.w this index offset buf buf_len callback truncate)
  | Request.Doom entry =>
    match s.w.out_entries entry with
    | none => none
    | some this => s.after_call (SimpleEntryImpl.Doom os_posix s.w this)
  | Request.Close entry =>
    match s.w.out_entries entry with
    | none => none
    | some this => s.after_call (SimpleEntryImpl.Close s.w this)
  | Request.perform i now =>
    match s.queue.get? i with
    | none => none
    | some job =>
      s.after_reply (BlockingExecutor.perform kSimpleEntryFileCount now s.w s.x job).2.1 i
        (deliver kSimpleEntryFileCount
          (BlockingExecutor.perform kSimpleEntryFileCount now s.w s.x job).1
          (BlockingExecutor.perform kSimpleEntryFileCount now s.w s.x job).2.2)

/-- A sequence of requests, in order. -/
def run (kSimpleEntryFileCount : Nat) (os_posix : Bool) : System → List Request → Option System
  | s, [] => some s
  | s, c :: cs =>
    match step kSimpleEntryFileCount os_posix s c with
    | some s1 => run kSimpleEntryFileCount os_posix s1 cs
    | none => none

/-- The output slot `entry` holds a live, idle entry object for `key`, whose
cached size of stream 0 is the length of `bytes`; its resource handle is open
on the record that the directory names for `path` and `key`, whose stream 0 is
`bytes`; the index is available and tracks `key`; no job is queued. -/
def holds (s : System) (path key : String) (entry : Nat) (bytes : List Char) : Prop :=
  s.queue = []
  ∧ (∃ idx, s.w.index = some idx ∧ idx.Has key = true)
  ∧ ∃ this e r record, s.w.out_entries entry = some this
      ∧ s.w.entry this = some e
      ∧ e.key_ = key
      ∧ e.synchronous_entry_in_use_by_worker_ = false
      ∧ SimpleEntryImpl.GetDataSize e 0 = some (bytes.length : Int)
      ∧ (s.w.sync_entries e.synchronous_entry_).key = key
      ∧ s.x.handles e.synchronous_entry_ = some r
      ∧ s.x.lookup path key = some r
      ∧ s.x.records.get? r = some record
      ∧ record.streams.get? 0 = some bytes

/-- No job is queued, the index is available and tracks `key`, and the directory
names for `path` and `key` a record whose stream 0 is `bytes`. -/
def stored (s : System) (path key : String) (bytes : List Char) : Prop :=
  s.queue = []
  ∧ (∃ idx, s.w.index = some idx ∧ idx.Has key = true)
  ∧ ∃ r record, s.x.lookup path key = some r
      ∧ s.x.records.get? r = some record
      ∧ record.streams.get? 0 = some bytes

end System

/-- The first half of the scenario: create the entry for `key`, then write the
`buf_len` bytes of the buffer `buf` to stream 0 at offset 0 with `truncate`
set; the executor runs each job when it is posted. -/
def create_and_write (path key : String) (entry buf : Nat) (buf_len : Int)
    (created written : CompletionCallback) (t1 t2 : Time) : List Request :=
  [Request.CreateEntry path key entry created, Request.perform 0 t1,
   Request.WriteData entry 0 0 buf buf_len written true, Request.perform 0 t2]

/-- The second half of the scenario: close the entry, open the entry for `key`
again, then read `buf_len` bytes of stream 0 from offset 0 into the buffer
`buf`. -/
def reopen_and_read (path key : String) (entry reopened buf : Nat) (buf_len : Int)
    (opened read : CompletionCallback) (t3 t4 t5 : Time) : List Request :=
  [Request.Close entry, Request.perform 0 t3,
   Request.OpenEntry path key reopened opened, Request.perform 0 t4,
   Request.ReadData reopened 0 0 buf buf_len read, Request.perform 0 t5]

/-- A new cache: an empty index, no entry object, an empty directory, and the
bytes "hello" in the buffer 7. -/
def hello_system : System :=
  { w := { index := some ⟨[]⟩, sync_entries := fun _ => abc_sync_entry, entries := [],
           out_entries := fun _ => none, trace := [] },
    x := { directory := [], records := [], handles := fun _ => none, next_handle := 0,
           buffers := fun buf => if buf = 7 then "hello".toList else [] },
    queue := [] }

end disk_cache

/-!
# SpdyWriteQueue (net/spdy/spdy_write_queue.cc)

The queue of pending frame writes of a SPDY session: one deque for each
priority. A frame producer is named by the address of the object, and the
deletions the queue makes are recorded. `NUM_PRIORITIES` is a parameter of the
functions that loop over the priorities.
-/

namespace net

/-- The part of class `SpdyStream` the write queue uses (`spdy_stream.h` is not
among the sources): the address of the object and the value `priority()`
returns. `==` on `scoped_refptr<SpdyStream>` compares the addresses; an object
has one priority, so two values name the same object exactly when they are
equal. A `RequestPriority` (`net/base/request_priority.h` is not among the
sources) is a number below `NUM_PRIORITIES`, which the functions that loop
over the priorities take as a parameter. -/
structure SpdyStream where
  address : Nat
  priority : Nat
deriving DecidableEq, Repr

/-- `SpdyWriteQueue::PendingWrite`: the address of the frame producer and the
stream, `none` for a NULL `scoped_refptr`. -/
structure PendingWrite where
  frame_producer : Nat
  stream : Option SpdyStream
deriving DecidableEq, Repr

/-- `SpdyWriteQueue`: `queue_` is the array of `NUM_PRIORITIES` deques, front
first; `deleted` records, in order, the frame producers the queue has
destroyed with `delete it->frame_producer`. -/
structure SpdyWriteQueue where
  queue_ : Nat → List PendingWrite
  deleted : List Nat

namespace SpdyWriteQueue

/-- The constructor `SpdyWriteQueue::SpdyWriteQueue()`: every deque is empty. -/
def empty : SpdyWriteQueue :=
  { queue_ := fun _ => [], deleted := [] }

/-- `SpdyWriteQueue::Enqueue`. The `DCHECK_EQ` is compiled out. -/
def Enqueue (q : SpdyWriteQueue) (priority : Nat) (frame_producer : Nat)
    (stream : Option SpdyStream) : SpdyWriteQueue :=
  { q with
    queue_ := Function.update q.queue_ priority
      (q.queue_ priority ++ [PendingWrite.mk frame_producer stream]) }

/-- The loop of `SpdyWriteQueue::Dequeue` when the priorities below `n` are left
to look at, highest first: the pending write taken and the queue without it,
or `none` when the loop runs to its end. -/
def Dequeue_loop (q : SpdyWriteQueue) : Nat → Option (PendingWrite × SpdyWriteQueue)
  | 0 => none
  | i + 1 =>
    match q.queue_ i with
    | [] => Dequeue_loop q i
    | pending_write :: rest =>
      some (pending_write, { q with queue_ := Function.update q.queue_ i rest })

/-- `SpdyWriteQueue::Dequeue`. `frame_producer` and `stream` are the contents of
the two output arguments before the call; the result is the value returned,
the contents of the two output arguments after the call, and the queue.
`reset` also destroys the producer the caller's `scoped_ptr` held before the
call; that producer belongs to the caller and is not followed here. -/
def Dequeue (NUM_PRIORITIES : Nat) (q : SpdyWriteQueue) (frame_producer : Option Nat)
    (stream : Option SpdyStream) : Bool × Option Nat × Option SpdyStream × SpdyWriteQueue :=
  match Dequeue_loop q NUM_PRIORITIES with
  | some (pending_write, q1) =>
    (true, some pending_write.frame_producer, pending_write.stream, q1)
  | none => (false, frame_producer, stream, q)

/-- The second loop of `SpdyWriteQueue::RemovePendingWritesForStream` over one
deque: the pending writes kept, in order, and the frame producers deleted, in
order. -/
def RemovePendingWritesForStream_loop (stream : SpdyStream) :
    List PendingWrite → List PendingWrite × List Nat
  | [] => ([], [])
  | it :: rest =>
    if it.stream = some stream then
      ((RemovePendingWritesForStream_loop stream rest).1,
        it.frame_producer :: (RemovePendingWritesForStream_loop stream rest).2)
    else
      (it :: (RemovePendingWritesForStream_loop stream rest).1,
        (RemovePendingWritesForStream_loop stream rest).2)

/-- `SpdyWriteQueue::RemovePendingWritesForStream`. The `DCHECK`s, and the block
under `DCHECK_IS_ON()`, are compiled out; with a NULL `stream` the call
`stream->priority()` dereferences a null pointer, which is the result `none`. -/
def RemovePendingWritesForStream (q : SpdyWriteQueue) (stream : Option SpdyStream) :
    Option SpdyWriteQueue :=
  match stream with
  | none => none
  | some s =>
    some {
      queue_ := Function.update q.queue_ s.priority
        (RemovePendingWritesForStream_loop s (q.queue_ s.priority)).1,
      deleted := q.deleted ++ (RemovePendingWritesForStream_loop s (q.queue_ s.priority)).2 }

/-- The body of the loop of `SpdyWriteQueue::Clear` for the priority `i`. -/
def Clear_body (q : SpdyWriteQueue) (i : Nat) : SpdyWriteQueue :=
  { queue_ := Function.update q.queue_ i [],
    deleted := q.deleted ++ (q.queue_ i).map PendingWrite.frame_producer }

/-- `SpdyWriteQueue::Clear`. -/
def Clear (NUM_PRIORITIES : Nat) (q : SpdyWriteQueue) : SpdyWriteQueue :=
  (List.range NUM_PRIORITIES).foldl Clear_body q

/-- The pending writes of the priorities below `n`, highest priority first and
front first within a priority. -/
def pending (q : SpdyWriteQueue) (n : Nat) : List PendingWrite :=
  (List.range n).reverse.flatMap q.queue_

/-- One call of `Enqueue`: the priority, the frame producer and the stream. -/
structure Write where
  priority : Nat
  frame_producer : Nat
  stream : Option SpdyStream
deriving DecidableEq, Repr

/-- The pending write `Enqueue` stores for a call. -/
def Write.pending_write (w : Write) : PendingWrite :=
  PendingWrite.mk w.frame_producer w.stream

/-- The precondition of `Enqueue`, its `DCHECK_EQ`: a stream that is not NULL
has the priority it is enqueued at. -/
def Write.respects (w : Write) : Prop :=
  ∀ s, w.stream = some s → s.priority = w.priority

/-- A sequence of `Enqueue` calls, in order. -/
def Enqueue_all (q : SpdyWriteQueue) (writes : List Write) : SpdyWriteQueue :=
  writes.foldl (fun q1 w => q1.Enqueue w.priority w.frame_producer w.stream) q

/-- The caller's loop "call `Dequeue` until it returns false", run for at most
`fuel` calls that return true: the (frame producer, stream) pairs delivered,
in order, and the queue that is left. -/
def drain (NUM_PRIORITIES : Nat) : Nat → SpdyWriteQueue → List (Option Nat × Option SpdyStream) × SpdyWriteQueue
  | 0, q => ([], q)
  | fuel + 1, q =>
    if (Dequeue NUM_PRIORITIES q none none).1 then
      (((Dequeue NUM_PRIORITIES q none none).2.1, (Dequeue NUM_PRIORITIES q none none).2.2.1)
          :: (drain NUM_PRIORITIES fuel (Dequeue NUM_PRIORITIES q none none).2.2.2).1,
        (drain NUM_PRIORITIES fuel (Dequeue NUM_PRIORITIES q none none).2.2.2).2)
    else ([], q)

/-- What `Dequeue` delivers for a pending write. -/
def PendingWrite.delivered (pw : PendingWrite) : Option Nat × Option SpdyStream :=
  (some pw.frame_producer, pw.stream)

/-- The order "not lower in priority" on `Enqueue` calls, by which the stable
sort by descending priority sorts. -/
def Write.not_lower (a b : Write) : Prop :=
  b.priority ≤ a.priority

instance Write.decidable_not_lower : DecidableRel Write.not_lower :=
  fun a b => inferInstanceAs (Decidable (b.priority ≤ a.priority))

/-- The bucket invariant: a pending write with a stream that is not NULL sits in
the deque of that stream's priority. -/
def bucket_invariant (q : SpdyWriteQueue) : Prop :=
  ∀ i pw s, pw ∈ q.queue_ i → pw.stream = some s → s.priority = i

/-- The calls of the priorities below `n`, highest priority first and in the
order of the list within a priority. -/
def by_priority (n : Nat) (writes : List Write) : List Write :=
  (List.range n).reverse.flatMap (fun i => writes.filter (fun w => w.priority = i))

/-- The writes of the test `DequeuesByPriority`, followed by those of the test
`DequeuesFIFO`: LOW (2) with a NULL stream, MEDIUM (3), HIGHEST (4), then three
writes at DEFAULT_PRIORITY (1) for three streams. -/
def test_writes : List Write :=
  [Write.mk 2 10 none, Write.mk 3 11 (some (SpdyStream.mk 100 3)),
   Write.mk 4 12 (some (SpdyStream.mk 101 4)),
   Write.mk 1 1 (some (SpdyStream.mk 102 1)), Write.mk 1 2 (some (SpdyStream.mk 103 1)),
   Write.mk 1 3 (some (SpdyStream.mk 104 1))]

/-- The stream `stream1` of the test `RemovePendingWritesForStream`, made with
DEFAULT_PRIORITY (1). -/
def stream1 : SpdyStream := SpdyStream.mk 201 1

/-- The stream `stream2` of the test `RemovePendingWritesForStream`, made with
DEFAULT_PRIORITY (1). -/
def stream2 : SpdyStream := SpdyStream.mk 202 1

/-- The 100 `Enqueue` calls of the test `RemovePendingWritesForStream`: call `i`
is at DEFAULT_PRIORITY, carries the frame producer `i`, and is for `stream1`
when `(i % 3) == 0` and for `stream2` otherwise. -/
def removal_test_writes : List Write :=
  (List.range 100).map
    (fun i => Write.mk 1 i (some (if i % 3 = 0 then stream1 else stream2)))

/-- A call of one of the four member functions of the queue. -/
inductive QueueCall where
  | Enqueue (w : Write)
  | Dequeue
  | RemovePendingWritesForStream (stream : Option SpdyStream)
  | Clear
deriving DecidableEq, Repr

/-- The precondition `Enqueue` checks with `DCHECK_EQ`; the other calls have
none that concerns the placing of a write. -/
def QueueCall.respects : QueueCall → Prop
  | QueueCall.Enqueue w => w.respects
  | _ => True

/-- The priorities a call names index the array `queue_`: they are below
`NUM_PRIORITIES`. -/
def QueueCall.in_range (NUM_PRIORITIES : Nat) : QueueCall → Prop
  | QueueCall.Enqueue w => w.priority < NUM_PRIORITIES
  | QueueCall.RemovePendingWritesForStream (some s) => s.priority < NUM_PRIORITIES
  | _ => True

/-- A queue in use: the queue, and the frame producers `Dequeue` has handed to
its callers so far, in order. -/
structure QueueState where
  queue : SpdyWriteQueue
  handed_out : List Nat

/-- A new queue, from which nothing has been dequeued. -/
def QueueState.initial : QueueState :=
  { queue := empty, handed_out := [] }

/-- One call on a queue in use. Each `Dequeue` is given empty output arguments,
as in the tests. The result is `none` when the call dereferences a null
pointer. -/
def QueueState.step (NUM_PRIORITIES : Nat) (st : QueueState) : QueueCall → Option QueueState
  | QueueCall.Enqueue w =>
    some { st with queue := st.queue.Enqueue w.priority w.frame_producer w.stream }
  | QueueCall.Dequeue =>
    some { queue := (st.queue.Dequeue NUM_PRIORITIES none none).2.2.2,
           handed_out := st.handed_out
             ++ (if (st.queue.Dequeue NUM_PRIORITIES none none).1
                 then (st.queue.Dequeue NUM_PRIORITIES none none).2.1.toList else []) }
  | QueueCall.RemovePendingWritesForStream stream =>
    (st.queue.RemovePendingWritesForStream stream).map
      (fun q1 => { st with queue := q1 })
  | QueueCall.Clear => some { st with queue := st.queue.Clear NUM_PRIORITIES }

/-- A sequence of calls, in order. -/
def QueueState.run (NUM_PRIORITIES : Nat) : QueueState → List QueueCall → Option QueueState
  | st, [] => some st
  | st, c :: cs =>
    match st.step NUM_PRIORITIES c with
    | some st1 => QueueState.run NUM_PRIORITIES st1 cs
    | none => none

/-- The frame producers a sequence of calls enqueues, in order. -/
def enqueued : List QueueCall → List Nat
  | [] => []
  | QueueCall.Enqueue w :: cs => w.frame_producer :: enqueued cs
  | _ :: cs => enqueued cs

/-- The frame producers pending in the deques of the priorities below `n`. -/
def pending_producers (q : SpdyWriteQueue) (n : Nat) : List Nat :=
  (q.pending n).map PendingWrite.frame_producer

/-- A sequence of calls with all four member functions: five writes for two
streams of different priority and for no stream, a dequeue, a removal, a
dequeue and a clear, then one more write. -/
def sample_calls : List QueueCall :=
  [QueueCall.Enqueue (Write.mk 1 1 (some stream1)),
   QueueCall.Enqueue (Write.mk 3 2 (some (SpdyStream.mk 203 3))),
   QueueCall.Enqueue (Write.mk 1 3 (some stream2)),
   QueueCall.Enqueue (Write.mk 2 4 none),
   QueueCall.Enqueue (Write.mk 1 5 (some stream1)),
   QueueCall.Dequeue,
   QueueCall.RemovePendingWritesForStream (some stream1),
   QueueCall.Dequeue,
   QueueCall.Clear,
   QueueCall.Enqueue (Write.mk 4 6 none)]

/-- The frame producers a queue in use accounts for: those pending in the deques
of the priorities below `n`, those handed out by `Dequeue`, and those deleted. -/
def QueueState.producers (st : QueueState) (n : Nat) : List Nat :=
  pending_producers st.queue n ++ st.handed_out ++ st.queue.deleted

end SpdyWriteQueue

end net

/-!
# LocalOmniboxPopupSource (chrome/browser/search/local_omnibox_popup_source.cc)

The data source that serves the files of the local omnibox popup.
-/

namespace LocalOmniboxPopupSource

/-- The constant `kHtmlFilename`. A `String` stands for a `std::string`, one
`Char` for each `char`. -/
def kHtmlFilename : String := "local-omnibox-popup.html"

/-- The constant `kJSFilename`. -/
def kJSFilename : String := "local-omnibox-popup.js"

/-- The constant `kCssFilename`. -/
def kCssFilename : String := "local-omnibox-popup.css"

/-- The constant `kPageIconFilename`. -/
def kPageIconFilename : String := "images/page_icon.png"

/-- The constant `kPageIcon2xFilename`. -/
def kPageIcon2xFilename : String := "images/2x/page_icon.png"

/-- The constant `kSearchIconFilename`. -/
def kSearchIconFilename : String := "images/search_icon.png"

/-- The constant `kSearchIcon2xFilename`. -/
def kSearchIcon2xFilename : String := "images/2x/search_icon.png"

/-- The resource identifiers of `grit/browser_resources.h` (not among the
sources) that `StartDataRequest` names. -/
inductive ResourceId where
  | IDR_LOCAL_OMNIBOX_POPUP_HTML
  | IDR_LOCAL_OMNIBOX_POPUP_JS
  | IDR_LOCAL_OMNIBOX_POPUP_CSS
  | IDR_LOCAL_OMNIBOX_POPUP_IMAGES_PAGE_ICON_PNG
  | IDR_LOCAL_OMNIBOX_POPUP_IMAGES_2X_PAGE_ICON_PNG
  | IDR_LOCAL_OMNIBOX_POPUP_IMAGES_SEARCH_ICON_PNG
  | IDR_LOCAL_OMNIBOX_POPUP_IMAGES_2X_SEARCH_ICON_PNG
deriving DecidableEq, Repr

/-- `LocalOmniboxPopupSource::StartDataRequest`: what `callback` is run with,
`some identifier` for the bytes
`ResourceBundle::GetSharedInstance().LoadDataResourceBytes(identifier)` loads
and `none` for `callback.Run(NULL)`. -/
def StartDataRequest (path : String) (_is_incognito : Bool) : Option ResourceId :=
  if path = kHtmlFilename then
    some ResourceId.IDR_LOCAL_OMNIBOX_POPUP_HTML
  else if path = kJSFilename then
    some ResourceId.IDR_LOCAL_OMNIBOX_POPUP_JS
  else if path = kCssFilename then
    some ResourceId.IDR_LOCAL_OMNIBOX_POPUP_CSS
  else if path = kPageIconFilename then
    some ResourceId.IDR_LOCAL_OMNIBOX_POPUP_IMAGES_PAGE_ICON_PNG
  else if path = kPageIcon2xFilename then
    some ResourceId.IDR_LOCAL_OMNIBOX_POPUP_IMAGES_2X_PAGE_ICON_PNG
  else if path = kSearchIconFilename then
    some ResourceId.IDR_LOCAL_OMNIBOX_POPUP_IMAGES_SEARCH_ICON_PNG
  else if path = kSearchIcon2xFilename then
    some ResourceId.IDR_LOCAL_OMNIBOX_POPUP_IMAGES_2X_SEARCH_ICON_PNG
  else
    none

/-- `LocalOmniboxPopupSource::GetMimeType`. -/
def GetMimeType (path : String) : String :=
  if path = kHtmlFilename then
    "text/html"
  else if path = kJSFilename then
    "application/javascript"
  else if path = kCssFilename then
    "text/css"
  else if path = kPageIconFilename ∨ path = kPageIcon2xFilename
      ∨ path = kSearchIconFilename ∨ path = kSearchIcon2xFilename then
    "image/png"
  else
    ""

/-- The parts of a `GURL` (`googleurl/src/gurl.h` is not among the sources) that
`ShouldServiceRequest` reads: the scheme, the host and the path. -/
structure GURL where
  scheme : String
  host : String
  path : String
deriving DecidableEq, Repr

/-- `GURL::SchemeIs` (`googleurl/src/gurl.h` is not among the sources): whether
the scheme of the URL, which a `GURL` keeps in lower case, is the given
lower-case scheme. -/
def GURL.SchemeIs (url : GURL) (lower_ascii_scheme : String) : Bool :=
  url.scheme = lower_ascii_scheme

/-- The part of a `net::URLRequest` that `ShouldServiceRequest` reads. -/
structure URLRequest where
  url : GURL
deriving DecidableEq, Repr

/-- `std::string::substr(pos)`: the string from position `pos` on, and `none`
for the `std::out_of_range` of a position beyond the end. -/
def substr (s : String) (pos : Nat) : Option String :=
  if pos ≤ s.length then some (s.drop pos) else none

/-- `LocalOmniboxPopupSource::ShouldServiceRequest`, the `DCHECK`s compiled out.
The constant `chrome::kChromeSearchScheme` (`chrome/common/url_constants.h` is
not among the sources) is a parameter. The result is `none` when `substr`
fails. -/
def ShouldServiceRequest (kChromeSearchScheme : String) (request : URLRequest) : Option Bool :=
  if request.url.SchemeIs kChromeSearchScheme then
    match substr request.url.path 1 with
    | none => none
    | some filename =>
      some (filename = kHtmlFilename || filename = kJSFilename
        || filename = kCssFilename || filename = kPageIconFilename
        || filename = kPageIcon2xFilename || filename = kSearchIconFilename
        || filename = kSearchIcon2xFilename)
  else
    some false

/-- The seven file names, in the order of their declarations. -/
def filenames : List String :=
  [kHtmlFilename, kJSFilename, kCssFilename, kPageIconFilename, kPageIcon2xFilename,
    kSearchIconFilename, kSearchIcon2xFilename]

end LocalOmniboxPopupSource

namespace disk_cache

/-! ## Lemmas on the index and on the heap -/

theorem SimpleIndex.UseIfExists_fst (idx : SimpleIndex) (key : String) :
    (idx.UseIfExists key).1 = idx.Has key := by
  unfold SimpleIndex.UseIfExists SimpleIndex.Has
  cases h : idx.entries.find? (fun e => e.1 == key) with
  | none =>
    simp only [List.find?_eq_none] at h
    symm
    simpa [List.any_eq_false] using h
  | some e =>
    have hm := List.mem_of_find?_eq_some h
    have hp := List.find?_some h
    symm
    simp only [List.any_eq_true]
    exact ⟨e, hm, hp⟩

theorem SimpleIndex.Has_Remove (idx : SimpleIndex) (key : String) :
    (idx.Remove key).Has key = false := by
  simp [SimpleIndex.Remove, SimpleIndex.Has, List.any_eq_false]

theorem SimpleIndex.Has_Insert (idx : SimpleIndex) (key : String) :
    (idx.Insert key).Has key = true := by
  unfold SimpleIndex.Insert
  by_cases h : idx.Has key = true
  · simp [h]
  · rw [if_neg h]
    simp [SimpleIndex.Has]

theorem World.entry_set_entry (w : World) (p : Nat) (e0 e : SimpleEntryImpl)
    (h : w.entry p = some e0) : (w.set_entry p e).entry p = some e := by
  unfold World.entry at h
  have hlt : p < w.entries.length := by
    by_contra hge
    have hnone : w.entries.get? p = none := by
      simp only [List.get?_eq_getElem?]
      exact List.getElem?_eq_none (by omega)
    rw [hnone] at h
    simp at h
  simp [World.entry, World.set_entry, List.getElem?_set, hlt]

theorem Run_some (w : World) (callback : Nat) (result : Int) :
    Run w (some callback) result
      = Outcome.returned () (w.log (Event.Run (some callback) result w.index)) := rfl

theorem Run_none (w : World) (result : Int) :
    Run w none result = Outcome.aborted Fault.null_dereference w := rfl

theorem World.jobs_Run (w : World) (callback : CompletionCallback) (result : Int) :
    (Run w callback result).world.jobs = w.jobs := by
  cases callback <;> simp [Run, Outcome.world, World.log, World.jobs, List.filterMap_append]

theorem World.entries_Run (w : World) (callback : CompletionCallback) (result : Int) :
    (Run w callback result).world.entries = w.entries := by
  cases callback <;> rfl

theorem World.entry_Run (w : World) (callback : CompletionCallback) (result : Int) (p : Nat) :
    (Run w callback result).world.entry p = w.entry p := by
  cases callback <;> rfl

theorem World.index_Run (w : World) (callback : CompletionCallback) (result : Int) :
    (Run w callback result).world.index = w.index := by
  cases callback <;> rfl

theorem World.sync_entries_Run (w : World) (callback : CompletionCallback) (result : Int) :
    (Run w callback result).world.sync_entries = w.sync_entries := by
  cases callback <;> rfl

theorem World.out_entries_Run (w : World) (callback : CompletionCallback) (result : Int) :
    (Run w callback result).world.out_entries = w.out_entries := by
  cases callback <;> rfl

theorem World.index_calls_Run (w : World) (callback : CompletionCallback) (result : Int) :
    (Run w callback result).world.index_calls = w.index_calls := by
  cases callback <;>
    simp [Run, Outcome.world, World.log, World.index_calls, List.filter_append]

theorem World.runs_Run (w : World) (callback : Nat) (result : Int) :
    (Run w (some callback) result).world.runs = w.runs ++ [(some callback, result)] := by
  simp [Run, Outcome.world, World.log, World.runs, List.filterMap_append]

/-! ## The factory operations -/

open SimpleEntryImpl

/-- Claim C1: for every key and every available index that does not track the
key (`UseIfExists(key)` is false), `OpenEntry` returns `ERR_FAILED`, which is
not `ERR_IO_PENDING`; it posts no job, runs no callback, leaves every output
slot and every entry object as they were; its only call is the `UseIfExists`. -/
theorem C1_OpenEntry_absent_key_fails_fast (w : World) (idx : SimpleIndex)
    (path key : String) (entry : Nat) (callback : CompletionCallback)
    (hidx : w.index = some idx) (habsent : (idx.UseIfExists key).1 = false) :
    (OpenEntry w path key entry callback).1 = net.ERR_FAILED
    ∧ (OpenEntry w path key entry callback).1 ≠ net.ERR_IO_PENDING
    ∧ (OpenEntry w path key entry callback).2.jobs = w.jobs
    ∧ (OpenEntry w path key entry callback).2.runs = w.runs
    ∧ (OpenEntry w path key entry callback).2.out_entries = w.out_entries
    ∧ (OpenEntry w path key entry callback).2.entries = w.entries
    ∧ (OpenEntry w path key entry callback).2.trace = w.trace ++ [Event.UseIfExists key] := by
  have hop : OpenEntry w path key entry callback
      = (net.ERR_FAILED, (call_UseIfExists w idx key).2) := by
    simp [OpenEntry, hidx, call_UseIfExists, habsent]
  have hne : net.ERR_FAILED ≠ net.ERR_IO_PENDING := by decide
  rw [hop]
  refine ⟨rfl, hne, ?_, ?_, rfl, rfl, rfl⟩
  · simp [call_UseIfExists, World.jobs, List.filterMap_append]
  · simp [call_UseIfExists, World.runs, List.filterMap_append]

/-- Witness of C1: in `abc_world` the key "xyz" is not tracked. -/
theorem C1_OpenEntry_absent_key_fails_fast_witness :
    (OpenEntry abc_world "/cache/xyz" "xyz" 0 (some 1)).1 = net.ERR_FAILED
    ∧ (OpenEntry abc_world "/cache/xyz" "xyz" 0 (some 1)).1 ≠ net.ERR_IO_PENDING
    ∧ (OpenEntry abc_world "/cache/xyz" "xyz" 0 (some 1)).2.jobs = abc_world.jobs
    ∧ (OpenEntry abc_world "/cache/xyz" "xyz" 0 (some 1)).2.runs = abc_world.runs
    ∧ (OpenEntry abc_world "/cache/xyz" "xyz" 0 (some 1)).2.out_entries = abc_world.out_entries
    ∧ (OpenEntry abc_world "/cache/xyz" "xyz" 0 (some 1)).2.entries = abc_world.entries
    ∧ (OpenEntry abc_world "/cache/xyz" "xyz" 0 (some 1)).2.trace
        = abc_world.trace ++ [Event.UseIfExists "xyz"] :=
  C1_OpenEntry_absent_key_fails_fast abc_world ⟨[("abc", 5)]⟩ "/cache/xyz" "xyz" 0 (some 1)
    rfl (by decide)

/-- Claim C2: for every key, `OpenEntry` returns `ERR_IO_PENDING` exactly when
the index is unavailable or `UseIfExists(key)` is true, and exactly then it
posts one job, the open job for that path and key bound to the completion for
the given slot and callback; otherwise it posts none. With the index
unavailable it always proceeds. -/
theorem C2_OpenEntry_pending_iff (w : World) (path key : String) (entry : Nat)
    (callback : CompletionCallback) :
    ((OpenEntry w path key entry callback).1 = net.ERR_IO_PENDING
      ↔ (w.index = none ∨ ∃ idx, w.index = some idx ∧ (idx.UseIfExists key).1 = true))
    ∧ ((OpenEntry w path key entry callback).2.jobs
          = w.jobs ++ [Job.OpenEntry path key ⟨callback, key, entry⟩]
      ↔ (w.index = none ∨ ∃ idx, w.index = some idx ∧ (idx.UseIfExists key).1 = true))
    ∧ ((OpenEntry w path key entry callback).1 ≠ net.ERR_IO_PENDING
      → (OpenEntry w path key entry callback).2.jobs = w.jobs)
    ∧ (w.index = none
      → (OpenEntry w path key entry callback).1 = net.ERR_IO_PENDING
        ∧ (OpenEntry w path key entry callback).2.trace
            = w.trace ++ [Event.PostTask (Job.OpenEntry path key ⟨callback, key, entry⟩)]) := by
  cases hidx : w.index with
  | none =>
    simp [OpenEntry, hidx, PostTask, World.log, World.jobs, List.filterMap_append]
  | some idx =>
    cases hu : (idx.UseIfExists key).1 with
    | true =>
      simp [OpenEntry, hidx, hu, call_UseIfExists, PostTask, World.log, World.jobs,
        List.filterMap_append]
    | false =>
      have hne : net.ERR_FAILED ≠ net.ERR_IO_PENDING := by decide
      simp [OpenEntry, hidx, hu, call_UseIfExists, World.jobs, List.filterMap_append, hne]

/-- Claim C3: for every key and every state of the index, `CreateEntry` returns
`ERR_IO_PENDING`, its only call is the `PostTask` of one create job, and it
neither changes nor calls the index. -/
theorem C3_CreateEntry_always_schedules (w : World) (path key : String) (entry : Nat)
    (callback : CompletionCallback) :
    (CreateEntry w path key entry callback).1 = net.ERR_IO_PENDING
    ∧ (CreateEntry w path key entry callback).2.trace
        = w.trace ++ [Event.PostTask (Job.CreateEntry path key ⟨callback, key, entry⟩)]
    ∧ (CreateEntry w path key entry callback).2.jobs
        = w.jobs ++ [Job.CreateEntry path key ⟨callback, key, entry⟩]
    ∧ (CreateEntry w path key entry callback).2.index = w.index
    ∧ (CreateEntry w path key entry callback).2.index_calls = w.index_calls
    ∧ (CreateEntry w path key entry callback).2.runs = w.runs := by
  simp [CreateEntry, PostTask, World.log, World.jobs, World.runs, World.index_calls,
    List.filterMap_append, List.filter_append]

/-- Claim C4: for every key and every available index, `DoomEntry` first calls
`Remove(key)`, so that the index it leaves answers false to `UseIfExists(key)`,
then posts one doom job, and returns `ERR_IO_PENDING`; no callback runs. -/
theorem C4_DoomEntry_removes_synchronously (w : World) (idx : SimpleIndex)
    (path key : String) (callback : CompletionCallback) (hidx : w.index = some idx) :
    (DoomEntry w path key callback).1 = net.ERR_IO_PENDING
    ∧ (DoomEntry w path key callback).2.trace
        = w.trace ++ [Event.Remove key, Event.PostTask (Job.DoomEntry path key callback)]
    ∧ (DoomEntry w path key callback).2.jobs = w.jobs ++ [Job.DoomEntry path key callback]
    ∧ (DoomEntry w path key callback).2.index = some (idx.Remove key)
    ∧ ((idx.Remove key).UseIfExists key).1 = false
    ∧ (DoomEntry w path key callback).2.index_has key = false
    ∧ (DoomEntry w path key callback).2.runs = w.runs := by
  have hd : (DoomEntry w path key callback).2
      = { w with index := some (idx.Remove key),
                 trace := w.trace ++ [Event.Remove key,
                   Event.PostTask (Job.DoomEntry path key callback)] } := by
    simp [DoomEntry, if_index_Remove, hidx, PostTask, World.log]
  rw [hd]
  refine ⟨rfl, rfl, ?_, rfl, ?_, ?_, ?_⟩
  · simp [World.jobs, List.filterMap_append]
  · rw [SimpleIndex.UseIfExists_fst, SimpleIndex.Has_Remove]
  · simp [World.index_has, SimpleIndex.Has_Remove]
  · simp [World.runs, List.filterMap_append]

/-- Witness of C4: dooming "abc" in `abc_world`, whose index tracks "abc". -/
theorem C4_DoomEntry_removes_synchronously_witness :
    (DoomEntry abc_world "/cache/abc" "abc" (some 2)).1 = net.ERR_IO_PENDING
    ∧ (DoomEntry abc_world "/cache/abc" "abc" (some 2)).2.trace
        = abc_world.trace ++ [Event.Remove "abc",
            Event.PostTask (Job.DoomEntry "/cache/abc" "abc" (some 2))]
    ∧ (DoomEntry abc_world "/cache/abc" "abc" (some 2)).2.jobs
        = abc_world.jobs ++ [Job.DoomEntry "/cache/abc" "abc" (some 2)]
    ∧ (DoomEntry abc_world "/cache/abc" "abc" (some 2)).2.index
        = some ((⟨[("abc", 5)]⟩ : SimpleIndex).Remove "abc")
    ∧ (((⟨[("abc", 5)]⟩ : SimpleIndex).Remove "abc").UseIfExists "abc").1 = false
    ∧ (DoomEntry abc_world "/cache/abc" "abc" (some 2)).2.index_has "abc" = false
    ∧ (DoomEntry abc_world "/cache/abc" "abc" (some 2)).2.runs = abc_world.runs :=
  C4_DoomEntry_removes_synchronously abc_world ⟨[("abc", 5)]⟩ "/cache/abc" "abc" (some 2) rfl

/-! ## Completion of an open or a create -/

/-- Claim C5: for every key and every callback that is not null, when an open or
a create completes without a worker-held object, `CreationOperationComplete`
returns after it has run the callback once, with `ERR_FAILED`; it writes no
output slot, constructs no entry object, posts no job, and leaves the key
absent from an available index (`Remove(key)` applied); an unavailable index
stays unavailable. On the null callback the call of `Run` faults, before
anything is done. -/
theorem C5_CreationOperationComplete_failure (kSimpleEntryFileCount : Nat) (w : World)
    (callback : Nat) (key : String) (out_entry : Nat) :
    (CreationOperationComplete kSimpleEntryFileCount w (some callback) key out_entry
        none).fault = none
    ∧ (CreationOperationComplete kSimpleEntryFileCount w (some callback) key out_entry
        none).world.runs = w.runs ++ [(some callback, net.ERR_FAILED)]
    ∧ (CreationOperationComplete kSimpleEntryFileCount w (some callback) key out_entry
        none).world.out_entries = w.out_entries
    ∧ (CreationOperationComplete kSimpleEntryFileCount w (some callback) key out_entry
        none).world.entries = w.entries
    ∧ (CreationOperationComplete kSimpleEntryFileCount w (some callback) key out_entry
        none).world.jobs = w.jobs
    ∧ (CreationOperationComplete kSimpleEntryFileCount w (some callback) key out_entry
        none).world.index = w.index.map (fun idx => idx.Remove key)
    ∧ (CreationOperationComplete kSimpleEntryFileCount w (some callback) key out_entry
        none).world.index_has key = false
    ∧ (CreationOperationComplete kSimpleEntryFileCount w (some callback) key out_entry
        none).world.index_calls
        = w.index_calls ++ (if w.index.isSome then [Event.Remove key] else [])
    ∧ (CreationOperationComplete kSimpleEntryFileCount w none key out_entry none).fault
        = some Fault.null_dereference
    ∧ (CreationOperationComplete kSimpleEntryFileCount w none key out_entry none).world = w := by
  cases hidx : w.index with
  | none =>
    simp [CreationOperationComplete, if_index_Remove, Run, World.log, hidx, World.runs,
      World.jobs, World.index_calls, World.index_has, List.filterMap_append,
      List.filter_append, Outcome.world, Outcome.fault]
  | some idx =>
    simp [CreationOperationComplete, if_index_Remove, Run, World.log, hidx, World.runs,
      World.jobs, World.index_calls, World.index_has, List.filterMap_append,
      List.filter_append, SimpleIndex.Has_Remove, Outcome.world, Outcome.fault]

/-- Claim C6: for every key and every callback that is not null, when an open
or a create of that key completes with the worker-held object `sync_entry`
(whose key is that key), `CreationOperationComplete` returns; it applies
`Insert(key)` on an available index before it runs the callback, which
therefore sees the key tracked; the output slot holds the address of a new
entry object that wraps `sync_entry`, is not in use by the worker, and whose
`GetKey`, `GetLastUsed`, `GetLastModified` and `GetDataSize(i)`, for each
stream `i` below the stream count, are those of the worker-held object; the
callback runs once, with `OK`. On the null callback the call of `Run`, the
last statement, faults. -/
theorem C6_CreationOperationComplete_success (kSimpleEntryFileCount : Nat) (w : World)
    (callback : Nat) (key : String) (out_entry : Nat)
    (sync_entry : Nat) (hkey : (w.sync_entries sync_entry).key = key) :
    (CreationOperationComplete kSimpleEntryFileCount w (some callback) key out_entry
        (some sync_entry)).fault = none
    ∧ (∀ idx, w.index = some idx →
      (CreationOperationComplete kSimpleEntryFileCount w (some callback) key out_entry
          (some sync_entry)).world.trace
        = w.trace ++ [Event.Insert key,
            Event.Run (some callback) net.OK (some (idx.Insert key))]
      ∧ (idx.Insert key).Has key = true
      ∧ (CreationOperationComplete kSimpleEntryFileCount w (some callback) key out_entry
          (some sync_entry)).world.index = some (idx.Insert key))
    ∧ (w.index = none →
      (CreationOperationComplete kSimpleEntryFileCount w (some callback) key out_entry
          (some sync_entry)).world.trace
        = w.trace ++ [Event.Run (some callback) net.OK none])
    ∧ (CreationOperationComplete kSimpleEntryFileCount w (some callback) key out_entry
        (some sync_entry)).world.runs = w.runs ++ [(some callback, net.OK)]
    ∧ (CreationOperationComplete kSimpleEntryFileCount w (some callback) key out_entry
        (some sync_entry)).world.jobs = w.jobs
    ∧ w.entry w.entries.length = none
    ∧ (CreationOperationComplete kSimpleEntryFileCount w (some callback) key out_entry
        (some sync_entry)).world.out_entries out_entry = some w.entries.length
    ∧ (CreationOperationComplete kSimpleEntryFileCount w none key out_entry
        (some sync_entry)).fault = some Fault.null_dereference
    ∧ (CreationOperationComplete kSimpleEntryFileCount w none key out_entry
        (some sync_entry)).world.runs = w.runs
    ∧ ∃ e, (CreationOperationComplete kSimpleEntryFileCount w (some callback) key
          out_entry (some sync_entry)).world.entry w.entries.length = some e
        ∧ e.synchronous_entry_ = sync_entry
        ∧ e.synchronous_entry_in_use_by_worker_ = false
        ∧ GetKey e = (w.sync_entries sync_entry).key
        ∧ GetLastUsed e = (w.sync_entries sync_entry).last_used
        ∧ GetLastModified e = (w.sync_entries sync_entry).last_modified
        ∧ ∀ i : Nat, i < kSimpleEntryFileCount →
            GetDataSize e (i : Int) = some ((w.sync_entries sync_entry).data_size i) := by
  have hsync : ∀ v : World, v.sync_entries = w.sync_entries →
      ∃ e, some (ctor kSimpleEntryFileCount v sync_entry) = some e
        ∧ e.synchronous_entry_ = sync_entry
        ∧ e.synchronous_entry_in_use_by_worker_ = false
        ∧ GetKey e = (w.sync_entries sync_entry).key
        ∧ GetLastUsed e = (w.sync_entries sync_entry).last_used
        ∧ GetLastModified e = (w.sync_entries sync_entry).last_modified
        ∧ ∀ i : Nat, i < kSimpleEntryFileCount →
            GetDataSize e (i : Int) = some ((w.sync_entries sync_entry).data_size i) := by
    intro v hv
    refine ⟨_, rfl, rfl, rfl, ?_, ?_, ?_, ?_⟩
    · simp [ctor, SetSynchronousData, GetKey, hv]
    · simp [ctor, SetSynchronousData, GetLastUsed, hv]
    · simp [ctor, SetSynchronousData, GetLastModified, hv]
    · intro i hi
      simp [ctor, SetSynchronousData, GetDataSize, hv, List.getElem?_map,
        List.getElem?_range hi]
  have hnone : w.entry w.entries.length = none := by
    simp [World.entry]
  cases hidx : w.index with
  | none =>
    obtain ⟨e, he, h1, h2, h3, h4, h5, h6⟩ := hsync w rfl
    refine ⟨?_, (by intro idx h; cases h), ?_, ?_, ?_, hnone, ?_, ?_, ?_, e, ?_, h1, h2, h3, h4,
      h5, h6⟩
    · simp [CreationOperationComplete, Run, Outcome.fault]
    · intro _
      simp [CreationOperationComplete, if_index_Insert, hidx, Run, World.log, Outcome.world]
    · simp [CreationOperationComplete, if_index_Insert, hidx, Run, World.log, World.runs,
        List.filterMap_append, Outcome.world]
    · simp [CreationOperationComplete, if_index_Insert, hidx, Run, World.log, World.jobs,
        List.filterMap_append, Outcome.world]
    · simp [CreationOperationComplete, if_index_Insert, hidx, Run, World.log, Outcome.world]
    · simp [CreationOperationComplete, Run, Outcome.fault]
    · simp [CreationOperationComplete, if_index_Insert, hidx, Run, World.runs, Outcome.world]
    · rw [← he]
      simp [CreationOperationComplete, if_index_Insert, hidx, Run, World.log, World.entry,
        Outcome.world]
  | some idx =>
    obtain ⟨e, he, h1, h2, h3, h4, h5, h6⟩ :=
      hsync { w with index := some (idx.Insert key),
                     trace := w.trace ++ [Event.Insert key] } rfl
    refine ⟨?_, ?_, (by intro h; cases h), ?_, ?_, hnone, ?_, ?_, ?_, e, ?_, h1, h2, h3, h4, h5,
      h6⟩
    · simp [CreationOperationComplete, Run, Outcome.fault]
    · intro idx2 h2
      cases h2
      refine ⟨?_, SimpleIndex.Has_Insert idx key, ?_⟩
      · simp [CreationOperationComplete, if_index_Insert, hidx, hkey, Run, World.log,
          Outcome.world]
      · simp [CreationOperationComplete, if_index_Insert, hidx, hkey, Run, World.log,
          Outcome.world]
    · simp [CreationOperationComplete, if_index_Insert, hidx, Run, World.log, World.runs,
        List.filterMap_append, Outcome.world]
    · simp [CreationOperationComplete, if_index_Insert, hidx, Run, World.log, World.jobs,
        List.filterMap_append, Outcome.world]
    · simp [CreationOperationComplete, if_index_Insert, hidx, Run, World.log, Outcome.world]
    · simp [CreationOperationComplete, Run, Outcome.fault]
    · simp [CreationOperationComplete, if_index_Insert, hidx, Run, World.runs, Outcome.world,
        List.filterMap_append]
    · rw [← he]
      simp [CreationOperationComplete, if_index_Insert, hidx, hkey, Run, World.log,
        World.entry, Outcome.world]

/-- Witness of C6: in `abc_world` the open of "abc" completes with the
worker-held object at address 0, whose key is "abc". -/
theorem C6_CreationOperationComplete_success_witness :
    (abc_world.sync_entries 0).key = "abc"
    ∧ (CreationOperationComplete 3 abc_world (some 3) "abc" 0 (some 0)).fault = none
    ∧ (CreationOperationComplete 3 abc_world (some 3) "abc" 0 (some 0)).world.runs
        = abc_world.runs ++ [(some 3, net.OK)]
    ∧ (CreationOperationComplete 3 abc_world (some 3) "abc" 0 (some 0)).world.out_entries 0
        = some abc_world.entries.length :=
  ⟨rfl, (C6_CreationOperationComplete_success 3 abc_world 3 "abc" 0 0 rfl).1,
    (C6_CreationOperationComplete_success 3 abc_world 3 "abc" 0 0 rfl).2.2.2.1,
    (C6_CreationOperationComplete_success 3 abc_world 3 "abc" 0 0 rfl).2.2.2.2.2.2.1⟩

/-- Claim C7, evaluated on the failed open of "abc" in `abc_world`, whose index
tracks "abc": the callback runs with `ERR_FAILED` first and sees an index that
still tracks "abc"; `Remove("abc")` is the call after it. -/
theorem C7_failed_completion_runs_callback_before_Remove :
    (CreationOperationComplete 3 abc_world (some 3) "abc" 0 none).world.trace
      = [Event.Run (some 3) net.ERR_FAILED (some ⟨[("abc", 5)]⟩), Event.Remove "abc"]
    ∧ (⟨[("abc", 5)]⟩ : SimpleIndex).Has "abc" = true
    ∧ (CreationOperationComplete 3 abc_world (some 3) "abc" 0 none).world.index_has "abc"
        = false := by
  refine ⟨?_, ?_, ?_⟩
  · simp [CreationOperationComplete, if_index_Remove, Run, World.log, abc_world, Outcome.world]
  · simp [SimpleIndex.Has]
  · simp [CreationOperationComplete, if_index_Remove, Run, World.log, abc_world,
      World.index_has, SimpleIndex.Has_Remove, Outcome.world]

/-! ## The sparse operations -/

/-- Claim C8 as stated fails: on the idle entry of `abc_idle_world`,
`ReadSparseData` returns `ERR_FAILED` itself, which is not the code
NotSupported, and so returns no code distinct from `ERR_FAILED`. -/
theorem C8_ReadSparseData_returns_ERR_FAILED :
    (ReadSparseData abc_idle_world 0 0 0 0 (some 4)).1 = net.ERR_FAILED
    ∧ (ReadSparseData abc_idle_world 0 0 0 0 (some 4)).1 ≠ net.ERR_NOT_IMPLEMENTED
    ∧ ¬ ∃ r : Int, r ≠ net.ERR_FAILED ∧ (ReadSparseData abc_idle_world 0 0 0 0 (some 4)).1 = r := by
  refine ⟨rfl, by decide, ?_⟩
  rintro ⟨r, hne, hr⟩
  exact hne hr.symm

/-- Claim C8, amended: for every world, every entry and every argument,
`ReadSparseData`, `WriteSparseData`, `GetAvailableRange` and `ReadyForSparseIO`
return `ERR_FAILED`, the code of a failure, and `CouldBeSparse` returns false. -/
theorem C8_sparse_operations_return_ERR_FAILED (w : World) (this : Nat) (offset : Int)
    (buf : Nat) (buf_len len : Int) (start : Nat) (callback : CompletionCallback) :
    (ReadSparseData w this offset buf buf_len callback).1 = net.ERR_FAILED
    ∧ (WriteSparseData w this offset buf buf_len callback).1 = net.ERR_FAILED
    ∧ (GetAvailableRange w this offset len start callback).1 = net.ERR_FAILED
    ∧ ( ReadyForSparseIO w this callback).1 = net.ERR_FAILED
    ∧ CouldBeSparse w this = false :=
  ⟨rfl, rfl, rfl, rfl, rfl⟩

/-! ## ReadData and WriteData -/

theorem World.entry_set_entry_ne (w : World) (p q : Nat) (e : SimpleEntryImpl)
    (h : q ≠ p) : (w.set_entry p e).entry q = w.entry q := by
  simp [World.entry, World.set_entry, List.getElem?_set, Ne.symm h]

theorem SimpleEntryImpl.ReadData_idle (w : World) (idx : SimpleIndex) (this : Nat)
    (e : SimpleEntryImpl) (index offset : Int) (buf : Nat) (buf_len : Int)
    (callback : CompletionCallback) (hentry : w.entry this = some e)
    (hidle : e.synchronous_entry_in_use_by_worker_ = false) (hidx : w.index = some idx) :
    ReadData w this index offset buf buf_len callback
      = Outcome.returned net.ERR_IO_PENDING
          { index := some (idx.UseIfExists e.key_).2,
            sync_entries := w.sync_entries,
            entries := w.entries.set this
              (some { e with synchronous_entry_in_use_by_worker_ := true }),
            out_entries := w.out_entries,
            trace := w.trace ++ [Event.UseIfExists e.key_,
              Event.PostTask (Job.ReadData e.synchronous_entry_ index offset buf buf_len
                ⟨callback, this, e.synchronous_entry_⟩)] } := by
  simp [ReadData, hentry, hidle, World.set_entry, hidx, call_UseIfExists, PostTask, World.log]

theorem SimpleEntryImpl.WriteData_idle (w : World) (idx : SimpleIndex) (this : Nat)
    (e : SimpleEntryImpl) (index offset : Int) (buf : Nat) (buf_len : Int)
    (callback : CompletionCallback) (truncate : Bool) (hentry : w.entry this = some e)
    (hidle : e.synchronous_entry_in_use_by_worker_ = false) (hidx : w.index = some idx) :
    WriteData w this index offset buf buf_len callback truncate
      = Outcome.returned net.ERR_IO_PENDING
          { index := some (idx.UseIfExists e.key_).2,
            sync_entries := w.sync_entries,
            entries := w.entries.set this
              (some { e with synchronous_entry_in_use_by_worker_ := true }),
            out_entries := w.out_entries,
            trace := w.trace ++ [Event.UseIfExists e.key_,
              Event.PostTask (Job.WriteData e.synchronous_entry_ index offset buf buf_len
                ⟨callback, this, e.synchronous_entry_⟩ truncate)] } := by
  simp [WriteData, hentry, hidle, World.set_entry, hidx, call_UseIfExists, PostTask, World.log]

/-- Claim C9: for every live entry with no operation in flight and an available
index, and for every stream, offset, buffer, length and truncate flag,
`ReadData` and `WriteData` each return `ERR_IO_PENDING`, set the in-use flag,
call `UseIfExists` of the entry's key once, post one job on the entry's own
worker-held object, bound to a completion for this entry and that object, and
leave the cached times and sizes and the key as they were. -/
theorem C9_ReadData_WriteData_idle (w : World) (idx : SimpleIndex) (this : Nat)
    (e : SimpleEntryImpl) (index offset : Int) (buf : Nat) (buf_len : Int)
    (callback : CompletionCallback) (truncate : Bool) (hentry : w.entry this = some e)
    (hidle : e.synchronous_entry_in_use_by_worker_ = false) (hidx : w.index = some idx) :
    idle_operation_started w this e
        (Job.ReadData e.synchronous_entry_ index offset buf buf_len
          ⟨callback, this, e.synchronous_entry_⟩)
        (ReadData w this index offset buf buf_len callback)
    ∧ idle_operation_started w this e
        (Job.WriteData e.synchronous_entry_ index offset buf buf_len
          ⟨callback, this, e.synchronous_entry_⟩ truncate)
        (WriteData w this index offset buf buf_len callback truncate) := by
  have hset := World.entry_set_entry w this e
    { e with synchronous_entry_in_use_by_worker_ := true } hentry
  have hne := fun q (hq : q ≠ this) => World.entry_set_entry_ne w this q
    { e with synchronous_entry_in_use_by_worker_ := true } hq
  constructor
  · rw [ReadData_idle w idx this e index offset buf buf_len callback hentry hidle hidx]
    refine ⟨rfl, rfl, ?_, ?_, rfl, ?_, ?_, ?_, rfl, rfl⟩
    · simpa [Outcome.world, World.entry, World.set_entry] using hset
    · intro q hq
      simpa [Outcome.world, World.entry, World.set_entry] using hne q hq
    · simp [Outcome.world, World.index_calls, List.filter_append]
    · simp [Outcome.world, World.jobs, List.filterMap_append]
    · simp [Outcome.world, World.runs, List.filterMap_append]
  · rw [WriteData_idle w idx this e index offset buf buf_len callback truncate hentry hidle hidx]
    refine ⟨rfl, rfl, ?_, ?_, rfl, ?_, ?_, ?_, rfl, rfl⟩
    · simpa [Outcome.world, World.entry, World.set_entry] using hset
    · intro q hq
      simpa [Outcome.world, World.entry, World.set_entry] using hne q hq
    · simp [Outcome.world, World.index_calls, List.filter_append]
    · simp [Outcome.world, World.jobs, List.filterMap_append]
    · simp [Outcome.world, World.runs, List.filterMap_append]

/-- Witness of C9: the idle entry at address 0 of `abc_idle_world`, whose index
is available. -/
theorem C9_ReadData_WriteData_idle_witness :
    abc_idle_world.entry 0 = some abc_entry
    ∧ abc_entry.synchronous_entry_in_use_by_worker_ = false
    ∧ abc_idle_world.index = some ⟨[("abc", 5)]⟩
    ∧ idle_operation_started abc_idle_world 0 abc_entry
        (Job.ReadData 0 0 0 7 5 ⟨some 8, 0, 0⟩)
        (ReadData abc_idle_world 0 0 0 7 5 (some 8))
    ∧ idle_operation_started abc_idle_world 0 abc_entry
        (Job.WriteData 0 0 0 7 5 ⟨some 8, 0, 0⟩ true)
        (WriteData abc_idle_world 0 0 0 7 5 (some 8) true) :=
  ⟨rfl, rfl, rfl,
    C9_ReadData_WriteData_idle abc_idle_world ⟨[("abc", 5)]⟩ 0 abc_entry 0 0 7 5 (some 8) true
      rfl rfl rfl⟩

/-- Claim C10: for every live entry whose in-use flag is set, `ReadData` and
`WriteData` abort on the `CHECK`: they return no result code, and the world
they abort in is the world they were called in, so no job has been posted, no
call made on the index and nothing recorded for later. -/
theorem C10_ReadData_WriteData_in_flight_abort (w : World) (this : Nat)
    (e : SimpleEntryImpl) (index offset : Int) (buf : Nat) (buf_len : Int)
    (callback : CompletionCallback) (truncate : Bool) (hentry : w.entry this = some e)
    (hbusy : e.synchronous_entry_in_use_by_worker_ = true) :
    (ReadData w this index offset buf buf_len callback).fault = some Fault.CHECK_failed
    ∧ (ReadData w this index offset buf buf_len callback).value = none
    ∧ (ReadData w this index offset buf buf_len callback).world = w
    ∧ (ReadData w this index offset buf buf_len callback).world.jobs = w.jobs
    ∧ (WriteData w this index offset buf buf_len callback truncate).fault
        = some Fault.CHECK_failed
    ∧ (WriteData w this index offset buf buf_len callback truncate).value = none
    ∧ (WriteData w this index offset buf buf_len callback truncate).world = w
    ∧ (WriteData w this index offset buf buf_len callback truncate).world.jobs = w.jobs := by
  have hr : ReadData w this index offset buf buf_len callback
      = Outcome.aborted Fault.CHECK_failed w := by
    simp [ReadData, hentry, hbusy]
  have hw : WriteData w this index offset buf buf_len callback truncate
      = Outcome.aborted Fault.CHECK_failed w := by
    simp [WriteData, hentry, hbusy]
  rw [hr, hw]
  exact ⟨rfl, rfl, rfl, rfl, rfl, rfl, rfl, rfl⟩

/-- Witness of C10: the entry at address 0 of `abc_busy_world` has an operation
in flight. -/
theorem C10_ReadData_WriteData_in_flight_abort_witness :
    abc_busy_world.entry 0
        = some { abc_entry with synchronous_entry_in_use_by_worker_ := true }
    ∧ (ReadData abc_busy_world 0 0 0 7 5 (some 8)).fault = some Fault.CHECK_failed
    ∧ (ReadData abc_busy_world 0 0 0 7 5 (some 8)).value = none
    ∧ (ReadData abc_busy_world 0 0 0 7 5 (some 8)).world = abc_busy_world
    ∧ (ReadData abc_busy_world 0 0 0 7 5 (some 8)).world.jobs = abc_busy_world.jobs
    ∧ (WriteData abc_busy_world 0 0 0 7 5 (some 8) true).fault = some Fault.CHECK_failed
    ∧ (WriteData abc_busy_world 0 0 0 7 5 (some 8) true).value = none
    ∧ (WriteData abc_busy_world 0 0 0 7 5 (some 8) true).world = abc_busy_world
    ∧ (WriteData abc_busy_world 0 0 0 7 5 (some 8) true).world.jobs = abc_busy_world.jobs :=
  ⟨rfl,
    C10_ReadData_WriteData_in_flight_abort abc_busy_world 0
      { abc_entry with synchronous_entry_in_use_by_worker_ := true } 0 0 7 5 (some 8) true
      rfl rfl⟩

/-- Claim C11, evaluated on the live idle entry of `abc_torn_down_world`, whose
index has been torn down: `ReadData` and `WriteData` dereference the null
`index_`; they return no result code and post no job. -/
theorem C11_ReadData_WriteData_fault_without_index :
    abc_torn_down_world.index = none
    ∧ abc_torn_down_world.entry 0 = some abc_entry
    ∧ (ReadData abc_torn_down_world 0 0 0 7 5 (some 8)).fault = some Fault.null_dereference
    ∧ (ReadData abc_torn_down_world 0 0 0 7 5 (some 8)).value = none
    ∧ (ReadData abc_torn_down_world 0 0 0 7 5 (some 8)).world.jobs = []
    ∧ (WriteData abc_torn_down_world 0 0 0 7 5 (some 8) true).fault
        = some Fault.null_dereference
    ∧ (WriteData abc_torn_down_world 0 0 0 7 5 (some 8) true).value = none
    ∧ (WriteData abc_torn_down_world 0 0 0 7 5 (some 8) true).world.jobs = [] :=
  ⟨rfl, rfl, rfl, rfl, rfl, rfl, rfl, rfl⟩

/-! ## Completion of a read or a write -/

theorem SimpleEntryImpl.entry_if_index_UpdateEntrySize (w : World) (key : String)
    (size : Int) (p : Nat) : (if_index_UpdateEntrySize w key size).entry p = w.entry p := by
  cases h : w.index <;> simp [if_index_UpdateEntrySize, h, World.entry]

theorem SimpleEntryImpl.sync_entries_if_index_UpdateEntrySize (w : World) (key : String)
    (size : Int) : (if_index_UpdateEntrySize w key size).sync_entries = w.sync_entries := by
  cases h : w.index <;> simp [if_index_UpdateEntrySize, h]

theorem SimpleEntryImpl.EntryOperationComplete_live (kSimpleEntryFileCount : Nat) (w : World)
    (completion_callback : CompletionCallback) (entry sync_entry : Nat) (result : Int)
    (e : SimpleEntryImpl) (hentry : w.entry entry = some e) :
    EntryOperationComplete kSimpleEntryFileCount w completion_callback entry sync_entry result
      = Run ((if_index_UpdateEntrySize w (w.sync_entries sync_entry).key
            (w.sync_entries sync_entry).GetFileSize).set_entry entry
          (SetSynchronousData kSimpleEntryFileCount (w.sync_entries e.synchronous_entry_)
            { e with synchronous_entry_in_use_by_worker_ := false }))
        completion_callback result := by
  have hent := entry_if_index_UpdateEntrySize w (w.sync_entries sync_entry).key
    (w.sync_entries sync_entry).GetFileSize entry
  rw [hentry] at hent
  simp only [EntryOperationComplete, hent, sync_entries_if_index_UpdateEntrySize]

theorem SimpleEntryImpl.EntryOperationComplete_deleted (kSimpleEntryFileCount : Nat)
    (w : World) (completion_callback : CompletionCallback) (entry sync_entry : Nat)
    (result : Int) (hentry : w.entry entry = none) :
    EntryOperationComplete kSimpleEntryFileCount w completion_callback entry sync_entry result
      = Run (PostTask (if_index_UpdateEntrySize w (w.sync_entries sync_entry).key
            (w.sync_entries sync_entry).GetFileSize) (Job.Close sync_entry))
        completion_callback result := by
  have hent := entry_if_index_UpdateEntrySize w (w.sync_entries sync_entry).key
    (w.sync_entries sync_entry).GetFileSize entry
  rw [hentry] at hent
  simp only [EntryOperationComplete, hent]

/-- Claim C12: for every completed read or write with the index available and a
callback that is not null, `EntryOperationComplete` returns; it calls
`UpdateEntrySize` once, with the key and the file size of the worker-held
object, and this is its first call, before the callback runs; the callback
sees the updated index. The call is the same whether the entry object is still
live or has been deleted by `Close`. On the null callback the call of `Run`
faults, after the same call of `UpdateEntrySize`. -/
theorem C12_EntryOperationComplete_updates_size (kSimpleEntryFileCount : Nat) (w : World)
    (idx : SimpleIndex) (callback : Nat) (entry sync_entry : Nat)
    (result : Int) (hidx : w.index = some idx) :
    (EntryOperationComplete kSimpleEntryFileCount w (some callback) entry sync_entry
        result).fault = none
    ∧ (EntryOperationComplete kSimpleEntryFileCount w (some callback) entry sync_entry
        result).world.index_calls
      = w.index_calls ++ [Event.UpdateEntrySize (w.sync_entries sync_entry).key
          (w.sync_entries sync_entry).GetFileSize]
    ∧ (EntryOperationComplete kSimpleEntryFileCount w (some callback) entry sync_entry
        result).world.index
      = some (idx.UpdateEntrySize (w.sync_entries sync_entry).key
          (w.sync_entries sync_entry).GetFileSize)
    ∧ ((w.entry entry).isSome = true →
        (EntryOperationComplete kSimpleEntryFileCount w (some callback) entry sync_entry
          result).world.trace
        = w.trace ++ [Event.UpdateEntrySize (w.sync_entries sync_entry).key
              (w.sync_entries sync_entry).GetFileSize,
            Event.Run (some callback) result
              (some (idx.UpdateEntrySize (w.sync_entries sync_entry).key
                (w.sync_entries sync_entry).GetFileSize))])
    ∧ (w.entry entry = none →
        (EntryOperationComplete kSimpleEntryFileCount w (some callback) entry sync_entry
          result).world.trace
        = w.trace ++ [Event.UpdateEntrySize (w.sync_entries sync_entry).key
              (w.sync_entries sync_entry).GetFileSize,
            Event.PostTask (Job.Close sync_entry),
            Event.Run (some callback) result
              (some (idx.UpdateEntrySize (w.sync_entries sync_entry).key
                (w.sync_entries sync_entry).GetFileSize))])
    ∧ (EntryOperationComplete kSimpleEntryFileCount w none entry sync_entry result).fault
        = some Fault.null_dereference
    ∧ (EntryOperationComplete kSimpleEntryFileCount w none entry sync_entry
        result).world.index_calls
      = w.index_calls ++ [Event.UpdateEntrySize (w.sync_entries sync_entry).key
          (w.sync_entries sync_entry).GetFileSize]
    ∧ (EntryOperationComplete kSimpleEntryFileCount w none entry sync_entry
        result).world.index
      = some (idx.UpdateEntrySize (w.sync_entries sync_entry).key
          (w.sync_entries sync_entry).GetFileSize) := by
  cases he : w.entry entry with
  | none =>
    rw [EntryOperationComplete_deleted kSimpleEntryFileCount w (some callback) entry
      sync_entry result he,
      EntryOperationComplete_deleted kSimpleEntryFileCount w none entry sync_entry result he]
    simp [if_index_UpdateEntrySize, hidx, PostTask, Run, World.log, World.index_calls,
      List.filter_append, Outcome.world, Outcome.fault]
  | some e =>
    rw [EntryOperationComplete_live kSimpleEntryFileCount w (some callback) entry
      sync_entry result e he,
      EntryOperationComplete_live kSimpleEntryFileCount w none entry sync_entry result e he]
    simp [if_index_UpdateEntrySize, hidx, Run, World.log, World.set_entry, World.index_calls,
      List.filter_append, Outcome.world, Outcome.fault]

/-- Witness of C12: the completion of an operation of the busy entry of
`abc_busy_world`, whose index is available. -/
theorem C12_EntryOperationComplete_updates_size_witness :
    abc_busy_world.index = some ⟨[("abc", 5)]⟩
    ∧ (EntryOperationComplete 3 abc_busy_world (some 8) 0 0 5).world.index_calls
        = abc_busy_world.index_calls ++ [Event.UpdateEntrySize
            (abc_busy_world.sync_entries 0).key (abc_busy_world.sync_entries 0).GetFileSize] :=
  ⟨rfl, (C12_EntryOperationComplete_updates_size 3 abc_busy_world ⟨[("abc", 5)]⟩ 8 0 0 5
    rfl).2.1⟩

/-- Claim C13: for every completion of a read or a write that finds its entry
object live, `EntryOperationComplete` calls the callback, whichever it is, in
a world where the in-use flag of the entry is already cleared and
`GetLastUsed`, `GetLastModified` and `GetDataSize(i)`, for each stream `i`
below the stream count, are the current values of the entry's worker-held
object; no job, hence no teardown, is posted. With a callback that is not null
the call returns and the entry stays so afterwards; on the null callback the
call of `Run` faults, with the entry so. -/
theorem C13_EntryOperationComplete_refreshes_live_entry (kSimpleEntryFileCount : Nat)
    (w : World) (callback : Nat) (entry sync_entry : Nat)
    (result : Int) (e : SimpleEntryImpl) (hentry : w.entry entry = some e) :
    ∃ w2 e2,
      (∀ completion_callback : CompletionCallback,
        EntryOperationComplete kSimpleEntryFileCount w completion_callback entry sync_entry
          result = Run w2 completion_callback result)
      ∧ w2.entry entry = some e2
      ∧ (EntryOperationComplete kSimpleEntryFileCount w (some callback) entry sync_entry
          result).fault = none
      ∧ (EntryOperationComplete kSimpleEntryFileCount w (some callback) entry sync_entry
          result).world.entry entry = some e2
      ∧ (EntryOperationComplete kSimpleEntryFileCount w (some callback) entry sync_entry
          result).world.runs = w.runs ++ [(some callback, result)]
      ∧ e2.synchronous_entry_in_use_by_worker_ = false
      ∧ GetLastUsed e2 = (w.sync_entries e.synchronous_entry_).last_used
      ∧ GetLastModified e2 = (w.sync_entries e.synchronous_entry_).last_modified
      ∧ (∀ i : Nat, i < kSimpleEntryFileCount →
          GetDataSize e2 (i : Int) = some ((w.sync_entries e.synchronous_entry_).data_size i))
      ∧ (EntryOperationComplete kSimpleEntryFileCount w (some callback) entry sync_entry
          result).world.jobs = w.jobs
      ∧ (EntryOperationComplete kSimpleEntryFileCount w (some callback) entry sync_entry
          result).world.teardowns e.synchronous_entry_ = w.teardowns e.synchronous_entry_
      ∧ (EntryOperationComplete kSimpleEntryFileCount w none entry sync_entry result).fault
          = some Fault.null_dereference
      ∧ (EntryOperationComplete kSimpleEntryFileCount w none entry sync_entry
          result).world.entry entry = some e2
      ∧ (EntryOperationComplete kSimpleEntryFileCount w none entry sync_entry
          result).world.runs = w.runs := by
  have hent := entry_if_index_UpdateEntrySize w (w.sync_entries sync_entry).key
    (w.sync_entries sync_entry).GetFileSize entry
  rw [hentry] at hent
  have hset := World.entry_set_entry _ entry e
    (SetSynchronousData kSimpleEntryFileCount (w.sync_entries e.synchronous_entry_)
      { e with synchronous_entry_in_use_by_worker_ := false }) hent
  have hlive := fun cb => EntryOperationComplete_live kSimpleEntryFileCount w cb entry
    sync_entry result e hentry
  have hjobs : (EntryOperationComplete kSimpleEntryFileCount w (some callback) entry
      sync_entry result).world.jobs = w.jobs := by
    rw [hlive, World.jobs_Run]
    cases hidx : w.index <;>
      simp [if_index_UpdateEntrySize, hidx, World.set_entry, World.jobs]
  refine ⟨_, _, hlive, hset, ?_, ?_, ?_, rfl, rfl, rfl, ?_, hjobs, ?_, ?_, ?_, ?_⟩
  · rw [hlive]
    rfl
  · rw [hlive, World.entry_Run]
    exact hset
  · rw [hlive, World.runs_Run]
    cases hidx : w.index <;>
      simp [if_index_UpdateEntrySize, hidx, World.set_entry, World.runs, List.filterMap_append]
  · intro i hi
    simp [SetSynchronousData, GetDataSize, List.getElem?_map, List.getElem?_range hi]
  · simp [World.teardowns, hjobs]
  · rw [hlive]
    rfl
  · rw [hlive, World.entry_Run]
    exact hset
  · rw [hlive]
    cases hidx : w.index <;>
      simp [Run, Outcome.world, if_index_UpdateEntrySize, hidx, World.set_entry, World.runs,
        List.filterMap_append]

/-- Witness of C13: the completion of the operation in flight on the entry at
address 0 of `abc_busy_world`. -/
theorem C13_EntryOperationComplete_refreshes_live_entry_witness :
    abc_busy_world.entry 0
        = some { abc_entry with synchronous_entry_in_use_by_worker_ := true }
    ∧ ∃ w2 e2,
      (∀ completion_callback : CompletionCallback,
        EntryOperationComplete 3 abc_busy_world completion_callback 0 0 5
          = Run w2 completion_callback 5)
      ∧ w2.entry 0 = some e2
      ∧ (EntryOperationComplete 3 abc_busy_world (some 8) 0 0 5).fault = none
      ∧ (EntryOperationComplete 3 abc_busy_world (some 8) 0 0 5).world.entry 0 = some e2
      ∧ (EntryOperationComplete 3 abc_busy_world (some 8) 0 0 5).world.runs
          = abc_busy_world.runs ++ [(some 8, 5)]
      ∧ e2.synchronous_entry_in_use_by_worker_ = false
      ∧ GetLastUsed e2 = (abc_busy_world.sync_entries 0).last_used
      ∧ GetLastModified e2 = (abc_busy_world.sync_entries 0).last_modified
      ∧ (∀ i : Nat, i < 3 →
          GetDataSize e2 (i : Int) = some ((abc_busy_world.sync_entries 0).data_size i))
      ∧ (EntryOperationComplete 3 abc_busy_world (some 8) 0 0 5).world.jobs
          = abc_busy_world.jobs
      ∧ (EntryOperationComplete 3 abc_busy_world (some 8) 0 0 5).world.teardowns 0
          = abc_busy_world.teardowns 0
      ∧ (EntryOperationComplete 3 abc_busy_world none 0 0 5).fault
          = some Fault.null_dereference
      ∧ (EntryOperationComplete 3 abc_busy_world none 0 0 5).world.entry 0 = some e2
      ∧ (EntryOperationComplete 3 abc_busy_world none 0 0 5).world.runs
          = abc_busy_world.runs :=
  ⟨rfl, C13_EntryOperationComplete_refreshes_live_entry 3 abc_busy_world 8 0 0 5
    { abc_entry with synchronous_entry_in_use_by_worker_ := true } rfl⟩

/-! ## Close -/

theorem World.entry_delete (w : World) (p : Nat) : (w.delete p).entry p = none := by
  by_cases h : p < w.entries.length
  · simp [World.entry, World.delete, List.getElem?_set, h]
  · have hlen : (w.entries.set p none).length ≤ p := by simp; omega
    simp [World.entry, World.delete, List.getElem?_eq_none hlen]

theorem SimpleEntryImpl.Close_in_flight (w : World) (this : Nat) (e : SimpleEntryImpl)
    (hentry : w.entry this = some e) (hbusy : e.synchronous_entry_in_use_by_worker_ = true) :
    Close w this = Outcome.returned () (w.delete this) := by
  simp [Close, hentry, hbusy]

theorem SimpleEntryImpl.Close_idle (w : World) (this : Nat) (e : SimpleEntryImpl)
    (hentry : w.entry this = some e) (hidle : e.synchronous_entry_in_use_by_worker_ = false) :
    Close w this
      = Outcome.returned () ((PostTask w (Job.Close e.synchronous_entry_)).delete this) := by
  simp [Close, hentry, hidle]

theorem SimpleEntryImpl.jobs_EntryOperationComplete_deleted (kSimpleEntryFileCount : Nat)
    (w : World) (completion_callback : CompletionCallback) (entry sync_entry : Nat)
    (result : Int) (hentry : w.entry entry = none) :
    (EntryOperationComplete kSimpleEntryFileCount w completion_callback entry sync_entry
      result).world.jobs = w.jobs ++ [Job.Close sync_entry] := by
  rw [EntryOperationComplete_deleted kSimpleEntryFileCount w completion_callback entry
    sync_entry result hentry, World.jobs_Run]
  cases hidx : w.index <;>
    simp [if_index_UpdateEntrySize, hidx, PostTask, World.log, World.jobs,
      List.filterMap_append]

/-- Claim C14: for every entry with a read or a write outstanding (in-use flag
set), `Close` deletes the entry object and makes no call at all, so it posts no
teardown; the completion of that operation, arriving in the world `Close` left
or in any later world where the object is still deleted, posts one teardown job
for the worker-held object and no other job. -/
theorem C14_Close_in_flight_defers_teardown (kSimpleEntryFileCount : Nat) (w : World)
    (this : Nat) (e : SimpleEntryImpl) (completion_callback : CompletionCallback)
    (result : Int) (hentry : w.entry this = some e)
    (hbusy : e.synchronous_entry_in_use_by_worker_ = true) :
    (Close w this).fault = none
    ∧ (Close w this).world.entry this = none
    ∧ (Close w this).world.trace = w.trace
    ∧ (Close w this).world.teardowns e.synchronous_entry_ = w.teardowns e.synchronous_entry_
    ∧ (EntryOperationComplete kSimpleEntryFileCount (Close w this).world completion_callback
        this e.synchronous_entry_ result).world.jobs
        = w.jobs ++ [Job.Close e.synchronous_entry_]
    ∧ (EntryOperationComplete kSimpleEntryFileCount (Close w this).world completion_callback
        this e.synchronous_entry_ result).world.teardowns e.synchronous_entry_
        = w.teardowns e.synchronous_entry_ + 1
    ∧ ∀ w2 : World, w2.entry this = none →
        (EntryOperationComplete kSimpleEntryFileCount w2 completion_callback this
          e.synchronous_entry_ result).world.jobs
          = w2.jobs ++ [Job.Close e.synchronous_entry_] := by
  rw [Close_in_flight w this e hentry hbusy]
  have hdel : (w.delete this).entry this = none := World.entry_delete w this
  have hjobs := jobs_EntryOperationComplete_deleted kSimpleEntryFileCount (w.delete this)
    completion_callback this e.synchronous_entry_ result hdel
  refine ⟨rfl, hdel, rfl, rfl, hjobs, ?_, ?_⟩
  · simp only [World.teardowns, Outcome.world] at hjobs ⊢
    rw [hjobs]
    simp [World.delete, World.jobs]
  · intro w2 h2
    exact jobs_EntryOperationComplete_deleted kSimpleEntryFileCount w2 completion_callback
      this e.synchronous_entry_ result h2

/-- Witness of C14: `Close` on the entry at address 0 of `abc_busy_world`, then
the completion of its operation. -/
theorem C14_Close_in_flight_defers_teardown_witness :
    abc_busy_world.entry 0
        = some { abc_entry with synchronous_entry_in_use_by_worker_ := true }
    ∧ (Close abc_busy_world 0).world.entry 0 = none
    ∧ (Close abc_busy_world 0).world.trace = abc_busy_world.trace
    ∧ (EntryOperationComplete 3 (Close abc_busy_world 0).world (some 8) 0 0 5).world.jobs
        = abc_busy_world.jobs ++ [Job.Close 0] :=
  ⟨rfl,
    (C14_Close_in_flight_defers_teardown 3 abc_busy_world 0
      { abc_entry with synchronous_entry_in_use_by_worker_ := true } (some 8) 5 rfl rfl).2.1,
    (C14_Close_in_flight_defers_teardown 3 abc_busy_world 0
      { abc_entry with synchronous_entry_in_use_by_worker_ := true } (some 8) 5 rfl rfl).2.2.1,
    (C14_Close_in_flight_defers_teardown 3 abc_busy_world 0
      { abc_entry with synchronous_entry_in_use_by_worker_ := true } (some 8) 5
      rfl rfl).2.2.2.2.1⟩

/-- Claim C15: for every entry with no operation outstanding (in-use flag
clear), the only call of `Close` is the `PostTask` of one teardown job for the
entry's worker-held object; the entry object is deleted; the index is neither
called nor changed. -/
theorem C15_Close_idle_tears_down_now (w : World) (this : Nat) (e : SimpleEntryImpl)
    (hentry : w.entry this = some e)
    (hidle : e.synchronous_entry_in_use_by_worker_ = false) :
    (Close w this).fault = none
    ∧ (Close w this).world.trace
        = w.trace ++ [Event.PostTask (Job.Close e.synchronous_entry_)]
    ∧ (Close w this).world.jobs = w.jobs ++ [Job.Close e.synchronous_entry_]
    ∧ (Close w this).world.teardowns e.synchronous_entry_
        = w.teardowns e.synchronous_entry_ + 1
    ∧ (Close w this).world.entry this = none
    ∧ (Close w this).world.index = w.index
    ∧ (Close w this).world.index_calls = w.index_calls := by
  rw [Close_idle w this e hentry hidle]
  have hjobs : (Outcome.returned () ((PostTask w (Job.Close e.synchronous_entry_)).delete
      this)).world.jobs = w.jobs ++ [Job.Close e.synchronous_entry_] := by
    simp [Outcome.world, World.delete, PostTask, World.log, World.jobs, List.filterMap_append]
  refine ⟨rfl, rfl, hjobs, ?_, World.entry_delete _ this, rfl, ?_⟩
  · simp only [World.teardowns, hjobs]
    simp
  · simp [Outcome.world, World.delete, PostTask, World.log, World.index_calls,
      List.filter_append]

/-- Witness of C15: `Close` on the idle entry at address 0 of `abc_idle_world`. -/
theorem C15_Close_idle_tears_down_now_witness :
    abc_idle_world.entry 0 = some abc_entry
    ∧ (Close abc_idle_world 0).world.trace
        = abc_idle_world.trace ++ [Event.PostTask (Job.Close 0)]
    ∧ (Close abc_idle_world 0).world.entry 0 = none
    ∧ (Close abc_idle_world 0).world.index = abc_idle_world.index :=
  ⟨rfl, (C15_Close_idle_tears_down_now abc_idle_world 0 abc_entry rfl rfl).2.1,
    (C15_Close_idle_tears_down_now abc_idle_world 0 abc_entry rfl rfl).2.2.2.2.1,
    (C15_Close_idle_tears_down_now abc_idle_world 0 abc_entry rfl rfl).2.2.2.2.2.1⟩

theorem SimpleEntryImpl.entry_EntryOperationComplete_live (kSimpleEntryFileCount : Nat)
    (w : World) (completion_callback : CompletionCallback) (entry sync_entry : Nat)
    (result : Int) (e : SimpleEntryImpl) (hentry : w.entry entry = some e) :
    (EntryOperationComplete kSimpleEntryFileCount w completion_callback entry sync_entry
      result).world.entry entry
      = some (SetSynchronousData kSimpleEntryFileCount (w.sync_entries e.synchronous_entry_)
          { e with synchronous_entry_in_use_by_worker_ := false }) := by
  have hent := entry_if_index_UpdateEntrySize w (w.sync_entries sync_entry).key
    (w.sync_entries sync_entry).GetFileSize entry
  rw [hentry] at hent
  have hset := World.entry_set_entry _ entry e
    (SetSynchronousData kSimpleEntryFileCount (w.sync_entries e.synchronous_entry_)
      { e with synchronous_entry_in_use_by_worker_ := false }) hent
  rw [EntryOperationComplete_live kSimpleEntryFileCount w completion_callback entry
    sync_entry result e hentry, World.entry_Run]
  exact hset

/-- Claim C18: for every result code the worker reports for a read or a write,
`ERR_FAILED` included, and every callback that is not null,
`EntryOperationComplete` returns after it has run the callback once, with that
code, whether the entry object is live or deleted; a live entry ends with its
in-use flag clear and with the path, key and worker-held object it had, its
cached times and sizes being the current ones of that worker-held object. On
the null callback the call of `Run` faults and no callback has run. -/
theorem C18_EntryOperationComplete_delivers_result (kSimpleEntryFileCount : Nat) (w : World)
    (callback : Nat) (entry sync_entry : Nat) (result : Int) :
    (EntryOperationComplete kSimpleEntryFileCount w (some callback) entry sync_entry
        result).fault = none
    ∧ (EntryOperationComplete kSimpleEntryFileCount w (some callback) entry sync_entry
        result).world.runs = w.runs ++ [(some callback, result)]
    ∧ (EntryOperationComplete kSimpleEntryFileCount w (some callback) entry sync_entry
        net.ERR_FAILED).fault = none
    ∧ (EntryOperationComplete kSimpleEntryFileCount w (some callback) entry sync_entry
        net.ERR_FAILED).world.runs = w.runs ++ [(some callback, net.ERR_FAILED)]
    ∧ (w.entry entry = none →
        (EntryOperationComplete kSimpleEntryFileCount w (some callback) entry sync_entry
          result).world.entry entry = none)
    ∧ (EntryOperationComplete kSimpleEntryFileCount w none entry sync_entry result).fault
        = some Fault.null_dereference
    ∧ (EntryOperationComplete kSimpleEntryFileCount w none entry sync_entry
        result).world.runs = w.runs
    ∧ ∀ e, w.entry entry = some e →
        ∃ e2, (EntryOperationComplete kSimpleEntryFileCount w (some callback) entry
            sync_entry result).world.entry entry = some e2
          ∧ e2.synchronous_entry_in_use_by_worker_ = false
          ∧ e2.key_ = e.key_
          ∧ GetKey e2 = GetKey e
          ∧ e2.synchronous_entry_ = e.synchronous_entry_
          ∧ e2.path_ = e.path_
          ∧ e2.last_used_ = (w.sync_entries e.synchronous_entry_).last_used
          ∧ e2.last_modified_ = (w.sync_entries e.synchronous_entry_).last_modified
          ∧ e2.data_size_
              = (List.range kSimpleEntryFileCount).map
                  (w.sync_entries e.synchronous_entry_).data_size
          ∧ GetLastUsed e2 = (w.sync_entries e.synchronous_entry_).last_used
          ∧ GetLastModified e2 = (w.sync_entries e.synchronous_entry_).last_modified
          ∧ ∀ i : Nat, i < kSimpleEntryFileCount →
              GetDataSize e2 (i : Int)
                = some ((w.sync_entries e.synchronous_entry_).data_size i) := by
  have hform : ∃ w2 : World, w2.runs = w.runs
      ∧ ∀ (cb : CompletionCallback) (r : Int),
          EntryOperationComplete kSimpleEntryFileCount w cb entry sync_entry r = Run w2 cb r := by
    cases he : w.entry entry with
    | none =>
      refine ⟨_, ?_, fun cb r => EntryOperationComplete_deleted kSimpleEntryFileCount w cb entry
        sync_entry r he⟩
      cases hidx : w.index <;>
        simp [if_index_UpdateEntrySize, hidx, PostTask, World.log, World.runs,
          List.filterMap_append]
    | some e =>
      refine ⟨_, ?_, fun cb r => EntryOperationComplete_live kSimpleEntryFileCount w cb entry
        sync_entry r e he⟩
      cases hidx : w.index <;>
        simp [if_index_UpdateEntrySize, hidx, World.set_entry, World.runs,
          List.filterMap_append]
  obtain ⟨w2, hw2, hE⟩ := hform
  refine ⟨?_, ?_, ?_, ?_, ?_, ?_, ?_, ?_⟩
  · rw [hE]; rfl
  · rw [hE, World.runs_Run, hw2]
  · rw [hE]; rfl
  · rw [hE, World.runs_Run, hw2]
  · intro he
    rw [EntryOperationComplete_deleted kSimpleEntryFileCount w (some callback) entry
      sync_entry result he, World.entry_Run]
    have hent := entry_if_index_UpdateEntrySize w (w.sync_entries sync_entry).key
      (w.sync_entries sync_entry).GetFileSize entry
    rw [he] at hent
    simpa [PostTask, World.log, World.entry] using hent
  · rw [hE]; rfl
  · rw [hE]
    exact hw2
  · intro e he
    refine ⟨_, entry_EntryOperationComplete_live kSimpleEntryFileCount w (some callback)
      entry sync_entry result e he, rfl, rfl, rfl, rfl, rfl, rfl, rfl, rfl, rfl, rfl, ?_⟩
    intro i hi
    simp [SetSynchronousData, GetDataSize, List.getElem?_map, List.getElem?_range hi]

/-! ## Doom -/

/-- Claim C20: for every live entry, idle or with an operation in flight, and
an available index, `Doom` in the POSIX build calls `Remove` of the entry's key
and then posts one doom job for the entry's path and key with the null
callback; afterwards the index does not track the key; every entry object,
this one included (flag, cached times and sizes, key, worker-held object), is
as it was, and no teardown is posted. -/
theorem C20_Doom_removes_key_only (w : World) (idx : SimpleIndex) (this : Nat)
    (e : SimpleEntryImpl) (hentry : w.entry this = some e) (hidx : w.index = some idx) :
    (Doom true w this).fault = none
    ∧ (Doom true w this).world.trace
        = w.trace ++ [Event.Remove e.key_,
            Event.PostTask (Job.DoomEntry e.path_ e.key_ none)]
    ∧ (Doom true w this).world.jobs = w.jobs ++ [Job.DoomEntry e.path_ e.key_ none]
    ∧ (Doom true w this).world.index = some (idx.Remove e.key_)
    ∧ (Doom true w this).world.index_has e.key_ = false
    ∧ (Doom true w this).world.entries = w.entries
    ∧ (Doom true w this).world.entry this = some e
    ∧ (Doom true w this).world.teardowns e.synchronous_entry_
        = w.teardowns e.synchronous_entry_
    ∧ (Doom true w this).world.runs = w.runs := by
  have hd : Doom true w this
      = Outcome.returned ()
          { w with index := some (idx.Remove e.key_),
                   trace := w.trace ++ [Event.Remove e.key_,
                     Event.PostTask (Job.DoomEntry e.path_ e.key_ none)] } := by
    simp [Doom, hentry, DoomEntry, if_index_Remove, hidx, PostTask, World.log]
  rw [hd]
  have hjobs : (Outcome.returned ()
      ({ w with index := some (idx.Remove e.key_),
                trace := w.trace ++ [Event.Remove e.key_,
                  Event.PostTask (Job.DoomEntry e.path_ e.key_ none)] } : World)).world.jobs
      = w.jobs ++ [Job.DoomEntry e.path_ e.key_ none] := by
    simp [Outcome.world, World.jobs, List.filterMap_append]
  refine ⟨rfl, rfl, hjobs, rfl, ?_, rfl, ?_, ?_, ?_⟩
  · simp [Outcome.world, World.index_has, SimpleIndex.Has_Remove]
  · simpa [Outcome.world, World.entry] using hentry
  · simp only [World.teardowns, hjobs]
    simp
  · simp [Outcome.world, World.runs, List.filterMap_append]

/-- Witness of C20: `Doom` on the entry at address 0 of `abc_busy_world`, which
has an operation in flight. -/
theorem C20_Doom_removes_key_only_witness :
    abc_busy_world.entry 0
        = some { abc_entry with synchronous_entry_in_use_by_worker_ := true }
    ∧ abc_busy_world.index = some ⟨[("abc", 5)]⟩
    ∧ (Doom true abc_busy_world 0).world.trace
        = abc_busy_world.trace ++ [Event.Remove "abc",
            Event.PostTask (Job.DoomEntry "/cache/abc" "abc" none)]
    ∧ (Doom true abc_busy_world 0).world.index_has "abc" = false
    ∧ (Doom true abc_busy_world 0).world.entries = abc_busy_world.entries :=
  ⟨rfl, rfl,
    (C20_Doom_removes_key_only abc_busy_world ⟨[("abc", 5)]⟩ 0
      { abc_entry with synchronous_entry_in_use_by_worker_ := true } rfl rfl).2.1,
    (C20_Doom_removes_key_only abc_busy_world ⟨[("abc", 5)]⟩ 0
      { abc_entry with synchronous_entry_in_use_by_worker_ := true } rfl rfl).2.2.2.2.1,
    (C20_Doom_removes_key_only abc_busy_world ⟨[("abc", 5)]⟩ 0
      { abc_entry with synchronous_entry_in_use_by_worker_ := true } rfl rfl).2.2.2.2.2.1⟩

/-! ## The execution of one entry object -/

theorem World.teardowns_eq_of_jobs (w w1 : World) (h : Nat) (job : Job)
    (hjobs : w1.jobs = w.jobs ++ [job]) (hne : job ≠ Job.Close h) :
    w1.teardowns h = w.teardowns h := by
  simp [World.teardowns, hjobs, List.count_append, List.count_singleton, hne]

theorem Machine.outstanding_nil_of_idle (s : Machine) (b : Bool)
    (hlen : s.outstanding.length ≤ 1)
    (hflag : b = true ↔ s.outstanding.length = 1) (hb : b = false) :
    s.outstanding = [] := by
  subst hb
  have : s.outstanding.length ≠ 1 := fun h => by simpa using hflag.mpr h
  exact List.length_eq_zero.mp (by omega)

theorem Machine.inv_created (kSimpleEntryFileCount : Nat) (w0 : World)
    (completion_callback : CompletionCallback) (key : String) (out_entry sync_entry : Nat) :
    Machine.inv w0.entries.length sync_entry (w0.teardowns sync_entry)
      (Machine.created kSimpleEntryFileCount w0 completion_callback key out_entry sync_entry) := by
  have hentry : (Machine.created kSimpleEntryFileCount w0 completion_callback key out_entry
      sync_entry).w.entry w0.entries.length
      = some (ctor kSimpleEntryFileCount (if_index_Insert w0 (w0.sync_entries sync_entry).key)
          sync_entry) := by
    simp only [Machine.created, CreationOperationComplete]
    rw [World.entry_Run]
    cases hidx : w0.index <;> simp [if_index_Insert, hidx, World.entry]
  have hjobs : (Machine.created kSimpleEntryFileCount w0 completion_callback key out_entry
      sync_entry).w.jobs = w0.jobs := by
    simp only [Machine.created, CreationOperationComplete]
    rw [World.jobs_Run]
    cases hidx : w0.index <;> simp [if_index_Insert, hidx, World.jobs, List.filterMap_append]
  refine ⟨?_, ?_, ?_, ?_⟩
  · intro cb hcb
    simp [Machine.created] at hcb
  · simp [Machine.created]
  · intro e he
    rw [hentry] at he
    cases he
    refine ⟨rfl, ?_, ?_⟩
    · simp [Machine.created, ctor, SetSynchronousData]
    · simp [World.teardowns, hjobs]
  · intro he
    rw [hentry] at he
    cases he

theorem Machine.inv_operation_started (this h base : Nat) (s : Machine) (e : SimpleEntryImpl)
    (w1 : World) (job : Job) (cb : SynchronousOperationCallback)
    (hinv : Machine.inv this h base s) (hentry : s.w.entry this = some e)
    (hidle : e.synchronous_entry_in_use_by_worker_ = false)
    (hjob : job.completion = some cb) (hcb : cb.entry = this ∧ cb.sync_entry = e.synchronous_entry_)
    (hne : job ≠ Job.Close h)
    (hw1 : w1.entry this = some { e with synchronous_entry_in_use_by_worker_ := true })
    (hjobs : w1.jobs = s.w.jobs ++ [job]) :
    Machine.inv this h base
      { w := w1,
        outstanding := s.outstanding
          ++ (w1.jobs.drop s.w.jobs.length).filterMap Job.completion } := by
  obtain ⟨_, hlen, hlive, _⟩ := hinv
  obtain ⟨hh, hflag, htd⟩ := hlive e hentry
  have hnil := Machine.outstanding_nil_of_idle s _ hlen hflag hidle
  have hout : s.outstanding ++ (w1.jobs.drop s.w.jobs.length).filterMap Job.completion
      = [cb] := by
    simp [hnil, hjobs, hjob]
  rw [hout]
  refine ⟨?_, by simp, ?_, ?_⟩
  · intro c hc
    simp only [List.mem_singleton] at hc
    subst hc
    exact ⟨hcb.1, hcb.2.trans hh⟩
  · intro e1 he1
    rw [hw1] at he1
    cases he1
    refine ⟨hh, by simp, ?_⟩
    rw [World.teardowns_eq_of_jobs s.w w1 h job hjobs hne]
    exact htd
  · intro he1
    rw [hw1] at he1
    cases he1

theorem SimpleEntryImpl.jobs_EntryOperationComplete_live (kSimpleEntryFileCount : Nat)
    (w : World) (completion_callback : CompletionCallback) (entry sync_entry : Nat)
    (result : Int) (e : SimpleEntryImpl) (hentry : w.entry entry = some e) :
    (EntryOperationComplete kSimpleEntryFileCount w completion_callback entry sync_entry
      result).world.jobs = w.jobs := by
  rw [EntryOperationComplete_live kSimpleEntryFileCount w completion_callback entry
    sync_entry result e hentry, World.jobs_Run]
  cases hidx : w.index <;>
    simp [if_index_UpdateEntrySize, hidx, World.set_entry, World.jobs,
      List.filterMap_append]

theorem SimpleEntryImpl.entry_EntryOperationComplete_deleted (kSimpleEntryFileCount : Nat)
    (w : World) (completion_callback : CompletionCallback) (entry sync_entry : Nat)
    (result : Int) (hentry : w.entry entry = none) :
    (EntryOperationComplete kSimpleEntryFileCount w completion_callback entry sync_entry
      result).world.entry entry = none := by
  rw [EntryOperationComplete_deleted kSimpleEntryFileCount w completion_callback entry
    sync_entry result hentry, World.entry_Run]
  have hent := entry_if_index_UpdateEntrySize w (w.sync_entries sync_entry).key
    (w.sync_entries sync_entry).GetFileSize entry
  rw [hentry] at hent
  simpa [PostTask, World.log, World.entry] using hent

theorem Machine.inv_step (kSimpleEntryFileCount : Nat) (os_posix : Bool) (this h base : Nat)
    (s s1 : Machine) (c : Call) (hinv : Machine.inv this h base s)
    (hstep : Machine.step kSimpleEntryFileCount os_posix this s c = some s1) :
    Machine.inv this h base s1 := by
  have hinv0 := hinv
  obtain ⟨hcbs, hlen, hlive, hdead⟩ := hinv
  cases c with
  | ReadData index offset buf buf_len callback =>
    cases hentry : s.w.entry this with
    | none => simp [Machine.step, Machine.after_call, ReadData, hentry] at hstep
    | some e =>
      cases hf : e.synchronous_entry_in_use_by_worker_ with
      | true => simp [Machine.step, Machine.after_call, ReadData, hentry, hf] at hstep
      | false =>
        cases hidx : s.w.index with
        | none =>
          simp [Machine.step, Machine.after_call, ReadData, hentry, hf, World.set_entry, hidx]
            at hstep
        | some idx =>
          simp only [Machine.step, ReadData_idle s.w idx this e index offset buf buf_len callback
            hentry hf hidx, Machine.after_call, Option.some.injEq] at hstep
          subst hstep
          refine Machine.inv_operation_started this h base s e _
            (Job.ReadData e.synchronous_entry_ index offset buf buf_len
              ⟨callback, this, e.synchronous_entry_⟩) ⟨callback, this, e.synchronous_entry_⟩
            hinv0 hentry hf rfl ⟨rfl, rfl⟩ (by simp) ?_ ?_
          · simpa [World.entry, World.set_entry] using World.entry_set_entry s.w this e
              { e with synchronous_entry_in_use_by_worker_ := true } hentry
          · simp [World.jobs, List.filterMap_append]
  | WriteData index offset buf buf_len callback truncate =>
    cases hentry : s.w.entry this with
    | none => simp [Machine.step, Machine.after_call, WriteData, hentry] at hstep
    | some e =>
      cases hf : e.synchronous_entry_in_use_by_worker_ with
      | true => simp [Machine.step, Machine.after_call, WriteData, hentry, hf] at hstep
      | false =>
        cases hidx : s.w.index with
        | none =>
          simp [Machine.step, Machine.after_call, WriteData, hentry, hf, World.set_entry, hidx]
            at hstep
        | some idx =>
          simp only [Machine.step, WriteData_idle s.w idx this e index offset buf buf_len
            callback truncate hentry hf hidx, Machine.after_call, Option.some.injEq] at hstep
          subst hstep
          refine Machine.inv_operation_started this h base s e _
            (Job.WriteData e.synchronous_entry_ index offset buf buf_len
              ⟨callback, this, e.synchronous_entry_⟩ truncate)
            ⟨callback, this, e.synchronous_entry_⟩
            hinv0 hentry hf rfl ⟨rfl, rfl⟩ (by simp) ?_ ?_
          · simpa [World.entry, World.set_entry] using World.entry_set_entry s.w this e
              { e with synchronous_entry_in_use_by_worker_ := true } hentry
          · simp [World.jobs, List.filterMap_append]
  | Doom =>
    cases hentry : s.w.entry this with
    | none => simp [Machine.step, Machine.after_call, Doom, hentry] at hstep
    | some e =>
      obtain ⟨hh, hflag, htd⟩ := hlive e hentry
      have hkeep : ∀ w1 : World, w1.entries = s.w.entries →
          (w1.jobs = s.w.jobs ∨ w1.jobs = s.w.jobs ++ [Job.DoomEntry e.path_ e.key_ none]) →
          Machine.inv this h base
            { w := w1,
              outstanding := s.outstanding
                ++ (w1.jobs.drop s.w.jobs.length).filterMap Job.completion } := by
        intro w1 hent hj
        have hout : s.outstanding ++ (w1.jobs.drop s.w.jobs.length).filterMap Job.completion
            = s.outstanding := by
          rcases hj with hj | hj <;> simp [hj, Job.completion]
        have htd1 : w1.teardowns h = s.w.teardowns h := by
          rcases hj with hj | hj
          · simp [World.teardowns, hj]
          · exact World.teardowns_eq_of_jobs s.w w1 h _ hj (by simp)
        have hentry1 : w1.entry this = s.w.entry this := by simp [World.entry, hent]
        rw [hout]
        refine ⟨hcbs, hlen, ?_, ?_⟩
        · intro e1 he1
          rw [hentry1] at he1
          rw [htd1]
          exact hlive e1 he1
        · intro he1
          rw [hentry1, hentry] at he1
          cases he1
      cases os_posix with
      | false =>
        have hd : Doom false s.w this = Outcome.returned () s.w := by simp [Doom, hentry]
        simp only [Machine.step, hd, Machine.after_call, Option.some.injEq] at hstep
        subst hstep
        exact hkeep s.w rfl (Or.inl rfl)
      | true =>
        have hd : Doom true s.w this
            = Outcome.returned () (DoomEntry s.w e.path_ e.key_ none).2 := by
          simp [Doom, hentry]
        simp only [Machine.step, hd, Machine.after_call, Option.some.injEq] at hstep
        subst hstep
        refine hkeep _ ?_ (Or.inr ?_)
        · cases hidx : s.w.index <;> simp [DoomEntry, if_index_Remove, hidx, PostTask, World.log]
        · cases hidx : s.w.index <;>
            simp [DoomEntry, if_index_Remove, hidx, PostTask, World.log, World.jobs,
              List.filterMap_append]
  | Close =>
    cases hentry : s.w.entry this with
    | none => simp [Machine.step, Machine.after_call, Close, hentry] at hstep
    | some e =>
      obtain ⟨hh, hflag, htd⟩ := hlive e hentry
      cases hf : e.synchronous_entry_in_use_by_worker_ with
      | false =>
        have hnil := Machine.outstanding_nil_of_idle s _ hlen hflag hf
        simp only [Machine.step, Close_idle s.w this e hentry hf, Machine.after_call,
          Option.some.injEq] at hstep
        subst hstep
        have hjobs : ((PostTask s.w (Job.Close e.synchronous_entry_)).delete this).jobs
            = s.w.jobs ++ [Job.Close h] := by
          simp [World.delete, PostTask, World.log, World.jobs, List.filterMap_append, hh]
        have hout : s.outstanding
            ++ (((PostTask s.w (Job.Close e.synchronous_entry_)).delete this).jobs.drop
              s.w.jobs.length).filterMap Job.completion = [] := by
          simp [hnil, hjobs, Job.completion]
        rw [hout]
        refine ⟨by simp, by simp, ?_, ?_⟩
        · intro e1 he1
          rw [World.entry_delete] at he1
          cases he1
        · intro _
          simp [World.teardowns, hjobs, List.count_append]
          simpa [World.teardowns] using htd
      | true =>
        have hone : s.outstanding.length = 1 := hflag.mp hf
        simp only [Machine.step, Close_in_flight s.w this e hentry hf, Machine.after_call,
          Option.some.injEq] at hstep
        subst hstep
        have hjobs : (s.w.delete this).jobs = s.w.jobs := by simp [World.delete, World.jobs]
        have hout : s.outstanding
            ++ ((s.w.delete this).jobs.drop s.w.jobs.length).filterMap Job.completion
            = s.outstanding := by
          simp [hjobs]
        rw [hout]
        refine ⟨hcbs, hlen, ?_, ?_⟩
        · intro e1 he1
          rw [World.entry_delete] at he1
          cases he1
        · intro _
          have hne : s.outstanding ≠ [] := by
            intro hnil
            rw [hnil] at hone
            simp at hone
          simp only [World.teardowns, hjobs, hne, if_false]
          simpa [World.teardowns] using htd
  | complete result content =>
    cases hout : s.outstanding with
    | nil => simp [Machine.step, hout] at hstep
    | cons cb rest =>
      have hrest : rest = [] := by
        rw [hout] at hlen
        simp only [List.length_cons] at hlen
        exact List.length_eq_zero.mp (by omega)
      obtain ⟨hcbe, hcbh⟩ := hcbs cb (by simp [hout])
      simp only [Machine.step, hout] at hstep
      rw [hcbe, hcbh] at hstep
      subst hrest
      have hs1 : s1 = { w := (EntryOperationComplete kSimpleEntryFileCount
          { s.w with sync_entries := Function.update s.w.sync_entries h content }
          cb.callback this h result).world, outstanding := [] } := by
        cases hE : EntryOperationComplete kSimpleEntryFileCount
            { s.w with sync_entries := Function.update s.w.sync_entries h content }
            cb.callback this h result with
        | returned u w1 =>
          rw [hE] at hstep
          simp only [Machine.after_reply, Option.some.injEq] at hstep
          rw [← hstep]
          rfl
        | aborted f w1 =>
          rw [hE] at hstep
          simp [Machine.after_reply] at hstep
      rw [hs1]
      have hentry0 :
          ({ s.w with sync_entries := Function.update s.w.sync_entries h content } : World).entry
            this = s.w.entry this := rfl
      have hjobs0 :
          ({ s.w with sync_entries := Function.update s.w.sync_entries h content } : World).jobs
            = s.w.jobs := rfl
      cases hentry : s.w.entry this with
      | some e =>
        obtain ⟨hh, hflag, htd⟩ := hlive e hentry
        rw [hentry] at hentry0
        refine ⟨by simp, by simp, ?_, ?_⟩
        · intro e1 he1
          rw [entry_EntryOperationComplete_live kSimpleEntryFileCount _ cb.callback this h
            result e hentry0] at he1
          cases he1
          refine ⟨hh, by simp [SetSynchronousData], ?_⟩
          simp only [World.teardowns, jobs_EntryOperationComplete_live kSimpleEntryFileCount _
            cb.callback this h result e hentry0, hjobs0]
          simpa [World.teardowns] using htd
        · intro he1
          rw [entry_EntryOperationComplete_live kSimpleEntryFileCount _ cb.callback this h
            result e hentry0] at he1
          cases he1
      | none =>
        have htd := hdead hentry
        rw [hout] at htd
        rw [hentry] at hentry0
        refine ⟨by simp, by simp, ?_, ?_⟩
        · intro e1 he1
          rw [entry_EntryOperationComplete_deleted kSimpleEntryFileCount _ cb.callback this h
            result hentry0] at he1
          cases he1
        · intro _
          simp only [World.teardowns, jobs_EntryOperationComplete_deleted kSimpleEntryFileCount _
            cb.callback this h result hentry0, hjobs0]
          simp [List.count_append]
          simpa [World.teardowns] using htd
  | index_torn_down =>
    simp only [Machine.step, Option.some.injEq] at hstep
    subst hstep
    exact ⟨hcbs, hlen, hlive, hdead⟩

theorem Machine.inv_run (kSimpleEntryFileCount : Nat) (os_posix : Bool) (this h base : Nat)
    (calls : List Call) :
    ∀ s s1 : Machine, Machine.inv this h base s →
      Machine.run kSimpleEntryFileCount os_posix this s calls = some s1 →
      Machine.inv this h base s1 := by
  induction calls with
  | nil =>
    intro s s1 hinv hrun
    simp only [Machine.run, Option.some.injEq] at hrun
    subst hrun
    exact hinv
  | cons c cs ih =>
    intro s s1 hinv hrun
    cases hstep : Machine.step kSimpleEntryFileCount os_posix this s c with
    | none => simp [Machine.run, hstep] at hrun
    | some s2 =>
      simp only [Machine.run, hstep] at hrun
      exact ih s2 s1 (Machine.inv_step kSimpleEntryFileCount os_posix this h base s s2 c hinv
        hstep) hrun

/-- Claim C16 (invariant I2): in every state reached from a successful creation
by calls of `ReadData`, `WriteData`, `Doom` and `Close` that return, deliveries
of completions and the teardown of the index, the teardowns of the entry's
worker-held object posted since the creation number at most one; while the
entry object is live, or while a read or write is outstanding, there is none;
and once the entry object is deleted by `Close` and nothing is outstanding there
is exactly one. -/
theorem C16_teardown_exactly_once_and_never_early (kSimpleEntryFileCount : Nat)
    (os_posix : Bool) (w0 : World) (completion_callback : CompletionCallback) (key : String)
    (out_entry sync_entry : Nat) (calls : List Call) (s : Machine)
    (hrun : Machine.run kSimpleEntryFileCount os_posix w0.entries.length
      (Machine.created kSimpleEntryFileCount w0 completion_callback key out_entry sync_entry)
      calls = some s) :
    s.w.teardowns sync_entry ≤ w0.teardowns sync_entry + 1
    ∧ w0.teardowns sync_entry ≤ s.w.teardowns sync_entry
    ∧ (s.outstanding ≠ [] → s.w.teardowns sync_entry = w0.teardowns sync_entry)
    ∧ ((s.w.entry w0.entries.length).isSome = true →
        s.w.teardowns sync_entry = w0.teardowns sync_entry)
    ∧ (s.w.entry w0.entries.length = none → s.outstanding = [] →
        s.w.teardowns sync_entry = w0.teardowns sync_entry + 1) := by
  obtain ⟨_, _, hlive, hdead⟩ := Machine.inv_run kSimpleEntryFileCount os_posix
    w0.entries.length sync_entry (w0.teardowns sync_entry) calls _ s
    (Machine.inv_created kSimpleEntryFileCount w0 completion_callback key out_entry sync_entry)
    hrun
  cases hentry : s.w.entry w0.entries.length with
  | some e =>
    obtain ⟨_, _, htd⟩ := hlive e hentry
    simp [htd]
  | none =>
    have htd := hdead hentry
    by_cases hnil : s.outstanding = []
    · simp [htd, hnil]
    · simp [htd, hnil]

/-- Claim C17 (invariant I1): in every state reached from a successful creation
by calls that return, deliveries of completions and the teardown of the index,
at most one read or write job is outstanding, each outstanding job is bound to
this entry and its worker-held object, and while the entry object is live its
in-use flag is set exactly when one job is outstanding. -/
theorem C17_single_flight (kSimpleEntryFileCount : Nat) (os_posix : Bool) (w0 : World)
    (completion_callback : CompletionCallback) (key : String) (out_entry sync_entry : Nat)
    (calls : List Call) (s : Machine)
    (hrun : Machine.run kSimpleEntryFileCount os_posix w0.entries.length
      (Machine.created kSimpleEntryFileCount w0 completion_callback key out_entry sync_entry)
      calls = some s) :
    s.outstanding.length ≤ 1
    ∧ (∀ cb ∈ s.outstanding, cb.entry = w0.entries.length ∧ cb.sync_entry = sync_entry)
    ∧ ∀ e, s.w.entry w0.entries.length = some e →
        e.synchronous_entry_ = sync_entry
        ∧ (e.synchronous_entry_in_use_by_worker_ = true ↔ s.outstanding.length = 1)
        ∧ (e.synchronous_entry_in_use_by_worker_ = false ↔ s.outstanding = []) := by
  obtain ⟨hcbs, hlen, hlive, _⟩ := Machine.inv_run kSimpleEntryFileCount os_posix
    w0.entries.length sync_entry (w0.teardowns sync_entry) calls _ s
    (Machine.inv_created kSimpleEntryFileCount w0 completion_callback key out_entry sync_entry)
    hrun
  refine ⟨hlen, hcbs, ?_⟩
  intro e he
  obtain ⟨hh, hflag, _⟩ := hlive e he
  refine ⟨hh, hflag, ?_⟩
  constructor
  · intro hf
    exact Machine.outstanding_nil_of_idle s _ hlen hflag hf
  · intro hnil
    cases hb : e.synchronous_entry_in_use_by_worker_ with
    | false => rfl
    | true =>
      have := hflag.mp hb
      rw [hnil] at this
      simp at this

/-- Witness of C16: after the creation of the entry for "abc" in `abc_world`,
the calls `abc_close_first` run to a state where the entry object is deleted,
nothing is outstanding and one teardown has been posted. -/
theorem C16_teardown_exactly_once_and_never_early_witness :
    ∃ s, Machine.run 3 true abc_world.entries.length
        (Machine.created 3 abc_world (some 1) "abc" 0 0) abc_close_first = some s
      ∧ s.w.entry abc_world.entries.length = none
      ∧ s.outstanding = []
      ∧ s.w.teardowns 0 = 1
      ∧ s.w.teardowns 0 ≤ abc_world.teardowns 0 + 1
      ∧ abc_world.teardowns 0 ≤ s.w.teardowns 0
      ∧ (s.outstanding ≠ [] → s.w.teardowns 0 = abc_world.teardowns 0)
      ∧ ((s.w.entry abc_world.entries.length).isSome = true →
          s.w.teardowns 0 = abc_world.teardowns 0)
      ∧ (s.w.entry abc_world.entries.length = none → s.outstanding = [] →
          s.w.teardowns 0 = abc_world.teardowns 0 + 1) :=
  ⟨(Machine.run 3 true abc_world.entries.length
      (Machine.created 3 abc_world (some 1) "abc" 0 0) abc_close_first).get rfl,
    (Option.some_get _).symm, rfl, rfl, rfl,
    C16_teardown_exactly_once_and_never_early 3 true abc_world (some 1) "abc" 0 0
      abc_close_first _ (Option.some_get _).symm⟩

/-- Witness of C17: after the creation of the entry for "abc" in `abc_world`,
the calls `abc_read_outstanding` run to a state where the entry object is live,
its in-use flag is set and one read is outstanding. -/
theorem C17_single_flight_witness :
    ∃ s, Machine.run 3 true abc_world.entries.length
        (Machine.created 3 abc_world (some 1) "abc" 0 0) abc_read_outstanding = some s
      ∧ s.outstanding = [⟨some 10, 0, 0⟩]
      ∧ (s.w.entry abc_world.entries.length).map
          (fun e => e.synchronous_entry_in_use_by_worker_) = some true
      ∧ s.outstanding.length ≤ 1
      ∧ (∀ cb ∈ s.outstanding, cb.entry = abc_world.entries.length ∧ cb.sync_entry = 0)
      ∧ ∀ e, s.w.entry abc_world.entries.length = some e →
          e.synchronous_entry_ = 0
          ∧ (e.synchronous_entry_in_use_by_worker_ = true ↔ s.outstanding.length = 1)
          ∧ (e.synchronous_entry_in_use_by_worker_ = false ↔ s.outstanding = []) :=
  ⟨(Machine.run 3 true abc_world.entries.length
      (Machine.created 3 abc_world (some 1) "abc" 0 0) abc_read_outstanding).get rfl,
    (Option.some_get _).symm, rfl, rfl,
    C17_single_flight 3 true abc_world (some 1) "abc" 0 0 abc_read_outstanding _
      (Option.some_get _).symm⟩

/-! ## Live entry objects per key -/

/-- Claim C19 as stated fails: in `abc_world`, two opens of "abc" both return
`ERR_IO_PENDING`, and when both complete with a worker-held object the world
`abc_opened_twice` holds two live entry objects whose key is "abc", at the
addresses 0 and 1, one in each output slot. -/
theorem C19_two_live_entries_for_one_key :
    (OpenEntry abc_world "/cache/abc" "abc" 0 (some 1)).1 = net.ERR_IO_PENDING
    ∧ (OpenEntry (OpenEntry abc_world "/cache/abc" "abc" 0 (some 1)).2
        "/cache/abc" "abc" 1 (some 2)).1 = net.ERR_IO_PENDING
    ∧ (abc_opened_twice.entry 0).map GetKey = some "abc"
    ∧ (abc_opened_twice.entry 1).map GetKey = some "abc"
    ∧ abc_opened_twice.out_entries 0 = some 0
    ∧ abc_opened_twice.out_entries 1 = some 1
    ∧ abc_opened_twice.runs = [(some 1, net.OK), (some 2, net.OK)]
    ∧ abc_opened_twice.live_coordinators "abc" = 2
    ∧ ¬ abc_opened_twice.live_coordinators "abc" ≤ 1 := by
  refine ⟨by decide, by decide, by decide, by decide, by decide, by decide, by decide, by decide, by decide⟩

theorem countP_set_of_eq {α : Type} (p : α → Bool) (l : List α) :
    ∀ (i : Nat) (x y : α), l[i]? = some y → p x = p y → (l.set i x).countP p = l.countP p := by
  induction l with
  | nil => intro i x y h; simp at h
  | cons a l ih =>
    intro i x y h hp
    cases i with
    | zero =>
      simp only [List.getElem?_cons_zero, Option.some.injEq] at h
      subst h
      simp [List.countP_cons, hp]
    | succ i =>
      simp only [List.getElem?_cons_succ] at h
      simp [List.countP_cons, ih i x y h hp]

theorem countP_set_le {α : Type} (p : α → Bool) (l : List α) :
    ∀ (i : Nat) (x : α), p x = false → (l.set i x).countP p ≤ l.countP p := by
  induction l with
  | nil => intro i x _; simp
  | cons a l ih =>
    intro i x hp
    cases i with
    | zero => simp [List.countP_cons, hp]
    | succ i =>
      have := ih i x hp
      simp [List.countP_cons]
      omega

theorem World.live_coordinators_set_entry (w : World) (p : Nat) (e0 e : SimpleEntryImpl)
    (key : String) (hentry : w.entry p = some e0) (hkey : e.key_ = e0.key_) :
    (w.set_entry p e).live_coordinators key = w.live_coordinators key := by
  have hget : w.entries[p]? = some (some e0) := by
    unfold World.entry at hentry
    cases hg : w.entries[p]? with
    | none => simp [hg] at hentry
    | some o =>
      cases o with
      | none => simp [hg] at hentry
      | some e1 =>
        simp [hg] at hentry
        rw [hentry]
  exact countP_set_of_eq _ w.entries p (some e) (some e0) hget (by simp [hkey])

theorem World.live_coordinators_delete (w : World) (p : Nat) (key : String) :
    (w.delete p).live_coordinators key ≤ w.live_coordinators key :=
  countP_set_le _ w.entries p none rfl

theorem World.live_coordinators_of_entries (w w1 : World) (key : String)
    (h : w1.entries = w.entries) : w1.live_coordinators key = w.live_coordinators key := by
  simp [World.live_coordinators, h]

theorem SimpleEntryImpl.live_coordinators_ReadData (w : World) (this : Nat)
    (index offset : Int) (buf : Nat) (buf_len : Int) (callback : CompletionCallback)
    (key : String) :
    (ReadData w this index offset buf buf_len callback).world.live_coordinators key
      = w.live_coordinators key := by
  cases hentry : w.entry this with
  | none => simp [ReadData, hentry, Outcome.world]
  | some e =>
    cases hf : e.synchronous_entry_in_use_by_worker_ with
    | true => simp [ReadData, hentry, hf, Outcome.world]
    | false =>
      have hset := World.live_coordinators_set_entry w this e
        { e with synchronous_entry_in_use_by_worker_ := true } key hentry rfl
      cases hidx : w.index with
      | none =>
        simpa [ReadData, hentry, hf, World.set_entry, hidx, Outcome.world] using hset
      | some idx =>
        rw [ReadData_idle w idx this e index offset buf buf_len callback hentry hf hidx]
        simpa [Outcome.world, World.live_coordinators, World.set_entry] using hset

theorem SimpleEntryImpl.live_coordinators_WriteData (w : World) (this : Nat)
    (index offset : Int) (buf : Nat) (buf_len : Int) (callback : CompletionCallback)
    (truncate : Bool) (key : String) :
    (WriteData w this index offset buf buf_len callback truncate).world.live_coordinators key
      = w.live_coordinators key := by
  cases hentry : w.entry this with
  | none => simp [WriteData, hentry, Outcome.world]
  | some e =>
    cases hf : e.synchronous_entry_in_use_by_worker_ with
    | true => simp [WriteData, hentry, hf, Outcome.world]
    | false =>
      have hset := World.live_coordinators_set_entry w this e
        { e with synchronous_entry_in_use_by_worker_ := true } key hentry rfl
      cases hidx : w.index with
      | none =>
        simpa [WriteData, hentry, hf, World.set_entry, hidx, Outcome.world] using hset
      | some idx =>
        rw [WriteData_idle w idx this e index offset buf buf_len callback truncate hentry hf
          hidx]
        simpa [Outcome.world, World.live_coordinators, World.set_entry] using hset

theorem SimpleEntryImpl.live_coordinators_EntryOperationComplete
    (kSimpleEntryFileCount : Nat) (w : World) (completion_callback : CompletionCallback)
    (entry sync_entry : Nat) (result : Int) (key : String) :
    (EntryOperationComplete kSimpleEntryFileCount w completion_callback entry sync_entry
      result).world.live_coordinators key = w.live_coordinators key := by
  have hbase : (if_index_UpdateEntrySize w (w.sync_entries sync_entry).key
      (w.sync_entries sync_entry).GetFileSize).live_coordinators key
      = w.live_coordinators key := by
    cases hidx : w.index <;> simp [if_index_UpdateEntrySize, hidx, World.live_coordinators]
  have hent := entry_if_index_UpdateEntrySize w (w.sync_entries sync_entry).key
    (w.sync_entries sync_entry).GetFileSize entry
  cases hentry : w.entry entry with
  | none =>
    rw [EntryOperationComplete_deleted kSimpleEntryFileCount w completion_callback entry
      sync_entry result hentry]
    refine (World.live_coordinators_of_entries _ _ key
      (World.entries_Run _ completion_callback result)).trans ?_
    rw [← hbase]
    simp [PostTask, World.log, World.live_coordinators]
  | some e =>
    rw [hentry] at hent
    rw [EntryOperationComplete_live kSimpleEntryFileCount w completion_callback entry
      sync_entry result e hentry]
    refine (World.live_coordinators_of_entries _ _ key
      (World.entries_Run _ completion_callback result)).trans ?_
    rw [← hbase]
    exact World.live_coordinators_set_entry _ entry e
      (SetSynchronousData kSimpleEntryFileCount (w.sync_entries e.synchronous_entry_)
        { e with synchronous_entry_in_use_by_worker_ := false }) key hent rfl

theorem SimpleEntryImpl.live_coordinators_CreationOperationComplete
    (kSimpleEntryFileCount : Nat) (w : World) (completion_callback : CompletionCallback)
    (k : String) (out_entry sync_entry : Nat) (key : String) :
    (CreationOperationComplete kSimpleEntryFileCount w completion_callback k out_entry
      (some sync_entry)).world.live_coordinators key
      = w.live_coordinators key + if (w.sync_entries sync_entry).key = key then 1 else 0 := by
  simp only [CreationOperationComplete]
  refine (World.live_coordinators_of_entries _ _ key
    (World.entries_Run _ completion_callback net.OK)).trans ?_
  cases hidx : w.index <;>
    by_cases hk : (w.sync_entries sync_entry).key = key <;>
    simp [if_index_Insert, hidx, World.live_coordinators, List.countP_append, ctor,
      SetSynchronousData, hk]

/-- Claim C19, amended: the number of live entry objects for a key grows only
when an open or a create completes with a worker-held object of that key, and
then by one, so that it stays at most one as long as such a completion never
happens while an entry object for the key is live; a failed completion,
`OpenEntry`, `CreateEntry`, `DoomEntry`, `ReadData`, `WriteData`, `Doom` and
the completion of a read or a write leave the number as it is, and `Close`
never raises it. -/
theorem C19_live_entries_grow_only_by_successful_completion (kSimpleEntryFileCount : Nat)
    (w : World) (key : String) :
    (∀ (callback : CompletionCallback) (k : String) (out_entry sync_entry : Nat),
      (CreationOperationComplete kSimpleEntryFileCount w callback k out_entry
        (some sync_entry)).world.live_coordinators key
        = w.live_coordinators key + if (w.sync_entries sync_entry).key = key then 1 else 0)
    ∧ (∀ (callback : CompletionCallback) (k : String) (out_entry sync_entry : Nat),
      w.live_coordinators key = 0 →
      (CreationOperationComplete kSimpleEntryFileCount w callback k out_entry
        (some sync_entry)).world.live_coordinators key ≤ 1)
    ∧ (∀ (callback : CompletionCallback) (k : String) (out_entry : Nat),
      (CreationOperationComplete kSimpleEntryFileCount w callback k out_entry
        none).world.live_coordinators key = w.live_coordinators key)
    ∧ (∀ (path k : String) (entry : Nat) (callback : CompletionCallback),
      (OpenEntry w path k entry callback).2.live_coordinators key = w.live_coordinators key)
    ∧ (∀ (path k : String) (entry : Nat) (callback : CompletionCallback),
      (CreateEntry w path k entry callback).2.live_coordinators key = w.live_coordinators key)
    ∧ (∀ (path k : String) (callback : CompletionCallback),
      (DoomEntry w path k callback).2.live_coordinators key = w.live_coordinators key)
    ∧ (∀ (this : Nat) (index offset : Int) (buf : Nat) (buf_len : Int)
        (callback : CompletionCallback),
      (ReadData w this index offset buf buf_len callback).world.live_coordinators key
        = w.live_coordinators key)
    ∧ (∀ (this : Nat) (index offset : Int) (buf : Nat) (buf_len : Int)
        (callback : CompletionCallback) (truncate : Bool),
      (WriteData w this index offset buf buf_len callback truncate).world.live_coordinators key
        = w.live_coordinators key)
    ∧ (∀ (os_posix : Bool) (this : Nat),
      (Doom os_posix w this).world.live_coordinators key = w.live_coordinators key)
    ∧ (∀ this : Nat, (Close w this).world.live_coordinators key ≤ w.live_coordinators key)
    ∧ (∀ (callback : CompletionCallback) (entry sync_entry : Nat) (result : Int),
      (EntryOperationComplete kSimpleEntryFileCount w callback entry sync_entry
        result).world.live_coordinators key = w.live_coordinators key) := by
  refine ⟨?_, ?_, ?_, ?_, ?_, ?_, ?_, ?_, ?_, ?_, ?_⟩
  · intro callback k out_entry sync_entry
    exact live_coordinators_CreationOperationComplete kSimpleEntryFileCount w callback k
      out_entry sync_entry key
  · intro callback k out_entry sync_entry h0
    rw [live_coordinators_CreationOperationComplete kSimpleEntryFileCount w callback k
      out_entry sync_entry key, h0]
    split <;> simp
  · intro callback k out_entry
    cases callback <;> cases hidx : w.index <;>
      simp [CreationOperationComplete, if_index_Remove, hidx, Run, World.log,
        World.live_coordinators, Outcome.world]
  · intro path k entry callback
    cases hidx : w.index with
    | none => simp [OpenEntry, hidx, PostTask, World.log, World.live_coordinators]
    | some idx =>
      cases hu : (idx.UseIfExists k).1 <;>
        simp [OpenEntry, hidx, hu, call_UseIfExists, PostTask, World.log,
          World.live_coordinators]
  · intro path k entry callback
    simp [CreateEntry, PostTask, World.log, World.live_coordinators]
  · intro path k callback
    cases hidx : w.index <;>
      simp [DoomEntry, if_index_Remove, hidx, PostTask, World.log, World.live_coordinators]
  · intro this index offset buf buf_len callback
    exact live_coordinators_ReadData w this index offset buf buf_len callback key
  · intro this index offset buf buf_len callback truncate
    exact live_coordinators_WriteData w this index offset buf buf_len callback truncate key
  · intro os_posix this
    cases hentry : w.entry this with
    | none => simp [Doom, hentry, Outcome.world]
    | some e =>
      cases os_posix
      · simp [Doom, hentry, Outcome.world]
      · cases hidx : w.index <;>
          simp [Doom, hentry, Outcome.world, DoomEntry, if_index_Remove, hidx, PostTask,
            World.log, World.live_coordinators]
  · intro this
    cases hentry : w.entry this with
    | none => simp [Close, hentry, Outcome.world]
    | some e =>
      cases hf : e.synchronous_entry_in_use_by_worker_ with
      | true =>
        rw [Close_in_flight w this e hentry hf]
        exact World.live_coordinators_delete w this key
      | false =>
        rw [Close_idle w this e hentry hf]
        exact World.live_coordinators_delete (PostTask w (Job.Close e.synchronous_entry_)) this
          key
  · intro callback entry sync_entry result
    exact live_coordinators_EntryOperationComplete kSimpleEntryFileCount w callback entry
      sync_entry result key

/-! ## The static operations without the index, and the sparse operations -/

/-- Claim C26: with the index unavailable, `DoomEntry` posts one doom job and
returns `ERR_IO_PENDING`; for a callback that is not null,
`CreationOperationComplete` returns after it has run the callback with
`ERR_FAILED`, leaving the output slot and the heap alone, on failure, and on
success makes the entry object from the worker-held object, writes its address
to the output slot and runs the callback with `OK`; `EntryOperationComplete`
returns after it has cleared the in-use flag of a live entry and refreshed its
cached times and sizes, or posted the teardown of the worker-held object for a
deleted one, and has run the callback with the result code. None of them
makes a call on the index, which stays unavailable. On the null callback the
two completions fault at the call of `Run`, the teardown of a deleted entry
being posted already. -/
theorem C26_static_operations_without_index (kSimpleEntryFileCount : Nat) (w : World)
    (path key : String) (completion_callback : CompletionCallback) (callback : Nat)
    (out_entry sync_entry entry : Nat) (result : Int) (hindex : w.index = none) :
    ((DoomEntry w path key completion_callback).1 = net.ERR_IO_PENDING
      ∧ (DoomEntry w path key completion_callback).2.trace
          = w.trace ++ [Event.PostTask (Job.DoomEntry path key completion_callback)]
      ∧ (DoomEntry w path key completion_callback).2.index = none
      ∧ (DoomEntry w path key completion_callback).2.entries = w.entries)
    ∧ ((CreationOperationComplete kSimpleEntryFileCount w (some callback) key out_entry
          none).fault = none
      ∧ (CreationOperationComplete kSimpleEntryFileCount w (some callback) key out_entry
          none).world.trace = w.trace ++ [Event.Run (some callback) net.ERR_FAILED none]
      ∧ (CreationOperationComplete kSimpleEntryFileCount w (some callback) key out_entry
          none).world.out_entries = w.out_entries
      ∧ (CreationOperationComplete kSimpleEntryFileCount w (some callback) key out_entry
          none).world.entries = w.entries
      ∧ (CreationOperationComplete kSimpleEntryFileCount w (some callback) key out_entry
          none).world.index = none)
    ∧ ((CreationOperationComplete kSimpleEntryFileCount w (some callback) key out_entry
          (some sync_entry)).fault = none
      ∧ (CreationOperationComplete kSimpleEntryFileCount w (some callback) key out_entry
          (some sync_entry)).world.trace = w.trace ++ [Event.Run (some callback) net.OK none]
      ∧ (CreationOperationComplete kSimpleEntryFileCount w (some callback) key out_entry
          (some sync_entry)).world.out_entries out_entry = some w.entries.length
      ∧ (CreationOperationComplete kSimpleEntryFileCount w (some callback) key out_entry
          (some sync_entry)).world.index = none
      ∧ ∃ e, (CreationOperationComplete kSimpleEntryFileCount w (some callback) key out_entry
            (some sync_entry)).world.entry w.entries.length = some e
          ∧ e.synchronous_entry_ = sync_entry
          ∧ e.synchronous_entry_in_use_by_worker_ = false
          ∧ e.key_ = (w.sync_entries sync_entry).key
          ∧ e.path_ = (w.sync_entries sync_entry).path
          ∧ e.last_used_ = (w.sync_entries sync_entry).last_used
          ∧ e.last_modified_ = (w.sync_entries sync_entry).last_modified
          ∧ e.data_size_
              = (List.range kSimpleEntryFileCount).map (w.sync_entries sync_entry).data_size)
    ∧ (∀ e, w.entry entry = some e →
        (EntryOperationComplete kSimpleEntryFileCount w (some callback) entry sync_entry
          result).fault = none
        ∧ (EntryOperationComplete kSimpleEntryFileCount w (some callback) entry sync_entry
            result).world.trace = w.trace ++ [Event.Run (some callback) result none]
        ∧ (EntryOperationComplete kSimpleEntryFileCount w (some callback) entry sync_entry
            result).world.index = none
        ∧ ∃ e2, (EntryOperationComplete kSimpleEntryFileCount w (some callback) entry
              sync_entry result).world.entry entry = some e2
            ∧ (EntryOperationComplete kSimpleEntryFileCount w none entry sync_entry
                result).world.entry entry = some e2
            ∧ e2.synchronous_entry_in_use_by_worker_ = false
            ∧ e2.key_ = e.key_
            ∧ e2.path_ = e.path_
            ∧ e2.synchronous_entry_ = e.synchronous_entry_
            ∧ e2.last_used_ = (w.sync_entries e.synchronous_entry_).last_used
            ∧ e2.last_modified_ = (w.sync_entries e.synchronous_entry_).last_modified
            ∧ e2.data_size_
                = (List.range kSimpleEntryFileCount).map
                    (w.sync_entries e.synchronous_entry_).data_size)
    ∧ (w.entry entry = none →
        (EntryOperationComplete kSimpleEntryFileCount w (some callback) entry sync_entry
          result).fault = none
        ∧ (EntryOperationComplete kSimpleEntryFileCount w (some callback) entry sync_entry
            result).world.trace
          = w.trace ++ [Event.PostTask (Job.Close sync_entry),
              Event.Run (some callback) result none]
        ∧ (EntryOperationComplete kSimpleEntryFileCount w (some callback) entry sync_entry
            result).world.entries = w.entries
        ∧ (EntryOperationComplete kSimpleEntryFileCount w (some callback) entry sync_entry
            result).world.index = none
        ∧ (EntryOperationComplete kSimpleEntryFileCount w none entry sync_entry
            result).world.trace = w.trace ++ [Event.PostTask (Job.Close sync_entry)])
    ∧ ((CreationOperationComplete kSimpleEntryFileCount w none key out_entry none).fault
          = some Fault.null_dereference
      ∧ (CreationOperationComplete kSimpleEntryFileCount w none key out_entry none).world = w
      ∧ (CreationOperationComplete kSimpleEntryFileCount w none key out_entry
          (some sync_entry)).fault = some Fault.null_dereference
      ∧ (CreationOperationComplete kSimpleEntryFileCount w none key out_entry
          (some sync_entry)).world.trace = w.trace
      ∧ (EntryOperationComplete kSimpleEntryFileCount w none entry sync_entry result).fault
          = some Fault.null_dereference) := by
  have h1 : if_index_UpdateEntrySize w (w.sync_entries sync_entry).key
      (w.sync_entries sync_entry).GetFileSize = w := by
    simp [if_index_UpdateEntrySize, hindex]
  refine ⟨?_, ?_, ?_, ?_, ?_, ?_⟩
  · simp [DoomEntry, if_index_Remove, hindex, PostTask, World.log, net.ERR_IO_PENDING]
  · simp [CreationOperationComplete, if_index_Remove, hindex, Run, World.log, Outcome.world,
      Outcome.fault]
  · refine ⟨?_, ?_, ?_, ?_, ctor kSimpleEntryFileCount w sync_entry, ?_, rfl, rfl, rfl, rfl,
      rfl, rfl, rfl⟩
    · simp [CreationOperationComplete, Run, Outcome.fault]
    · simp [CreationOperationComplete, if_index_Insert, hindex, Run, World.log, Outcome.world]
    · simp [CreationOperationComplete, if_index_Insert, hindex, Run, World.log, Outcome.world]
    · simp [CreationOperationComplete, if_index_Insert, hindex, Run, World.log, Outcome.world]
    · simp [CreationOperationComplete, if_index_Insert, hindex, Run, World.log, World.entry,
        ctor, Outcome.world]
  · intro e he
    have hE : ∀ cb : CompletionCallback,
        EntryOperationComplete kSimpleEntryFileCount w cb entry sync_entry result
        = Run (w.set_entry entry
            (SetSynchronousData kSimpleEntryFileCount (w.sync_entries e.synchronous_entry_)
              { e with synchronous_entry_in_use_by_worker_ := false })) cb result := by
      intro cb
      simp only [EntryOperationComplete, h1, he]
    rw [hE, hE]
    refine ⟨rfl, ?_, ?_,
      SetSynchronousData kSimpleEntryFileCount (w.sync_entries e.synchronous_entry_)
        { e with synchronous_entry_in_use_by_worker_ := false },
      ?_, ?_, rfl, rfl, rfl, rfl, rfl, rfl, rfl⟩
    · simp [Run, World.log, World.set_entry, hindex, Outcome.world]
    · simp [Run, World.log, World.set_entry, hindex, Outcome.world]
    · rw [World.entry_Run]
      exact World.entry_set_entry w entry e _ he
    · rw [World.entry_Run]
      exact World.entry_set_entry w entry e _ he
  · intro he
    have hE : ∀ cb : CompletionCallback,
        EntryOperationComplete kSimpleEntryFileCount w cb entry sync_entry result
        = Run (PostTask w (Job.Close sync_entry)) cb result := by
      intro cb
      simp only [EntryOperationComplete, h1, he]
    rw [hE, hE]
    simp [Run, World.log, PostTask, hindex, Outcome.world, Outcome.fault]
  · refine ⟨?_, ?_, ?_, ?_, ?_⟩
    · simp [CreationOperationComplete, Run, Outcome.fault]
    · simp [CreationOperationComplete, Run, Outcome.world]
    · simp [CreationOperationComplete, Run, Outcome.fault]
    · simp [CreationOperationComplete, if_index_Insert, hindex, Run, Outcome.world]
    · simp [EntryOperationComplete, Run, Outcome.fault]

/-- Witness of C26: the world in which the index has been torn down while the
entry object for "abc" is live and idle. -/
theorem C26_static_operations_without_index_witness :
    abc_torn_down_world.index = none
    ∧ (DoomEntry abc_torn_down_world "/cache/abc" "abc" (some 1)).2.trace
        = [Event.PostTask (Job.DoomEntry "/cache/abc" "abc" (some 1))]
    ∧ (EntryOperationComplete 3 abc_torn_down_world (some 2) 0 0 5).world.trace
        = [Event.Run (some 2) 5 none]
    ∧ (EntryOperationComplete 3 abc_torn_down_world (some 2) 0 0 5).world.entry 0
        = some abc_entry
    ∧ (EntryOperationComplete 3 abc_torn_down_world (some 2) 1 0 5).world.trace
        = [Event.PostTask (Job.Close 0), Event.Run (some 2) 5 none] :=
  ⟨rfl,
    (C26_static_operations_without_index 3 abc_torn_down_world "/cache/abc" "abc" (some 1) 2
      0 0 0 5 rfl).1.2.1,
    by decide, by decide, by decide⟩

/-- Claim C27: for every world, whether the entry object is idle or has an
operation in flight, and for every argument, `ReadSparseData`,
`WriteSparseData`, `GetAvailableRange`, `CancelSparseIO` and
`ReadyForSparseIO` leave the world as it was, so that they post no job, run no
callback, make no call on the index, and leave the in-use flag and the cached
times and sizes of the entry object unchanged; `CouldBeSparse` returns false;
the four that return a result code return `ERR_FAILED`, in flight as well,
where `ReadData` and `WriteData` abort on `CHECK(false)`. -/
theorem C27_sparse_operations_change_nothing (w : World) (this : Nat) (offset : Int)
    (buf : Nat) (buf_len len : Int) (start : Nat) (callback : CompletionCallback) :
    ((ReadSparseData w this offset buf buf_len callback).2 = w
      ∧ (WriteSparseData w this offset buf buf_len callback).2 = w
      ∧ (GetAvailableRange w this offset len start callback).2 = w
      ∧ CancelSparseIO w this = w
      ∧ ( ReadyForSparseIO w this callback).2 = w)
    ∧ ((ReadSparseData w this offset buf buf_len callback).2.jobs = w.jobs
      ∧ (WriteSparseData w this offset buf buf_len callback).2.jobs = w.jobs
      ∧ (GetAvailableRange w this offset len start callback).2.jobs = w.jobs
      ∧ ( CancelSparseIO w this).jobs = w.jobs
      ∧ ( ReadyForSparseIO w this callback).2.jobs = w.jobs)
    ∧ ((ReadSparseData w this offset buf buf_len callback).2.runs = w.runs
      ∧ (WriteSparseData w this offset buf buf_len callback).2.runs = w.runs
      ∧ (GetAvailableRange w this offset len start callback).2.runs = w.runs
      ∧ ( CancelSparseIO w this).runs = w.runs
      ∧ ( ReadyForSparseIO w this callback).2.runs = w.runs)
    ∧ ((ReadSparseData w this offset buf buf_len callback).2.entry this = w.entry this
      ∧ (WriteSparseData w this offset buf buf_len callback).2.entry this = w.entry this
      ∧ (GetAvailableRange w this offset len start callback).2.entry this = w.entry this
      ∧ ( CancelSparseIO w this).entry this = w.entry this
      ∧ ( ReadyForSparseIO w this callback).2.entry this = w.entry this)
    ∧ ((ReadSparseData w this offset buf buf_len callback).2.index = w.index
      ∧ (WriteSparseData w this offset buf buf_len callback).2.index = w.index
      ∧ (GetAvailableRange w this offset len start callback).2.index = w.index
      ∧ ( CancelSparseIO w this).index = w.index
      ∧ ( ReadyForSparseIO w this callback).2.index = w.index)
    ∧ ((ReadSparseData w this offset buf buf_len callback).1 = net.ERR_FAILED
      ∧ (WriteSparseData w this offset buf buf_len callback).1 = net.ERR_FAILED
      ∧ (GetAvailableRange w this offset len start callback).1 = net.ERR_FAILED
      ∧ CouldBeSparse w this = false
      ∧ ( ReadyForSparseIO w this callback).1 = net.ERR_FAILED)
    ∧ (∀ e, w.entry this = some e → e.synchronous_entry_in_use_by_worker_ = true →
        ∀ index truncate,
          (ReadData w this index offset buf buf_len callback).fault = some Fault.CHECK_failed
          ∧ (WriteData w this index offset buf buf_len callback truncate).fault
              = some Fault.CHECK_failed) := by
  refine ⟨⟨rfl, rfl, rfl, rfl, rfl⟩, ⟨rfl, rfl, rfl, rfl, rfl⟩, ⟨rfl, rfl, rfl, rfl, rfl⟩,
    ⟨rfl, rfl, rfl, rfl, rfl⟩, ⟨rfl, rfl, rfl, rfl, rfl⟩, ⟨rfl, rfl, rfl, rfl, rfl⟩, ?_⟩
  intro e he hbusy index truncate
  simp [ReadData, WriteData, he, hbusy, Outcome.fault]

/-! ## The cache with its executor -/

theorem SimpleIndex.Has_UseIfExists (idx : SimpleIndex) (key : String) :
    (idx.UseIfExists key).2.Has key = idx.Has key := by
  unfold SimpleIndex.UseIfExists
  cases h : idx.entries.find? (fun e => e.1 == key) with
  | none => rfl
  | some e =>
    have hm := List.mem_of_find?_eq_some h
    have hp := List.find?_some h
    have hhas : idx.Has key = true := by
      simp only [SimpleIndex.Has, List.any_eq_true]
      exact ⟨e, hm, hp⟩
    rw [hhas]
    simp only [SimpleIndex.Has, List.any_cons, hp, Bool.true_or]

theorem SimpleIndex.Has_UpdateEntrySize (idx : SimpleIndex) (key k : String) (size : Int) :
    (idx.UpdateEntrySize key size).Has k = idx.Has k := by
  simp only [SimpleIndex.UpdateEntrySize, SimpleIndex.Has, List.any_map]
  congr 1
  funext e
  simp only [Function.comp]
  split <;> rfl

theorem World.jobs_PostTask (w : World) (job : Job) :
    (PostTask w job).jobs = w.jobs ++ [job] := by
  simp [PostTask, World.log, World.jobs, List.filterMap_append]

theorem World.runs_PostTask (w : World) (job : Job) : (PostTask w job).runs = w.runs := by
  simp [PostTask, World.log, World.runs, List.filterMap_append]

theorem System.run_append (k : Nat) (os_posix : Bool) (a b : List Request) :
    ∀ s : System, System.run k os_posix s (a ++ b)
      = (System.run k os_posix s a).bind (fun s1 => System.run k os_posix s1 b) := by
  induction a with
  | nil => intro s; rfl
  | cons c cs ih =>
    intro s
    cases h : System.step k os_posix s c with
    | none => simp [System.run, h]
    | some s1 => simp [System.run, h, ih s1]

theorem SimpleEntryImpl.CreationOperationComplete_available (k : Nat) (w : World)
    (idx : SimpleIndex) (callback : Nat) (key : String) (out_entry p : Nat)
    (hidx : w.index = some idx) :
    ∃ w1 : World,
      CreationOperationComplete k w (some callback) key out_entry (some p)
        = Outcome.returned () w1
      ∧ w1.index = some (idx.Insert (w.sync_entries p).key)
      ∧ w1.sync_entries = w.sync_entries
      ∧ w1.entries = w.entries ++ [some (ctor k w p)]
      ∧ w1.out_entries = Function.update w.out_entries out_entry (some w.entries.length)
      ∧ w1.jobs = w.jobs
      ∧ w1.runs = w.runs ++ [(some callback, net.OK)] := by
  refine ⟨_, rfl, ?_, ?_, ?_, ?_, ?_, ?_⟩ <;>
    simp [if_index_Insert, hidx, World.log, ctor, World.jobs, World.runs,
      List.filterMap_append]

theorem GetDataSize_ctor (k : Nat) (w : World) (p : Nat) (hk : 1 ≤ k) :
    GetDataSize (ctor k w p) 0 = some ((w.sync_entries p).data_size 0) := by
  obtain ⟨n, rfl⟩ : ∃ n, k = n + 1 := ⟨k - 1, by omega⟩
  simp [GetDataSize, ctor, SetSynchronousData, List.range_succ_eq_map]

theorem GetDataSize_SetSynchronousData (k : Nat) (se : SimpleSynchronousEntry)
    (e : SimpleEntryImpl) (hk : 1 ≤ k) :
    GetDataSize (SetSynchronousData k se e) 0 = some (se.data_size 0) := by
  obtain ⟨n, rfl⟩ : ∃ n, k = n + 1 := ⟨k - 1, by omega⟩
  simp [GetDataSize, SetSynchronousData, List.range_succ_eq_map]

theorem World.entry_append (w : World) (entries : List (Option SimpleEntryImpl))
    (e : SimpleEntryImpl) (h : w.entries = entries ++ [some e]) :
    w.entry entries.length = some e := by
  simp [World.entry, h]

theorem System.holds_of_create (k : Nat) (os_posix : Bool) (s : System) (idx : SimpleIndex)
    (path key : String) (entry : Nat) (callback : Nat) (now : Time)
    (hk : 1 ≤ k) (hqueue : s.queue = []) (hindex : s.w.index = some idx)
    (habsent : s.x.lookup path key = none) :
    ∃ s1, System.run k os_posix s
          [Request.CreateEntry path key entry (some callback), Request.perform 0 now] = some s1
      ∧ s1.holds path key entry []
      ∧ s1.x.buffers = s.x.buffers
      ∧ s1.w.runs = s.w.runs ++ [(some callback, net.OK)] := by
  obtain ⟨n, hn⟩ : ∃ n, k = n + 1 := ⟨k - 1, by omega⟩
  have hj : (PostTask s.w (Job.CreateEntry path key ⟨some callback, key, entry⟩)).jobs.drop
      s.w.jobs.length = [Job.CreateEntry path key ⟨some callback, key, entry⟩] := by
    rw [World.jobs_PostTask]
    simp
  generalize hW2 : (PostTask s.w (Job.CreateEntry path key ⟨some callback, key, entry⟩)).report
      s.x.next_handle (BlockingExecutor.content path key ⟨List.replicate k [], now, now⟩) = W2
  have hW2_index : W2.index = some idx := by rw [← hW2]; exact hindex
  have hW2_jobs : W2.jobs
      = (PostTask s.w (Job.CreateEntry path key ⟨some callback, key, entry⟩)).jobs := by
    rw [← hW2]; rfl
  have hW2_runs : W2.runs = s.w.runs := by
    rw [← hW2]
    exact World.runs_PostTask s.w _
  have hW2_entries : W2.entries = s.w.entries := by rw [← hW2]; rfl
  have hW2_sync : W2.sync_entries s.x.next_handle
      = BlockingExecutor.content path key ⟨List.replicate k [], now, now⟩ := by
    rw [← hW2]
    simp [World.report]
  obtain ⟨W3, hW3, hW3_index, hW3_sync, hW3_entries, hW3_out, hW3_jobs, hW3_runs⟩ :=
    CreationOperationComplete_available k W2 idx callback key entry s.x.next_handle hW2_index
  have hrun : System.run k os_posix s
      [Request.CreateEntry path key entry (some callback), Request.perform 0 now]
      = some ⟨W3,
          { s.x with
            directory := ((path, key), s.x.records.length) :: s.x.directory,
            records := s.x.records ++ [⟨List.replicate k [], now, now⟩],
            handles := Function.update s.x.handles s.x.next_handle (some s.x.records.length),
            next_handle := s.x.next_handle + 1 }, []⟩ := by
    simp only [System.run, System.step, System.moved, SimpleEntryImpl.CreateEntry, hqueue,
      List.nil_append, hj, List.get?_cons_zero, BlockingExecutor.perform, habsent, deliver,
      hW2, hW3, System.after_reply, hW3_jobs, hW2_jobs, List.eraseIdx_cons_zero,
      List.drop_length]
  refine ⟨_, hrun, ?_, rfl, ?_⟩
  · refine ⟨rfl, ⟨_, hW3_index, ?_⟩, s.w.entries.length, ctor k W2 s.x.next_handle,
      s.x.records.length, ⟨List.replicate k [], now, now⟩, ?_, ?_, ?_, ?_, ?_, ?_, ?_, ?_, ?_,
      ?_⟩
    · rw [hW2_sync]
      exact SimpleIndex.Has_Insert _ _
    · rw [hW3_out, hW2_entries]
      simp
    · exact World.entry_append W3 s.w.entries _ (by rw [hW3_entries, hW2_entries])
    · simp [ctor, SetSynchronousData, hW2_sync, BlockingExecutor.content]
    · simp [ctor, SetSynchronousData]
    · rw [GetDataSize_ctor k _ _ hk, hW2_sync]
      simp [BlockingExecutor.content, hn]
    · rw [hW3_sync]
      simp [ctor, SetSynchronousData, hW2_sync, BlockingExecutor.content]
    · simp [ctor, SetSynchronousData]
    · simp [BlockingExecutor.lookup]
    · simp
    · simp [hn]
  · rw [hW3_runs, hW2_runs]

theorem SimpleEntryImpl.EntryOperationComplete_available (k : Nat) (w : World)
    (idx : SimpleIndex) (callback : Nat) (entry sync_entry : Nat) (result : Int)
    (e : SimpleEntryImpl) (hidx : w.index = some idx) (hentry : w.entry entry = some e) :
    ∃ w1 : World,
      EntryOperationComplete k w (some callback) entry sync_entry result
        = Outcome.returned () w1
      ∧ w1.index = some (idx.UpdateEntrySize (w.sync_entries sync_entry).key
          (w.sync_entries sync_entry).GetFileSize)
      ∧ w1.sync_entries = w.sync_entries
      ∧ w1.entries = w.entries.set entry
          (some (SetSynchronousData k (w.sync_entries e.synchronous_entry_)
            { e with synchronous_entry_in_use_by_worker_ := false }))
      ∧ w1.out_entries = w.out_entries
      ∧ w1.jobs = w.jobs
      ∧ w1.runs = w.runs ++ [(some callback, result)] := by
  rw [EntryOperationComplete_live k w (some callback) entry sync_entry result e hentry]
  refine ⟨_, rfl, ?_, ?_, ?_, ?_, ?_, ?_⟩ <;>
    simp [if_index_UpdateEntrySize, hidx, World.log, World.set_entry, World.jobs, World.runs,
      List.filterMap_append]

theorem World.entry_of_set (w : World) (entries : List (Option SimpleEntryImpl)) (p : Nat)
    (e0 e : SimpleEntryImpl) (h0 : (entries.get? p).join = some e0)
    (h : w.entries = entries.set p (some e)) : w.entry p = some e := by
  have hlt : p < entries.length := by
    by_contra hge
    have hnone : entries.get? p = none := by
      simp only [List.get?_eq_getElem?]
      exact List.getElem?_eq_none (by omega)
    rw [hnone] at h0
    simp at h0
  simp [World.entry, h, List.getElem?_set, hlt]

theorem System.create_null (k : Nat) (os_posix : Bool) (s : System)
    (path key : String) (entry : Nat) (now : Time) (rest : List Request)
    (hqueue : s.queue = []) (habsent : s.x.lookup path key = none) :
    System.run k os_posix s
      (Request.CreateEntry path key entry none :: Request.perform 0 now :: rest) = none := by
  have hj : (PostTask s.w (Job.CreateEntry path key ⟨none, key, entry⟩)).jobs.drop
      s.w.jobs.length = [Job.CreateEntry path key ⟨none, key, entry⟩] := by
    rw [World.jobs_PostTask]
    simp
  simp [System.run, System.step, System.moved, SimpleEntryImpl.CreateEntry, hqueue,
    hj, BlockingExecutor.perform, habsent, deliver, CreationOperationComplete, Run,
    System.after_reply]

theorem System.holds_of_write (k : Nat) (os_posix : Bool) (s : System)
    (path key : String) (entry : Nat) (bytes d : List Char) (buf : Nat)
    (callback : Nat) (now : Time) (hk : 1 ≤ k)
    (hs : s.holds path key entry bytes) (hbuf : s.x.buffers buf = d) :
    ∃ s1, System.run k os_posix s
          [Request.WriteData entry 0 0 buf (d.length : Int) (some callback) true,
            Request.perform 0 now] = some s1
      ∧ s1.holds path key entry d
      ∧ s1.x.buffers = s.x.buffers
      ∧ s1.w.runs = s.w.runs ++ [(some callback, net.OK)] := by
  obtain ⟨hqueue, ⟨idx, hindex, hhas⟩, this, e, r, record, hslot, hentry, hkey, hidle, _, hsekey,
    hhandle, hlookup, hrecord, hstream⟩ := hs
  have hW := WriteData_idle s.w idx this e 0 0 buf (d.length : Int) (some callback) true hentry hidle
    hindex
  have hstream_of : s.x.stream_of e.synchronous_entry_ 0 = some (r, record, bytes) := by
    unfold BlockingExecutor.stream_of
    rw [if_pos (le_refl 0), hhandle]
    simp only [Option.some_bind, hrecord, Int.toNat_zero, hstream, Option.map_some']
  have hcond : (0 : Int) ≤ 0 ∧ (0 : Int) ≤ (d.length : Int)
      ∧ (d.length : Int).toNat ≤ (s.x.buffers buf).length := by
    simp [hbuf]
  have hwritten : BlockingExecutor.written bytes
      (List.take (d.length : Int).toNat (s.x.buffers buf)) (0 : Int).toNat true = d := by
    simp [BlockingExecutor.written, hbuf]
  have hperform : ∀ W : World,
      BlockingExecutor.perform k now W s.x
          (Job.WriteData e.synchronous_entry_ 0 0 buf (d.length : Int)
            ⟨some callback, this, e.synchronous_entry_⟩ true)
        = (W.report e.synchronous_entry_
            (BlockingExecutor.content (W.sync_entries e.synchronous_entry_).path
              (W.sync_entries e.synchronous_entry_).key (record.write 0 d now)),
          { s.x with records := s.x.records.set r (record.write 0 d now) },
          Reply.operation ⟨some callback, this, e.synchronous_entry_⟩ net.OK) := by
    intro W
    simp only [BlockingExecutor.perform, hstream_of]
    rw [if_pos hcond, hwritten]
    rfl
  generalize hW1 :
    ({ index := some (idx.UseIfExists e.key_).2,
       sync_entries := s.w.sync_entries,
       entries := s.w.entries.set this
         (some { e with synchronous_entry_in_use_by_worker_ := true }),
       out_entries := s.w.out_entries,
       trace := s.w.trace ++ [Event.UseIfExists e.key_,
         Event.PostTask (Job.WriteData e.synchronous_entry_ 0 0 buf (d.length : Int)
           ⟨some callback, this, e.synchronous_entry_⟩ true)] } : World) = W1 at hW
  have hW1_index : W1.index = some (idx.UseIfExists e.key_).2 := by rw [← hW1]
  have hW1_sync : W1.sync_entries = s.w.sync_entries := by rw [← hW1]
  have hW1_out : W1.out_entries = s.w.out_entries := by rw [← hW1]
  have hW1_entry : W1.entry this = some { e with synchronous_entry_in_use_by_worker_ := true } :=
    World.entry_of_set W1 s.w.entries this e _ hentry (by rw [← hW1])
  have hW1_jobs : W1.jobs = s.w.jobs ++ [Job.WriteData e.synchronous_entry_ 0 0 buf
      (d.length : Int) ⟨some callback, this, e.synchronous_entry_⟩ true] := by
    rw [← hW1]
    simp [World.jobs, List.filterMap_append]
  have hW1_runs : W1.runs = s.w.runs := by
    rw [← hW1]
    simp [World.runs, List.filterMap_append]
  have hstep1 : System.step k os_posix s
      (Request.WriteData entry 0 0 buf (d.length : Int) (some callback) true)
      = some ⟨W1, s.x, [Job.WriteData e.synchronous_entry_ 0 0 buf (d.length : Int)
          ⟨some callback, this, e.synchronous_entry_⟩ true]⟩ := by
    simp only [System.step, hslot, hW, System.after_call, System.moved, hqueue, hW1_jobs,
      List.nil_append, List.drop_left]
  generalize hW2 : W1.report e.synchronous_entry_
      (BlockingExecutor.content (W1.sync_entries e.synchronous_entry_).path
        (W1.sync_entries e.synchronous_entry_).key (record.write 0 d now)) = W2
  have hW2_index : W2.index = some (idx.UseIfExists e.key_).2 := by rw [← hW2]; exact hW1_index
  have hW2_entry : W2.entry this
      = some { e with synchronous_entry_in_use_by_worker_ := true } := by
    rw [← hW2]; exact hW1_entry
  have hW2_jobs : W2.jobs = W1.jobs := by rw [← hW2]; rfl
  have hW2_runs : W2.runs = W1.runs := by rw [← hW2]; rfl
  have hW2_out : W2.out_entries = s.w.out_entries := by rw [← hW2]; exact hW1_out
  have hW2_sync : W2.sync_entries e.synchronous_entry_
      = BlockingExecutor.content (s.w.sync_entries e.synchronous_entry_).path key
          (record.write 0 d now) := by
    rw [← hW2]
    simp [World.report, hW1_sync, hsekey]
  obtain ⟨W3, hW3, hW3_index, hW3_sync, hW3_entries, hW3_out, hW3_jobs, hW3_runs⟩ :=
    EntryOperationComplete_available k W2 (idx.UseIfExists e.key_).2 callback this
      e.synchronous_entry_ net.OK { e with synchronous_entry_in_use_by_worker_ := true }
      hW2_index hW2_entry
  have hstep2 : System.step k os_posix
      ⟨W1, s.x, [Job.WriteData e.synchronous_entry_ 0 0 buf (d.length : Int)
          ⟨some callback, this, e.synchronous_entry_⟩ true]⟩ (Request.perform 0 now)
      = some ⟨W3, { s.x with records := s.x.records.set r (record.write 0 d now) }, []⟩ := by
    simp only [System.step, List.get?_cons_zero, hperform, deliver, hW2, hW3,
      System.after_reply, hW3_jobs, hW2_jobs, List.eraseIdx_cons_zero, List.nil_append,
      List.drop_length]
  have hrlt : r < s.x.records.length := by
    by_contra hge
    have hnone : s.x.records.get? r = none := by
      simp only [List.get?_eq_getElem?]
      exact List.getElem?_eq_none (by omega)
    rw [hnone] at hrecord
    cases hrecord
  have hslt : 0 < record.streams.length := by
    by_contra hge
    have hnone : record.streams.get? 0 = none := by
      simp only [List.get?_eq_getElem?]
      exact List.getElem?_eq_none (by omega)
    rw [hnone] at hstream
    cases hstream
  refine ⟨⟨W3, { s.x with records := s.x.records.set r (record.write 0 d now) }, []⟩,
    by simp only [System.run, hstep1, hstep2], ?_, rfl, ?_⟩
  · refine ⟨rfl, ⟨_, hW3_index, ?_⟩, this,
      SetSynchronousData k (W2.sync_entries e.synchronous_entry_)
        { e with synchronous_entry_in_use_by_worker_ := false },
      r, record.write 0 d now, ?_, ?_, ?_, ?_, ?_, ?_, ?_, ?_, ?_, ?_⟩
    · rw [SimpleIndex.Has_UpdateEntrySize, hkey, SimpleIndex.Has_UseIfExists]
      exact hhas
    · rw [hW3_out, hW2_out]
      exact hslot
    · exact World.entry_of_set W3 W2.entries this _ _ hW2_entry hW3_entries
    · simpa [SetSynchronousData] using hkey
    · simp [SetSynchronousData]
    · rw [GetDataSize_SetSynchronousData k _ _ hk, hW2_sync]
      simp [BlockingExecutor.content, Record.write, hslt]
    · rw [hW3_sync]
      simp only [SetSynchronousData, hW2_sync, BlockingExecutor.content]
    · simpa [SetSynchronousData] using hhandle
    · exact hlookup
    · simp [List.getElem?_set, hrlt]
    · simp [Record.write, List.getElem?_set, hslt]
  · rw [hW3_runs, hW2_runs, hW1_runs]

theorem System.stored_of_close (k : Nat) (os_posix : Bool) (s : System)
    (path key : String) (entry : Nat) (bytes : List Char) (now : Time)
    (hs : s.holds path key entry bytes) :
    ∃ s1, System.run k os_posix s [Request.Close entry, Request.perform 0 now] = some s1
      ∧ s1.stored path key bytes
      ∧ s1.x.buffers = s.x.buffers
      ∧ s1.w.runs = s.w.runs := by
  obtain ⟨hqueue, ⟨idx, hindex, hhas⟩, this, e, r, record, hslot, hentry, _, hidle, _, _,
    _, hlookup, hrecord, hstream⟩ := hs
  have hC := Close_idle s.w this e hentry hidle
  generalize hW1 : (PostTask s.w (Job.Close e.synchronous_entry_)).delete this = W1 at hC
  have hW1_index : W1.index = some idx := by rw [← hW1]; exact hindex
  have hW1_jobs : W1.jobs = s.w.jobs ++ [Job.Close e.synchronous_entry_] := by
    rw [← hW1]
    exact World.jobs_PostTask s.w _
  have hW1_runs : W1.runs = s.w.runs := by
    rw [← hW1]
    exact World.runs_PostTask s.w _
  have hstep1 : System.step k os_posix s (Request.Close entry)
      = some ⟨W1, s.x, [Job.Close e.synchronous_entry_]⟩ := by
    simp only [System.step, hslot, hC, System.after_call, System.moved, hqueue, hW1_jobs,
      List.nil_append, List.drop_left]
  have hstep2 : System.step k os_posix ⟨W1, s.x, [Job.Close e.synchronous_entry_]⟩
      (Request.perform 0 now)
      = some ⟨W1, { s.x with handles := Function.update s.x.handles e.synchronous_entry_ none },
          []⟩ := by
    simp only [System.step, List.get?_cons_zero, BlockingExecutor.perform, deliver,
      System.after_reply, List.eraseIdx_cons_zero, List.nil_append, List.drop_length]
  refine ⟨⟨W1, { s.x with handles := Function.update s.x.handles e.synchronous_entry_ none },
      []⟩, by simp only [System.run, hstep1, hstep2], ?_, rfl, hW1_runs⟩
  exact ⟨rfl, ⟨idx, hW1_index, hhas⟩, r, record, hlookup, hrecord, hstream⟩

theorem SimpleEntryImpl.OpenEntry_tracked (w : World) (idx : SimpleIndex) (path key : String)
    (entry : Nat) (callback : CompletionCallback) (hidx : w.index = some idx)
    (hhas : idx.Has key = true) :
    OpenEntry w path key entry callback
      = (net.ERR_IO_PENDING,
          { index := some (idx.UseIfExists key).2,
            sync_entries := w.sync_entries,
            entries := w.entries,
            out_entries := w.out_entries,
            trace := w.trace ++ [Event.UseIfExists key,
              Event.PostTask (Job.OpenEntry path key ⟨callback, key, entry⟩)] }) := by
  simp [OpenEntry, hidx, call_UseIfExists, SimpleIndex.UseIfExists_fst, hhas, PostTask,
    World.log]

theorem System.holds_of_open (k : Nat) (os_posix : Bool) (s : System)
    (path key : String) (entry : Nat) (bytes : List Char) (callback : Nat)
    (now : Time) (hk : 1 ≤ k) (hs : s.stored path key bytes) :
    ∃ s1, System.run k os_posix s
          [Request.OpenEntry path key entry (some callback), Request.perform 0 now] = some s1
      ∧ s1.holds path key entry bytes
      ∧ s1.x.buffers = s.x.buffers
      ∧ s1.w.runs = s.w.runs ++ [(some callback, net.OK)] := by
  obtain ⟨hqueue, ⟨idx, hindex, hhas⟩, r, record, hlookup, hrecord, hstream⟩ := hs
  have hO := OpenEntry_tracked s.w idx path key entry (some callback) hindex hhas
  generalize hW1 :
    ({ index := some (idx.UseIfExists key).2,
       sync_entries := s.w.sync_entries,
       entries := s.w.entries,
       out_entries := s.w.out_entries,
       trace := s.w.trace ++ [Event.UseIfExists key,
         Event.PostTask (Job.OpenEntry path key ⟨some callback, key, entry⟩)] } : World) = W1 at hO
  have hW1_jobs : W1.jobs = s.w.jobs ++ [Job.OpenEntry path key ⟨some callback, key, entry⟩] := by
    rw [← hW1]
    simp [World.jobs, List.filterMap_append]
  have hW1_runs : W1.runs = s.w.runs := by
    rw [← hW1]
    simp [World.runs, List.filterMap_append]
  have hW1_index : W1.index = some (idx.UseIfExists key).2 := by rw [← hW1]
  have hW1_entries : W1.entries = s.w.entries := by rw [← hW1]
  have hstep1 : System.step k os_posix s (Request.OpenEntry path key entry (some callback))
      = some ⟨W1, s.x, [Job.OpenEntry path key ⟨some callback, key, entry⟩]⟩ := by
    simp only [System.step, hO, System.moved, hqueue, hW1_jobs, List.nil_append,
      List.drop_left]
  have hperform : BlockingExecutor.perform k now W1 s.x
        (Job.OpenEntry path key ⟨some callback, key, entry⟩)
      = (W1.report s.x.next_handle (BlockingExecutor.content path key record),
          { s.x with
            handles := Function.update s.x.handles s.x.next_handle (some r),
            next_handle := s.x.next_handle + 1 },
          Reply.creation ⟨some callback, key, entry⟩ (some s.x.next_handle)) := by
    simp only [BlockingExecutor.perform, hlookup, Option.some_bind, hrecord, Option.map_some']
  generalize hW2 : W1.report s.x.next_handle (BlockingExecutor.content path key record) = W2
    at hperform
  have hW2_index : W2.index = some (idx.UseIfExists key).2 := by rw [← hW2]; exact hW1_index
  have hW2_jobs : W2.jobs = W1.jobs := by rw [← hW2]; rfl
  have hW2_runs : W2.runs = W1.runs := by rw [← hW2]; rfl
  have hW2_entries : W2.entries = s.w.entries := by rw [← hW2]; exact hW1_entries
  have hW2_sync : W2.sync_entries s.x.next_handle
      = BlockingExecutor.content path key record := by
    rw [← hW2]
    simp [World.report]
  obtain ⟨W3, hW3, hW3_index, hW3_sync, hW3_entries, hW3_out, hW3_jobs, hW3_runs⟩ :=
    CreationOperationComplete_available k W2 (idx.UseIfExists key).2 callback key
      entry s.x.next_handle hW2_index
  have hstep2 : System.step k os_posix
      ⟨W1, s.x, [Job.OpenEntry path key ⟨some callback, key, entry⟩]⟩ (Request.perform 0 now)
      = some ⟨W3, { s.x with
            handles := Function.update s.x.handles s.x.next_handle (some r),
            next_handle := s.x.next_handle + 1 }, []⟩ := by
    simp only [System.step, List.get?_cons_zero, hperform, deliver, hW3, System.after_reply,
      hW3_jobs, hW2_jobs, List.eraseIdx_cons_zero, List.nil_append, List.drop_length]
  have hslt : 0 < record.streams.length := by
    by_contra hge
    have hnone : record.streams.get? 0 = none := by
      simp only [List.get?_eq_getElem?]
      exact List.getElem?_eq_none (by omega)
    rw [hnone] at hstream
    cases hstream
  refine ⟨⟨W3, { s.x with
        handles := Function.update s.x.handles s.x.next_handle (some r),
        next_handle := s.x.next_handle + 1 }, []⟩,
    by simp only [System.run, hstep1, hstep2], ?_, rfl, ?_⟩
  · refine ⟨rfl, ⟨_, hW3_index, ?_⟩, s.w.entries.length, ctor k W2 s.x.next_handle, r, record,
      ?_, ?_, ?_, ?_, ?_, ?_, ?_, ?_, ?_, ?_⟩
    · rw [hW2_sync]
      exact SimpleIndex.Has_Insert _ _
    · rw [hW3_out, hW2_entries]
      simp
    · exact World.entry_append W3 s.w.entries _ (by rw [hW3_entries, hW2_entries])
    · simp [ctor, SetSynchronousData, hW2_sync, BlockingExecutor.content]
    · simp [ctor, SetSynchronousData]
    · rw [GetDataSize_ctor k _ _ hk, hW2_sync]
      simp only [BlockingExecutor.content, hstream, Option.map_some', Option.getD_some]
    · rw [hW3_sync]
      simp [ctor, SetSynchronousData, hW2_sync, BlockingExecutor.content]
    · simp [ctor, SetSynchronousData]
    · exact hlookup
    · exact hrecord
    · exact hstream
  · rw [hW3_runs, hW2_runs, hW1_runs]

theorem System.read_back (k : Nat) (os_posix : Bool) (s : System)
    (path key : String) (entry : Nat) (bytes : List Char) (buf : Nat)
    (callback : Nat) (now : Time) (hs : s.holds path key entry bytes) :
    ∃ s1, System.run k os_posix s
          [Request.ReadData entry 0 0 buf (bytes.length : Int) (some callback),
            Request.perform 0 now] = some s1
      ∧ (s1.x.buffers buf).take bytes.length = bytes
      ∧ s1.w.runs = s.w.runs ++ [(some callback, net.OK)] := by
  obtain ⟨hqueue, ⟨idx, hindex, hhas⟩, this, e, r, record, hslot, hentry, hkey, hidle, _, hsekey,
    hhandle, hlookup, hrecord, hstream⟩ := hs
  have hR := ReadData_idle s.w idx this e 0 0 buf (bytes.length : Int) (some callback) hentry hidle
    hindex
  have hstream_of : s.x.stream_of e.synchronous_entry_ 0 = some (r, record, bytes) := by
    unfold BlockingExecutor.stream_of
    rw [if_pos (le_refl 0), hhandle]
    simp only [Option.some_bind, hrecord, Int.toNat_zero, hstream, Option.map_some']
  have hcond : (0 : Int) ≤ 0 ∧ (0 : Int) ≤ (bytes.length : Int) := by
    simp
  have hdata : List.take (bytes.length : Int).toNat (List.drop (0 : Int).toNat bytes) = bytes := by
    simp
  have hperform : ∀ W : World,
      BlockingExecutor.perform k now W s.x
          (Job.ReadData e.synchronous_entry_ 0 0 buf (bytes.length : Int)
            ⟨some callback, this, e.synchronous_entry_⟩)
        = (W.report e.synchronous_entry_
            (BlockingExecutor.content (W.sync_entries e.synchronous_entry_).path
              (W.sync_entries e.synchronous_entry_).key { record with last_used := now }),
          { s.x with
            records := s.x.records.set r { record with last_used := now },
            buffers := Function.update s.x.buffers buf
              (bytes ++ (s.x.buffers buf).drop bytes.length) },
          Reply.operation ⟨some callback, this, e.synchronous_entry_⟩ net.OK) := by
    intro W
    simp only [BlockingExecutor.perform, hstream_of]
    rw [if_pos hcond, hdata]
  generalize hW1 :
    ({ index := some (idx.UseIfExists e.key_).2,
       sync_entries := s.w.sync_entries,
       entries := s.w.entries.set this
         (some { e with synchronous_entry_in_use_by_worker_ := true }),
       out_entries := s.w.out_entries,
       trace := s.w.trace ++ [Event.UseIfExists e.key_,
         Event.PostTask (Job.ReadData e.synchronous_entry_ 0 0 buf (bytes.length : Int)
           ⟨some callback, this, e.synchronous_entry_⟩)] } : World) = W1 at hR
  have hW1_index : W1.index = some (idx.UseIfExists e.key_).2 := by rw [← hW1]
  have hW1_entry : W1.entry this = some { e with synchronous_entry_in_use_by_worker_ := true } :=
    World.entry_of_set W1 s.w.entries this e _ hentry (by rw [← hW1])
  have hW1_jobs : W1.jobs = s.w.jobs ++ [Job.ReadData e.synchronous_entry_ 0 0 buf
      (bytes.length : Int) ⟨some callback, this, e.synchronous_entry_⟩] := by
    rw [← hW1]
    simp [World.jobs, List.filterMap_append]
  have hW1_runs : W1.runs = s.w.runs := by
    rw [← hW1]
    simp [World.runs, List.filterMap_append]
  have hstep1 : System.step k os_posix s
      (Request.ReadData entry 0 0 buf (bytes.length : Int) (some callback))
      = some ⟨W1, s.x, [Job.ReadData e.synchronous_entry_ 0 0 buf (bytes.length : Int)
          ⟨some callback, this, e.synchronous_entry_⟩]⟩ := by
    simp only [System.step, hslot, hR, System.after_call, System.moved, hqueue, hW1_jobs,
      List.nil_append, List.drop_left]
  generalize hW2 : W1.report e.synchronous_entry_
      (BlockingExecutor.content (W1.sync_entries e.synchronous_entry_).path
        (W1.sync_entries e.synchronous_entry_).key { record with last_used := now }) = W2
  have hW2_index : W2.index = some (idx.UseIfExists e.key_).2 := by rw [← hW2]; exact hW1_index
  have hW2_entry : W2.entry this
      = some { e with synchronous_entry_in_use_by_worker_ := true } := by
    rw [← hW2]; exact hW1_entry
  have hW2_jobs : W2.jobs = W1.jobs := by rw [← hW2]; rfl
  have hW2_runs : W2.runs = W1.runs := by rw [← hW2]; rfl
  obtain ⟨W3, hW3, _, _, _, _, hW3_jobs, hW3_runs⟩ :=
    EntryOperationComplete_available k W2 (idx.UseIfExists e.key_).2 callback this
      e.synchronous_entry_ net.OK { e with synchronous_entry_in_use_by_worker_ := true }
      hW2_index hW2_entry
  have hstep2 : System.step k os_posix
      ⟨W1, s.x, [Job.ReadData e.synchronous_entry_ 0 0 buf (bytes.length : Int)
          ⟨some callback, this, e.synchronous_entry_⟩]⟩ (Request.perform 0 now)
      = some ⟨W3, { s.x with
            records := s.x.records.set r { record with last_used := now },
            buffers := Function.update s.x.buffers buf
              (bytes ++ (s.x.buffers buf).drop bytes.length) }, []⟩ := by
    simp only [System.step, List.get?_cons_zero, hperform, deliver, hW2, hW3,
      System.after_reply, hW3_jobs, hW2_jobs, List.eraseIdx_cons_zero, List.nil_append,
      List.drop_length]
  refine ⟨⟨W3, { s.x with
        records := s.x.records.set r { record with last_used := now },
        buffers := Function.update s.x.buffers buf
          (bytes ++ (s.x.buffers buf).drop bytes.length) }, []⟩,
    by simp only [System.run, hstep1, hstep2], ?_, ?_⟩
  · simp
  · rw [hW3_runs, hW2_runs, hW1_runs]

/-- Claim C21: on the cache with its executor modelled from the spec, for every
key and byte string `d` and for callbacks that are not null, in every state
with no job queued, the index available, no record for the key and `d` in the
write buffer: the create completes with `OK`, the write of `d` to stream 0 at
offset 0 with `truncate` completes with `OK`, and `GetDataSize(0)` of the entry
is then the length of `d`; after `Close`, the open of the key completes with
`OK` and the read of stream 0 at offset 0 for the length of `d` leaves exactly
`d` in the read buffer and completes with `OK`. With the null callback for the
create, the delivery of its reply faults and the scenario has no final
state. -/
theorem C21_write_read_round_trip (kSimpleEntryFileCount : Nat) (os_posix : Bool) (s : System)
    (idx : SimpleIndex) (path key : String) (d : List Char) (entry reopened buf buf_read : Nat)
    (created written opened read : Nat) (t1 t2 t3 t4 t5 : Time)
    (hcount : 1 ≤ kSimpleEntryFileCount) (hqueue : s.queue = [])
    (hindex : s.w.index = some idx) (habsent : s.x.lookup path key = none)
    (hbuf : s.x.buffers buf = d) :
    ∃ s1 s2,
      System.run kSimpleEntryFileCount os_posix s
          (create_and_write path key entry buf (d.length : Int) (some created) (some written)
            t1 t2) = some s1
      ∧ (∃ this e, s1.w.out_entries entry = some this ∧ s1.w.entry this = some e
          ∧ GetKey e = key ∧ GetDataSize e 0 = some (d.length : Int))
      ∧ s1.w.runs = s.w.runs ++ [(some created, net.OK), (some written, net.OK)]
      ∧ System.run kSimpleEntryFileCount os_posix s1
          (reopen_and_read path key entry reopened buf_read (d.length : Int) (some opened)
            (some read) t3 t4 t5) = some s2
      ∧ (s2.x.buffers buf_read).take d.length = d
      ∧ s2.w.runs = s1.w.runs ++ [(some opened, net.OK), (some read, net.OK)]
      ∧ System.run kSimpleEntryFileCount os_posix s
          (create_and_write path key entry buf (d.length : Int) none (some written)
            t1 t2) = none := by
  obtain ⟨sa, hrun_a, hholds_a, hbuf_a, hruns_a⟩ := System.holds_of_create kSimpleEntryFileCount
    os_posix s idx path key entry created t1 hcount hqueue hindex habsent
  obtain ⟨sb, hrun_b, hholds_b, _, hruns_b⟩ := System.holds_of_write kSimpleEntryFileCount
    os_posix sa path key entry [] d buf written t2 hcount hholds_a (by rw [hbuf_a, hbuf])
  obtain ⟨sc, hrun_c, hstored_c, _, hruns_c⟩ := System.stored_of_close kSimpleEntryFileCount
    os_posix sb path key entry d t3 hholds_b
  obtain ⟨sd, hrun_d, hholds_d, _, hruns_d⟩ := System.holds_of_open kSimpleEntryFileCount
    os_posix sc path key reopened d opened t4 hcount hstored_c
  obtain ⟨se, hrun_e, hread, hruns_e⟩ := System.read_back kSimpleEntryFileCount
    os_posix sd path key reopened d buf_read read t5 hholds_d
  have hfirst : System.run kSimpleEntryFileCount os_posix s
      (create_and_write path key entry buf (d.length : Int) (some created) (some written)
            t1 t2) = some sb := by
    have := System.run_append kSimpleEntryFileCount os_posix
      [Request.CreateEntry path key entry (some created), Request.perform 0 t1]
      [Request.WriteData entry 0 0 buf (d.length : Int) (some written) true, Request.perform 0 t2] s
    rw [hrun_a, Option.some_bind, hrun_b] at this
    exact this
  have hsecond : System.run kSimpleEntryFileCount os_posix sb
      (reopen_and_read path key entry reopened buf_read (d.length : Int) (some opened)
        (some read) t3 t4 t5)
      = some se := by
    have h1 := System.run_append kSimpleEntryFileCount os_posix
      [Request.OpenEntry path key reopened (some opened), Request.perform 0 t4]
      [Request.ReadData reopened 0 0 buf_read (d.length : Int) (some read),
        Request.perform 0 t5] sc
    rw [hrun_d, Option.some_bind, hrun_e] at h1
    have h2 := System.run_append kSimpleEntryFileCount os_posix
      [Request.Close entry, Request.perform 0 t3]
      ([Request.OpenEntry path key reopened (some opened), Request.perform 0 t4]
        ++ [Request.ReadData reopened 0 0 buf_read (d.length : Int) (some read),
          Request.perform 0 t5]) sb
    rw [hrun_c, Option.some_bind, h1] at h2
    exact h2
  obtain ⟨_, _, this, e, _, _, hslot, hentry, hkey, _, hsize, _⟩ := hholds_b
  refine ⟨sb, se, hfirst, ⟨this, e, hslot, hentry, hkey, hsize⟩, ?_, hsecond, hread, ?_,
    System.create_null kSimpleEntryFileCount os_posix s path key entry t1 _ hqueue habsent⟩
  · rw [hruns_b, hruns_a, List.append_assoc]
    rfl
  · rw [hruns_e, hruns_d, hruns_c, List.append_assoc]
    rfl

/-- Witness of C21: the key "abc" and the bytes "hello" on a new cache with
three streams per record: the size of stream 0 after the write is 5, and the
read after the reopening leaves "hello" in the read buffer. -/
theorem C21_write_read_round_trip_witness :
    hello_system.queue = []
    ∧ hello_system.x.lookup "/cache" "abc" = none
    ∧ (∃ s1 s2,
        System.run 3 true hello_system
            (create_and_write "/cache" "abc" 0 7 ("hello".toList.length : Int) (some 1) (some 2)
              10 20) = some s1
        ∧ (∃ this e, s1.w.out_entries 0 = some this ∧ s1.w.entry this = some e
            ∧ GetKey e = "abc" ∧ GetDataSize e 0 = some ("hello".toList.length : Int))
        ∧ s1.w.runs = hello_system.w.runs ++ [(some 1, net.OK), (some 2, net.OK)]
        ∧ System.run 3 true s1
            (reopen_and_read "/cache" "abc" 0 1 9 ("hello".toList.length : Int) (some 3) (some 4)
              30 40 50) = some s2
        ∧ (s2.x.buffers 9).take "hello".toList.length = "hello".toList
        ∧ s2.w.runs = s1.w.runs ++ [(some 3, net.OK), (some 4, net.OK)]
        ∧ System.run 3 true hello_system
            (create_and_write "/cache" "abc" 0 7 ("hello".toList.length : Int) none (some 2)
              10 20) = none)
    ∧ (System.run 3 true hello_system
          (create_and_write "/cache" "abc" 0 7 5 (some 1) (some 2) 10 20
            ++ reopen_and_read "/cache" "abc" 0 1 9 5 (some 3) (some 4) 30 40 50)).map
        (fun s => s.x.buffers 9) = some ['h', 'e', 'l', 'l', 'o'] :=
  ⟨rfl, rfl,
    C21_write_read_round_trip 3 true hello_system ⟨[]⟩ "/cache" "abc" "hello".toList 0 1 7 9
      1 2 3 4 10 20 30 40 50 (by decide) rfl rfl rfl rfl,
    by rfl⟩

end disk_cache

/-! # SpdyWriteQueue: lemmas and properties -/

namespace net

namespace SpdyWriteQueue

theorem pending_succ (q : SpdyWriteQueue) (n : Nat) :
    q.pending (n + 1) = q.queue_ n ++ q.pending n := by
  simp [pending, List.range_succ]

theorem pending_eq_nil_iff (q : SpdyWriteQueue) (n : Nat) :
    q.pending n = [] ↔ ∀ i, i < n → q.queue_ i = [] := by
  induction n with
  | zero => simp [pending]
  | succ n ih =>
    rw [pending_succ, List.append_eq_nil, ih]
    constructor
    · rintro ⟨h1, h2⟩ i hi
      rcases Nat.lt_succ_iff_lt_or_eq.mp hi with h | h
      · exact h2 i h
      · rw [h]; exact h1
    · intro h
      exact ⟨h n (Nat.lt_succ_self n), fun i hi => h i (Nat.lt_succ_of_lt hi)⟩

theorem pending_update_of_le (q : SpdyWriteQueue) (n i : Nat) (l : List PendingWrite)
    (d : List Nat) (h : n ≤ i) :
    ({ queue_ := Function.update q.queue_ i l, deleted := d } : SpdyWriteQueue).pending n
      = q.pending n := by
  induction n with
  | zero => simp [pending]
  | succ n ih =>
    rw [pending_succ, pending_succ, ih (Nat.le_of_succ_le h)]
    have hne : n ≠ i := by omega
    simp [Function.update_noteq hne]

theorem Dequeue_loop_eq_none (q : SpdyWriteQueue) (n : Nat) :
    Dequeue_loop q n = none ↔ ∀ i, i < n → q.queue_ i = [] := by
  induction n with
  | zero => simp [Dequeue_loop]
  | succ n ih =>
    cases h : q.queue_ n with
    | nil =>
      simp only [Dequeue_loop, h, ih]
      constructor
      · intro hall i hi
        rcases Nat.lt_succ_iff_lt_or_eq.mp hi with h1 | h1
        · exact hall i h1
        · rw [h1]; exact h
      · intro hall i hi
        exact hall i (Nat.lt_succ_of_lt hi)
    | cons pw rest =>
      simp only [Dequeue_loop, h]
      constructor
      · intro hc
        cases hc
      · intro hall
        have := hall n (Nat.lt_succ_self n)
        rw [h] at this
        cases this

theorem Dequeue_loop_eq_some (q q1 : SpdyWriteQueue) (pw : PendingWrite) (n : Nat)
    (h : Dequeue_loop q n = some (pw, q1)) :
    ∃ i rest, i < n ∧ q.queue_ i = pw :: rest
      ∧ (∀ j, i < j → j < n → q.queue_ j = [])
      ∧ q1 = { q with queue_ := Function.update q.queue_ i rest } := by
  induction n with
  | zero => simp [Dequeue_loop] at h
  | succ n ih =>
    cases hq : q.queue_ n with
    | nil =>
      simp only [Dequeue_loop, hq] at h
      obtain ⟨i, rest, hi, hfront, hempty, hq1⟩ := ih h
      refine ⟨i, rest, Nat.lt_succ_of_lt hi, hfront, ?_, hq1⟩
      intro j hij hj
      rcases Nat.lt_succ_iff_lt_or_eq.mp hj with h1 | h1
      · exact hempty j hij h1
      · rw [h1]; exact hq
    | cons pw0 rest =>
      simp only [Dequeue_loop, hq, Option.some.injEq, Prod.mk.injEq] at h
      obtain ⟨h1, h2⟩ := h
      subst h1
      refine ⟨n, rest, Nat.lt_succ_self n, hq, ?_, h2.symm⟩
      intro j hij hj
      omega

theorem Dequeue_loop_pending (q q1 : SpdyWriteQueue) (pw : PendingWrite) (n : Nat)
    (h : Dequeue_loop q n = some (pw, q1)) :
    q.pending n = pw :: q1.pending n ∧ q1.deleted = q.deleted := by
  induction n with
  | zero => simp [Dequeue_loop] at h
  | succ n ih =>
    cases hq : q.queue_ n with
    | nil =>
      simp only [Dequeue_loop, hq] at h
      obtain ⟨hp, hd⟩ := ih h
      obtain ⟨i, rest, hi, _, _, hq1⟩ := Dequeue_loop_eq_some q q1 pw n h
      refine ⟨?_, hd⟩
      have hne : n ≠ i := by omega
      rw [pending_succ, pending_succ, hq, hp, hq1]
      simp [Function.update_noteq hne, hq]
    | cons pw0 rest =>
      simp only [Dequeue_loop, hq, Option.some.injEq, Prod.mk.injEq] at h
      obtain ⟨h1, h2⟩ := h
      subst h1
      subst h2
      refine ⟨?_, rfl⟩
      rw [pending_succ, pending_succ, hq, pending_update_of_le q n n rest q.deleted (le_refl n)]
      simp

theorem Dequeue_of_pending_nil (NUM_PRIORITIES : Nat) (q : SpdyWriteQueue)
    (frame_producer : Option Nat) (stream : Option SpdyStream)
    (h : q.pending NUM_PRIORITIES = []) :
    Dequeue NUM_PRIORITIES q frame_producer stream = (false, frame_producer, stream, q) := by
  have hnone := (Dequeue_loop_eq_none q NUM_PRIORITIES).mpr
    ((pending_eq_nil_iff q NUM_PRIORITIES).mp h)
  simp [Dequeue, hnone]

theorem Dequeue_of_pending_cons (NUM_PRIORITIES : Nat) (q : SpdyWriteQueue)
    (frame_producer : Option Nat) (stream : Option SpdyStream) (pw : PendingWrite)
    (rest : List PendingWrite) (h : q.pending NUM_PRIORITIES = pw :: rest) :
    ∃ q1, Dequeue NUM_PRIORITIES q frame_producer stream
        = (true, some pw.frame_producer, pw.stream, q1)
      ∧ q1.pending NUM_PRIORITIES = rest ∧ q1.deleted = q.deleted := by
  cases hl : Dequeue_loop q NUM_PRIORITIES with
  | none =>
    have := (pending_eq_nil_iff q NUM_PRIORITIES).mpr
      ((Dequeue_loop_eq_none q NUM_PRIORITIES).mp hl)
    rw [this] at h
    cases h
  | some r =>
    obtain ⟨pw1, q1⟩ := r
    obtain ⟨hp, hd⟩ := Dequeue_loop_pending q q1 pw1 NUM_PRIORITIES hl
    rw [h] at hp
    simp only [List.cons.injEq] at hp
    obtain ⟨h1, h2⟩ := hp
    subst h1
    exact ⟨q1, by simp [Dequeue, hl], h2.symm, hd⟩

theorem drain_of_pending (NUM_PRIORITIES : Nat) :
    ∀ (fuel : Nat) (q : SpdyWriteQueue), (q.pending NUM_PRIORITIES).length ≤ fuel →
      (drain NUM_PRIORITIES fuel q).1 = (q.pending NUM_PRIORITIES).map PendingWrite.delivered
      ∧ (drain NUM_PRIORITIES fuel q).2.pending NUM_PRIORITIES = []
      ∧ (drain NUM_PRIORITIES fuel q).2.deleted = q.deleted := by
  intro fuel
  induction fuel with
  | zero =>
    intro q h
    have hnil : q.pending NUM_PRIORITIES = [] := List.length_eq_zero.mp (by omega)
    simp [drain, hnil]
  | succ fuel ih =>
    intro q h
    cases hp : q.pending NUM_PRIORITIES with
    | nil =>
      simp [drain, Dequeue_of_pending_nil NUM_PRIORITIES q none none hp, hp]
    | cons pw rest =>
      obtain ⟨q1, hd, hrest, hdel⟩ := Dequeue_of_pending_cons NUM_PRIORITIES q none none pw rest hp
      have hlen : (q1.pending NUM_PRIORITIES).length ≤ fuel := by
        rw [hp] at h
        rw [hrest]
        simp only [List.length_cons] at h
        omega
      obtain ⟨h1, h2, h3⟩ := ih q1 hlen
      simp only [drain, hd, if_true, List.map_cons]
      refine ⟨?_, h2, h3.trans hdel⟩
      rw [h1, hrest]
      rfl

theorem queue_Enqueue_all (writes : List Write) :
    ∀ (q : SpdyWriteQueue) (i : Nat),
      (Enqueue_all q writes).queue_ i
        = q.queue_ i ++ (writes.filter (fun w => w.priority = i)).map Write.pending_write := by
  induction writes with
  | nil => intro q i; simp [Enqueue_all]
  | cons w ws ih =>
    intro q i
    have hstep : Enqueue_all q (w :: ws)
        = Enqueue_all (q.Enqueue w.priority w.frame_producer w.stream) ws := rfl
    rw [hstep, ih]
    by_cases h : w.priority = i
    · subst h
      simp [Enqueue, Write.pending_write]
    · simp [Enqueue, Function.update_noteq (Ne.symm h), h]

theorem deleted_Enqueue_all (writes : List Write) :
    ∀ q : SpdyWriteQueue, (Enqueue_all q writes).deleted = q.deleted := by
  induction writes with
  | nil => intro q; rfl
  | cons w ws ih =>
    intro q
    have hstep : Enqueue_all q (w :: ws)
        = Enqueue_all (q.Enqueue w.priority w.frame_producer w.stream) ws := rfl
    rw [hstep, ih]
    rfl

theorem orderedInsert_append_of_forall_not (a : Write) (front back : List Write)
    (h : ∀ x ∈ front, ¬ Write.not_lower a x) :
    List.orderedInsert Write.not_lower a (front ++ back)
      = front ++ List.orderedInsert Write.not_lower a back := by
  induction front with
  | nil => rfl
  | cons x xs ih =>
    have hx : ¬ Write.not_lower a x := h x (List.mem_cons_self x xs)
    have hxs : ∀ y ∈ xs, ¬ Write.not_lower a y := fun y hy => h y (List.mem_cons_of_mem x hy)
    simp [List.orderedInsert, hx, ih hxs]

theorem orderedInsert_of_forall (a : Write) (l : List Write)
    (h : ∀ x ∈ l, Write.not_lower a x) :
    List.orderedInsert Write.not_lower a l = a :: l := by
  cases l with
  | nil => rfl
  | cons x xs => simp [List.orderedInsert, h x (List.mem_cons_self x xs)]

theorem by_priority_succ (n : Nat) (l : List Write) :
    by_priority (n + 1) l = l.filter (fun w => w.priority = n) ++ by_priority n l := by
  simp [by_priority, List.range_succ]

theorem priority_lt_of_mem_by_priority (n : Nat) (l : List Write) (x : Write)
    (hx : x ∈ by_priority n l) : x.priority < n := by
  simp only [by_priority, List.mem_flatMap, List.mem_reverse, List.mem_range, List.mem_filter,
    decide_eq_true_eq] at hx
  obtain ⟨i, hi, _, hxi⟩ := hx
  omega

theorem by_priority_cons_of_le (a : Write) (l : List Write) (n : Nat) (h : n ≤ a.priority) :
    by_priority n (a :: l) = by_priority n l := by
  induction n with
  | zero => rfl
  | succ n ih =>
    have hne : ¬ a.priority = n := by omega
    rw [by_priority_succ, by_priority_succ, ih (by omega)]
    simp [List.filter_cons, hne]

theorem by_priority_cons_of_lt (a : Write) (l : List Write) (n : Nat) (h : a.priority < n) :
    by_priority n (a :: l) = List.orderedInsert Write.not_lower a (by_priority n l) := by
  induction n with
  | zero => omega
  | succ n ih =>
    rw [by_priority_succ, by_priority_succ]
    rcases Nat.lt_or_ge a.priority n with hlt | hge
    · have hne : ¬ a.priority = n := by omega
      rw [ih hlt, orderedInsert_append_of_forall_not]
      · simp [List.filter_cons, hne]
      · intro x hx
        simp only [List.mem_filter, decide_eq_true_eq] at hx
        have hxn : x.priority = n := hx.2
        simp only [Write.not_lower]
        omega
    · have heq : a.priority = n := by omega
      rw [by_priority_cons_of_le a l n hge, orderedInsert_of_forall]
      · simp [List.filter_cons, heq]
      · intro x hx
        simp only [Write.not_lower]
        rcases List.mem_append.mp hx with hx | hx
        · simp only [List.mem_filter, decide_eq_true_eq] at hx
          omega
        · have := priority_lt_of_mem_by_priority n l x hx
          omega

theorem by_priority_eq_insertionSort (n : Nat) (writes : List Write)
    (h : ∀ w ∈ writes, w.priority < n) :
    by_priority n writes = List.insertionSort Write.not_lower writes := by
  induction writes with
  | nil => simp [by_priority]
  | cons a l ih =>
    rw [by_priority_cons_of_lt a l n (h a (List.mem_cons_self a l)),
      ih (fun w hw => h w (List.mem_cons_of_mem a hw))]
    rfl

theorem filter_by_priority (n p : Nat) (l : List Write) :
    (by_priority n l).filter (fun w => w.priority = p)
      = if p < n then l.filter (fun w => w.priority = p) else [] := by
  induction n with
  | zero => simp [by_priority]
  | succ n ih =>
    rw [by_priority_succ, List.filter_append, ih, List.filter_filter]
    rcases Nat.lt_trichotomy p n with hlt | heq | hgt
    · have h1 : p < n + 1 := by omega
      have h2 : ∀ w : Write, ¬ (w.priority = p ∧ w.priority = n) := by
        intro w hw
        omega
      simp [hlt, h1, h2]
    · subst heq
      simp
    · have h1 : ¬ p < n + 1 := by omega
      have h2 : ¬ p < n := by omega
      have h3 : ∀ w : Write, ¬ (w.priority = p ∧ w.priority = n) := by
        intro w hw
        omega
      simp [h1, h2, h3]

theorem pending_Enqueue_all_empty (n : Nat) (writes : List Write) :
    (Enqueue_all empty writes).pending n = (by_priority n writes).map Write.pending_write := by
  have hq : (Enqueue_all empty writes).queue_
      = fun i => (writes.filter (fun w => w.priority = i)).map Write.pending_write := by
    funext i
    simp [queue_Enqueue_all, empty]
  simp [pending, by_priority, hq, List.map_flatMap]

theorem queue_Clear (n : Nat) (q : SpdyWriteQueue) :
    (Clear n q).queue_ = (fun i => if i < n then [] else q.queue_ i)
    ∧ (Clear n q).deleted
        = q.deleted ++ ((List.range n).flatMap q.queue_).map PendingWrite.frame_producer := by
  induction n with
  | zero => simp [Clear]
  | succ n ih =>
    obtain ⟨h1, h2⟩ := ih
    have hstep : Clear (n + 1) q = Clear_body (Clear n q) n := by
      simp [Clear, List.range_succ, List.foldl_append]
    rw [hstep]
    constructor
    · funext i
      simp only [Clear_body, h1]
      by_cases hi : i = n
      · subst hi
        simp
      · rw [Function.update_noteq hi]
        by_cases hlt : i < n
        · have : i < n + 1 := by omega
          simp [hlt, this]
        · have : ¬ i < n + 1 := by omega
          simp [hlt, this]
    · simp only [Clear_body, h1, h2]
      simp [List.range_succ, List.flatMap_append]

theorem drain_eq_take (NUM_PRIORITIES : Nat) :
    ∀ (fuel : Nat) (q : SpdyWriteQueue),
      (drain NUM_PRIORITIES fuel q).1
        = ((q.pending NUM_PRIORITIES).take fuel).map PendingWrite.delivered := by
  intro fuel
  induction fuel with
  | zero => intro q; simp [drain]
  | succ fuel ih =>
    intro q
    cases hp : q.pending NUM_PRIORITIES with
    | nil => simp [drain, Dequeue_of_pending_nil NUM_PRIORITIES q none none hp]
    | cons pw rest =>
      obtain ⟨q1, hd, hrest, _⟩ :=
        Dequeue_of_pending_cons NUM_PRIORITIES q none none pw rest hp
      simp only [drain, hd, if_true, List.take_succ_cons, List.map_cons]
      rw [ih q1, hrest]
      rfl

theorem mem_pending (q : SpdyWriteQueue) (n : Nat) (pw : PendingWrite) :
    pw ∈ q.pending n ↔ ∃ i, i < n ∧ pw ∈ q.queue_ i := by
  simp [pending]

theorem RemovePendingWritesForStream_loop_eq (s : SpdyStream) (l : List PendingWrite) :
    RemovePendingWritesForStream_loop s l
      = (l.filter (fun pw => pw.stream ≠ some s),
          (l.filter (fun pw => pw.stream = some s)).map PendingWrite.frame_producer) := by
  induction l with
  | nil => rfl
  | cons it rest ih =>
    by_cases h : it.stream = some s <;> simp [RemovePendingWritesForStream_loop, ih, h]

theorem bucket_invariant_empty : bucket_invariant empty := by
  intro i pw s h
  simp [empty] at h

theorem bucket_invariant_of_subset (q q1 : SpdyWriteQueue)
    (hsub : ∀ i pw, pw ∈ q1.queue_ i → pw ∈ q.queue_ i) (hq : bucket_invariant q) :
    bucket_invariant q1 :=
  fun i pw s hmem hs => hq i pw s (hsub i pw hmem) hs

theorem bucket_invariant_Enqueue (q : SpdyWriteQueue) (w : Write)
    (hq : bucket_invariant q) (hw : w.respects) :
    bucket_invariant (q.Enqueue w.priority w.frame_producer w.stream) := by
  intro i pw s hmem hs
  by_cases hi : i = w.priority
  · subst hi
    simp only [Enqueue, Function.update_same, List.mem_append, List.mem_singleton] at hmem
    rcases hmem with h | h
    · exact hq _ pw s h hs
    · subst h
      exact hw s hs
  · simp only [Enqueue, Function.update_noteq hi] at hmem
    exact hq i pw s hmem hs

theorem bucket_invariant_Dequeue (NUM_PRIORITIES : Nat) (q : SpdyWriteQueue)
    (frame_producer : Option Nat) (stream : Option SpdyStream) (hq : bucket_invariant q) :
    bucket_invariant (q.Dequeue NUM_PRIORITIES frame_producer stream).2.2.2 := by
  cases hl : Dequeue_loop q NUM_PRIORITIES with
  | none => simpa [Dequeue, hl] using hq
  | some r =>
    obtain ⟨pw, q1⟩ := r
    obtain ⟨i, rest, _, hfront, _, hq1⟩ := Dequeue_loop_eq_some q q1 pw NUM_PRIORITIES hl
    have heq : (q.Dequeue NUM_PRIORITIES frame_producer stream).2.2.2 = q1 := by
      simp [Dequeue, hl]
    rw [heq, hq1]
    apply bucket_invariant_of_subset q _ _ hq
    intro j pw1 hmem
    by_cases hj : j = i
    · subst hj
      simp only [Function.update_same] at hmem
      rw [hfront]
      exact List.mem_cons_of_mem pw hmem
    · simpa [Function.update_noteq hj] using hmem

theorem queue_RemovePendingWritesForStream (q : SpdyWriteQueue) (s : SpdyStream) :
    q.RemovePendingWritesForStream (some s)
      = some {
          queue_ := Function.update q.queue_ s.priority
            ((q.queue_ s.priority).filter (fun pw => pw.stream ≠ some s)),
          deleted := q.deleted
            ++ ((q.queue_ s.priority).filter (fun pw => pw.stream = some s)).map
                PendingWrite.frame_producer } := by
  simp [RemovePendingWritesForStream, RemovePendingWritesForStream_loop_eq]

theorem bucket_invariant_RemovePendingWritesForStream (q q1 : SpdyWriteQueue)
    (stream : Option SpdyStream) (hq : bucket_invariant q)
    (h : q.RemovePendingWritesForStream stream = some q1) : bucket_invariant q1 := by
  cases stream with
  | none => simp [RemovePendingWritesForStream] at h
  | some s =>
    rw [queue_RemovePendingWritesForStream] at h
    simp only [Option.some.injEq] at h
    subst h
    apply bucket_invariant_of_subset q _ _ hq
    intro j pw1 hmem
    by_cases hj : j = s.priority
    · subst hj
      simp only [Function.update_same] at hmem
      exact List.mem_of_mem_filter hmem
    · simpa [Function.update_noteq hj] using hmem

theorem bucket_invariant_Clear (NUM_PRIORITIES : Nat) (q : SpdyWriteQueue)
    (hq : bucket_invariant q) : bucket_invariant (q.Clear NUM_PRIORITIES) := by
  apply bucket_invariant_of_subset q _ _ hq
  intro j pw hmem
  rw [(queue_Clear NUM_PRIORITIES q).1] at hmem
  by_cases hj : j < NUM_PRIORITIES
  · simp [hj] at hmem
  · simpa [hj] using hmem

theorem RemovePendingWritesForStream_filter (q : SpdyWriteQueue) (s : SpdyStream)
    (hq : bucket_invariant q) :
    ∃ q1, q.RemovePendingWritesForStream (some s) = some q1
      ∧ ∀ i, q1.queue_ i = (q.queue_ i).filter (fun pw => pw.stream ≠ some s) := by
  refine ⟨_, queue_RemovePendingWritesForStream q s, ?_⟩
  intro i
  by_cases hi : i = s.priority
  · subst hi
    simp
  · simp only [Function.update_noteq hi]
    symm
    rw [List.filter_eq_self]
    intro pw hmem
    simp only [ne_eq, decide_not, Bool.not_eq_true', decide_eq_false_iff_not]
    intro hs
    exact hi (hq i pw s hmem hs).symm

theorem bucket_invariant_Enqueue_all (writes : List Write) :
    ∀ q : SpdyWriteQueue, bucket_invariant q → (∀ w ∈ writes, w.respects) →
      bucket_invariant (Enqueue_all q writes) := by
  induction writes with
  | nil => intro q hq _; exact hq
  | cons w ws ih =>
    intro q hq hw
    exact ih _ (bucket_invariant_Enqueue q w hq (hw w (List.mem_cons_self w ws)))
      (fun w1 h1 => hw w1 (List.mem_cons_of_mem w h1))

theorem bucket_invariant_step (NUM_PRIORITIES : Nat) (st st1 : QueueState) (c : QueueCall)
    (hst : bucket_invariant st.queue) (hc : c.respects)
    (h : st.step NUM_PRIORITIES c = some st1) : bucket_invariant st1.queue := by
  cases c with
  | Enqueue w =>
    simp only [QueueState.step, Option.some.injEq] at h
    subst h
    exact bucket_invariant_Enqueue st.queue w hst hc
  | Dequeue =>
    simp only [QueueState.step, Option.some.injEq] at h
    subst h
    exact bucket_invariant_Dequeue NUM_PRIORITIES st.queue none none hst
  | RemovePendingWritesForStream stream =>
    simp only [QueueState.step, Option.map_eq_some'] at h
    obtain ⟨q1, hq1, h⟩ := h
    subst h
    exact bucket_invariant_RemovePendingWritesForStream st.queue q1 stream hst hq1
  | Clear =>
    simp only [QueueState.step, Option.some.injEq] at h
    subst h
    exact bucket_invariant_Clear NUM_PRIORITIES st.queue hst

theorem bucket_invariant_run (NUM_PRIORITIES : Nat) (calls : List QueueCall) :
    ∀ st st1 : QueueState, bucket_invariant st.queue → (∀ c ∈ calls, c.respects) →
      QueueState.run NUM_PRIORITIES st calls = some st1 → bucket_invariant st1.queue := by
  induction calls with
  | nil =>
    intro st st1 hst _ h
    simp only [QueueState.run, Option.some.injEq] at h
    subst h
    exact hst
  | cons c cs ih =>
    intro st st1 hst hc h
    cases hs : st.step NUM_PRIORITIES c with
    | none => simp [QueueState.run, hs] at h
    | some st2 =>
      simp only [QueueState.run, hs] at h
      exact ih st2 st1
        (bucket_invariant_step NUM_PRIORITIES st st2 c hst (hc c (List.mem_cons_self c cs)) hs)
        (fun c1 h1 => hc c1 (List.mem_cons_of_mem c h1)) h

theorem pending_update_perm (q : SpdyWriteQueue) (n p : Nat) (l : List PendingWrite)
    (d : List Nat) (hp : p < n) :
    List.Perm
      (({ queue_ := Function.update q.queue_ p l, deleted := d } : SpdyWriteQueue).pending n
        ++ q.queue_ p)
      (l ++ q.pending n) := by
  induction n with
  | zero => omega
  | succ n ih =>
    rw [pending_succ, pending_succ]
    by_cases hpn : p = n
    · subst hpn
      rw [pending_update_of_le q p p l d (le_refl p)]
      simp only [Function.update_same]
      rw [List.perm_iff_count]
      intro a
      simp only [List.count_append]
      omega
    · have hlt : p < n := by omega
      have hne : n ≠ p := fun h => hpn h.symm
      have hc := ih hlt
      rw [List.perm_iff_count] at hc ⊢
      intro a
      have := hc a
      simp only [List.count_append, Function.update_noteq hne] at this ⊢
      omega

theorem count_pending_producers_update (q : SpdyWriteQueue) (n p : Nat)
    (l : List PendingWrite) (d : List Nat) (hp : p < n) (x : Nat) :
    List.count x
        (pending_producers { queue_ := Function.update q.queue_ p l, deleted := d } n)
      + List.count x ((q.queue_ p).map PendingWrite.frame_producer)
      = List.count x (l.map PendingWrite.frame_producer)
        + List.count x (pending_producers q n) := by
  have h := (pending_update_perm q n p l d hp).map PendingWrite.frame_producer
  have hx := List.perm_iff_count.mp h x
  simp only [List.map_append, List.count_append] at hx
  exact hx

theorem count_filter_stream (s : SpdyStream) (l : List PendingWrite) (x : Nat) :
    List.count x ((l.filter (fun pw => pw.stream ≠ some s)).map PendingWrite.frame_producer)
      + List.count x
          ((l.filter (fun pw => pw.stream = some s)).map PendingWrite.frame_producer)
      = List.count x (l.map PendingWrite.frame_producer) := by
  induction l with
  | nil => rfl
  | cons pw rest ih =>
    by_cases h : pw.stream = some s
    · simp only [ne_eq, h, not_true_eq_false, decide_False, Bool.false_eq_true,
        not_false_eq_true, List.filter_cons_of_neg, decide_True, List.filter_cons_of_pos,
        List.map_cons, List.count_cons] at ih ⊢
      omega
    · simp only [ne_eq, h, not_false_eq_true, decide_True, List.filter_cons_of_pos,
        decide_False, Bool.false_eq_true, List.filter_cons_of_neg,
        List.map_cons, List.count_cons] at ih ⊢
      omega

theorem count_range_flatMap (q : SpdyWriteQueue) (n : Nat) (x : Nat) :
    List.count x (((List.range n).flatMap q.queue_).map PendingWrite.frame_producer)
      = List.count x (pending_producers q n) := by
  induction n with
  | zero => simp [pending_producers, pending]
  | succ n ih =>
    simp only [pending_producers] at ih ⊢
    rw [pending_succ]
    simp only [List.range_succ, List.flatMap_append, List.map_append, List.count_append,
      List.flatMap_singleton, List.flatMap_nil, List.append_nil] at ih ⊢
    omega

theorem enqueued_cons (c : QueueCall) (cs : List QueueCall) :
    enqueued (c :: cs) = enqueued [c] ++ enqueued cs := by
  cases c <;> rfl

theorem count_producers_step (NUM_PRIORITIES : Nat) (st st1 : QueueState) (c : QueueCall)
    (hc : c.in_range NUM_PRIORITIES) (h : st.step NUM_PRIORITIES c = some st1) (x : Nat) :
    List.count x (st1.producers NUM_PRIORITIES)
      = List.count x (st.producers NUM_PRIORITIES) + List.count x (enqueued [c]) := by
  cases c with
  | Enqueue w =>
    simp only [QueueState.step, Option.some.injEq] at h
    subst h
    have hu := count_pending_producers_update st.queue NUM_PRIORITIES w.priority
      (st.queue.queue_ w.priority ++ [PendingWrite.mk w.frame_producer w.stream])
      st.queue.deleted hc x
    simp only [QueueState.producers, Enqueue, enqueued, List.count_append, List.map_append,
      List.map_cons, List.map_nil] at hu ⊢
    omega
  | Dequeue =>
    simp only [QueueState.step, Option.some.injEq] at h
    subst h
    cases hp : st.queue.pending NUM_PRIORITIES with
    | nil =>
      rw [Dequeue_of_pending_nil NUM_PRIORITIES st.queue none none hp]
      simp [QueueState.producers, enqueued]
    | cons pw rest =>
      obtain ⟨q1, hd, hrest, hdel⟩ :=
        Dequeue_of_pending_cons NUM_PRIORITIES st.queue none none pw rest hp
      rw [hd]
      simp only [QueueState.producers, pending_producers, hp, hrest, hdel, enqueued, if_true,
        Option.toList, List.count_append, List.map_cons, List.count_cons, List.count_nil]
      omega
  | RemovePendingWritesForStream stream =>
    cases stream with
    | none => simp [QueueState.step, RemovePendingWritesForStream] at h
    | some s =>
      simp only [QueueState.step, queue_RemovePendingWritesForStream, Option.map_some',
        Option.some.injEq] at h
      subst h
      have hu := count_pending_producers_update st.queue NUM_PRIORITIES s.priority
        ((st.queue.queue_ s.priority).filter (fun pw => pw.stream ≠ some s))
        (st.queue.deleted
          ++ ((st.queue.queue_ s.priority).filter (fun pw => pw.stream = some s)).map
              PendingWrite.frame_producer) hc x
      have hf := count_filter_stream s (st.queue.queue_ s.priority) x
      simp only [QueueState.producers, enqueued, List.count_append, List.count_nil] at hu ⊢
      omega
  | Clear =>
    simp only [QueueState.step, Option.some.injEq] at h
    subst h
    obtain ⟨hq, hd⟩ := queue_Clear NUM_PRIORITIES st.queue
    have hnil : (st.queue.Clear NUM_PRIORITIES).pending NUM_PRIORITIES = [] := by
      rw [pending_eq_nil_iff]
      intro i hi
      simp [hq, hi]
    have hcount := count_range_flatMap st.queue NUM_PRIORITIES x
    simp only [QueueState.producers, pending_producers, hnil, hd, enqueued, List.map_nil,
      List.nil_append, List.count_append, List.count_nil] at hcount ⊢
    omega

theorem count_producers_run (NUM_PRIORITIES : Nat) (calls : List QueueCall) :
    ∀ (st st1 : QueueState), (∀ c ∈ calls, c.in_range NUM_PRIORITIES) →
      QueueState.run NUM_PRIORITIES st calls = some st1 → ∀ x,
      List.count x (st1.producers NUM_PRIORITIES)
        = List.count x (st.producers NUM_PRIORITIES) + List.count x (enqueued calls) := by
  induction calls with
  | nil =>
    intro st st1 _ h x
    simp only [QueueState.run, Option.some.injEq] at h
    subst h
    simp [enqueued]
  | cons c cs ih =>
    intro st st1 hc h x
    cases hs : st.step NUM_PRIORITIES c with
    | none => simp [QueueState.run, hs] at h
    | some st2 =>
      simp only [QueueState.run, hs] at h
      have h1 := count_producers_step NUM_PRIORITIES st st2 c (hc c (List.mem_cons_self c cs))
        hs x
      have h2 := ih st2 st1 (fun c1 hc1 => hc c1 (List.mem_cons_of_mem c hc1)) h x
      rw [enqueued_cons, List.count_append]
      omega

end SpdyWriteQueue

/-- Claim C22: for every queue, `Dequeue` returns true exactly when the deque of
some priority is not empty; it then delivers the frame producer and the stream
(NULL or not) at the front of the non-empty deque of highest priority, pops
that one pending write and leaves every deque otherwise as it was, and deletes
nothing; when it returns false the output arguments and the queue are
unchanged. A write enqueued with a NULL stream on an empty queue is delivered
with its NULL stream. -/
theorem C22_Dequeue_front_of_highest_priority (NUM_PRIORITIES : Nat) (q : SpdyWriteQueue)
    (frame_producer : Option Nat) (stream : Option SpdyStream) :
    ((q.Dequeue NUM_PRIORITIES frame_producer stream).1 = true
      ↔ ∃ i, i < NUM_PRIORITIES ∧ q.queue_ i ≠ [])
    ∧ ((q.Dequeue NUM_PRIORITIES frame_producer stream).1 = true →
        ∃ i pending_write rest, i < NUM_PRIORITIES
          ∧ q.queue_ i = pending_write :: rest
          ∧ (∀ j, i < j → j < NUM_PRIORITIES → q.queue_ j = [])
          ∧ (q.Dequeue NUM_PRIORITIES frame_producer stream).2.1
              = some pending_write.frame_producer
          ∧ (q.Dequeue NUM_PRIORITIES frame_producer stream).2.2.1 = pending_write.stream
          ∧ (q.Dequeue NUM_PRIORITIES frame_producer stream).2.2.2.queue_
              = Function.update q.queue_ i rest
          ∧ (q.Dequeue NUM_PRIORITIES frame_producer stream).2.2.2.deleted = q.deleted)
    ∧ ((q.Dequeue NUM_PRIORITIES frame_producer stream).1 = false →
        (q.Dequeue NUM_PRIORITIES frame_producer stream).2.1 = frame_producer
        ∧ (q.Dequeue NUM_PRIORITIES frame_producer stream).2.2.1 = stream
        ∧ (q.Dequeue NUM_PRIORITIES frame_producer stream).2.2.2 = q)
    ∧ (∀ priority producer, priority < NUM_PRIORITIES →
        (SpdyWriteQueue.Dequeue NUM_PRIORITIES
            (SpdyWriteQueue.empty.Enqueue priority producer none) frame_producer stream).1 = true
        ∧ (SpdyWriteQueue.Dequeue NUM_PRIORITIES
            (SpdyWriteQueue.empty.Enqueue priority producer none) frame_producer stream).2.1
            = some producer
        ∧ (SpdyWriteQueue.Dequeue NUM_PRIORITIES
            (SpdyWriteQueue.empty.Enqueue priority producer none) frame_producer stream).2.2.1
            = none) := by
  have hgen : ∀ q : SpdyWriteQueue,
      ((q.Dequeue NUM_PRIORITIES frame_producer stream).1 = true
        ↔ ∃ i, i < NUM_PRIORITIES ∧ q.queue_ i ≠ [])
      ∧ ((q.Dequeue NUM_PRIORITIES frame_producer stream).1 = true →
          ∃ i pending_write rest, i < NUM_PRIORITIES
            ∧ q.queue_ i = pending_write :: rest
            ∧ (∀ j, i < j → j < NUM_PRIORITIES → q.queue_ j = [])
            ∧ (q.Dequeue NUM_PRIORITIES frame_producer stream).2.1
                = some pending_write.frame_producer
            ∧ (q.Dequeue NUM_PRIORITIES frame_producer stream).2.2.1 = pending_write.stream
            ∧ (q.Dequeue NUM_PRIORITIES frame_producer stream).2.2.2.queue_
                = Function.update q.queue_ i rest
            ∧ (q.Dequeue NUM_PRIORITIES frame_producer stream).2.2.2.deleted = q.deleted)
      ∧ ((q.Dequeue NUM_PRIORITIES frame_producer stream).1 = false →
          (q.Dequeue NUM_PRIORITIES frame_producer stream).2.1 = frame_producer
          ∧ (q.Dequeue NUM_PRIORITIES frame_producer stream).2.2.1 = stream
          ∧ (q.Dequeue NUM_PRIORITIES frame_producer stream).2.2.2 = q) := by
    intro q
    cases hl : SpdyWriteQueue.Dequeue_loop q NUM_PRIORITIES with
    | none =>
      have hall := (SpdyWriteQueue.Dequeue_loop_eq_none q NUM_PRIORITIES).mp hl
      refine ⟨?_, ?_, ?_⟩
      · simp only [SpdyWriteQueue.Dequeue, hl, Bool.false_eq_true, false_iff, not_exists, not_and,
          not_not]
        exact hall
      · simp [SpdyWriteQueue.Dequeue, hl]
      · simp [SpdyWriteQueue.Dequeue, hl]
    | some r =>
      obtain ⟨pw, q1⟩ := r
      obtain ⟨i, rest, hi, hfront, hempty, hq1⟩ :=
        SpdyWriteQueue.Dequeue_loop_eq_some q q1 pw NUM_PRIORITIES hl
      refine ⟨?_, ?_, ?_⟩
      · simp only [SpdyWriteQueue.Dequeue, hl, true_iff]
        exact ⟨i, hi, by simp [hfront]⟩
      · intro _
        refine ⟨i, pw, rest, hi, hfront, hempty, ?_, ?_, ?_, ?_⟩ <;>
          simp [SpdyWriteQueue.Dequeue, hl, hq1]
      · simp [SpdyWriteQueue.Dequeue, hl]
  obtain ⟨h1, h2, h3⟩ := hgen q
  refine ⟨h1, h2, h3, ?_⟩
  intro priority producer hp
  obtain ⟨g1, g2, _⟩ := hgen (SpdyWriteQueue.empty.Enqueue priority producer none)
  have htrue := g1.mpr ⟨priority, hp, by simp [SpdyWriteQueue.Enqueue, SpdyWriteQueue.empty]⟩
  obtain ⟨i, pw, rest, hi, hfront, _, hfp, hst, _, _⟩ := g2 htrue
  have hi_eq : i = priority := by
    by_contra hne
    simp [SpdyWriteQueue.Enqueue, SpdyWriteQueue.empty, Function.update_noteq hne] at hfront
  subst hi_eq
  simp [SpdyWriteQueue.Enqueue, SpdyWriteQueue.empty] at hfront
  obtain ⟨hpw, _⟩ := hfront
  subst hpw
  exact ⟨htrue, hfp, hst⟩

/-- Claim C25: for every queue, after `Clear` the deque of every priority is
empty and the next `Dequeue` returns false, leaving its output arguments as
they were; the frame producers that were pending have all been deleted. -/
theorem C25_Clear_empties_every_bucket (NUM_PRIORITIES : Nat) (q : SpdyWriteQueue)
    (frame_producer : Option Nat) (stream : Option SpdyStream) :
    (∀ i, i < NUM_PRIORITIES → (q.Clear NUM_PRIORITIES).queue_ i = [])
    ∧ (SpdyWriteQueue.Dequeue NUM_PRIORITIES (q.Clear NUM_PRIORITIES) frame_producer stream).1
        = false
    ∧ (SpdyWriteQueue.Dequeue NUM_PRIORITIES (q.Clear NUM_PRIORITIES) frame_producer stream).2.1
        = frame_producer
    ∧ (SpdyWriteQueue.Dequeue NUM_PRIORITIES (q.Clear NUM_PRIORITIES) frame_producer
        stream).2.2.1 = stream
    ∧ (q.Clear NUM_PRIORITIES).deleted
        = q.deleted
          ++ ((List.range NUM_PRIORITIES).flatMap q.queue_).map PendingWrite.frame_producer := by
  obtain ⟨hq, hd⟩ := SpdyWriteQueue.queue_Clear NUM_PRIORITIES q
  have hempty : ∀ i, i < NUM_PRIORITIES → (q.Clear NUM_PRIORITIES).queue_ i = [] := by
    intro i hi
    simp [hq, hi]
  have hpending := (SpdyWriteQueue.pending_eq_nil_iff (q.Clear NUM_PRIORITIES)
    NUM_PRIORITIES).mpr hempty
  rw [SpdyWriteQueue.Dequeue_of_pending_nil NUM_PRIORITIES _ frame_producer stream hpending]
  exact ⟨hempty, rfl, rfl, rfl, hd⟩

/-- Claim C23: for every sequence of `Enqueue` calls on an empty queue, with
priorities below `NUM_PRIORITIES`, calling `Dequeue` until it returns false
(at least as many calls allowed as there were writes) delivers the (frame
producer, stream) pairs of the stable sort of the calls by descending
priority, after which `Dequeue` returns false; that sort is a permutation of
the calls, is in descending priority, and keeps the calls of each priority in
the order they were made. -/
theorem C23_Dequeue_order_is_stable_sort (NUM_PRIORITIES : Nat)
    (writes : List SpdyWriteQueue.Write) (fuel : Nat)
    (hpriority : ∀ w ∈ writes, w.priority < NUM_PRIORITIES) (hfuel : writes.length ≤ fuel) :
    (SpdyWriteQueue.drain NUM_PRIORITIES fuel
        (SpdyWriteQueue.Enqueue_all SpdyWriteQueue.empty writes)).1
      = (List.insertionSort SpdyWriteQueue.Write.not_lower writes).map
          (fun w => (some w.frame_producer, w.stream))
    ∧ (SpdyWriteQueue.Dequeue NUM_PRIORITIES
        (SpdyWriteQueue.drain NUM_PRIORITIES fuel
          (SpdyWriteQueue.Enqueue_all SpdyWriteQueue.empty writes)).2 none none).1 = false
    ∧ (List.insertionSort SpdyWriteQueue.Write.not_lower writes).Perm writes
    ∧ (List.insertionSort SpdyWriteQueue.Write.not_lower writes).Pairwise
        (fun a b => b.priority ≤ a.priority)
    ∧ ∀ p, (List.insertionSort SpdyWriteQueue.Write.not_lower writes).filter
          (fun w => w.priority = p)
        = writes.filter (fun w => w.priority = p) := by
  have hsort := SpdyWriteQueue.by_priority_eq_insertionSort NUM_PRIORITIES writes hpriority
  have hpending := SpdyWriteQueue.pending_Enqueue_all_empty NUM_PRIORITIES writes
  have hlen : ((SpdyWriteQueue.Enqueue_all SpdyWriteQueue.empty writes).pending
      NUM_PRIORITIES).length ≤ fuel := by
    rw [hpending, hsort, List.length_map, List.length_insertionSort]
    exact hfuel
  obtain ⟨h1, h2, _⟩ := SpdyWriteQueue.drain_of_pending NUM_PRIORITIES fuel _ hlen
  refine ⟨?_, ?_, List.perm_insertionSort _ writes, ?_, ?_⟩
  · rw [h1, hpending, hsort, List.map_map]
    rfl
  · rw [SpdyWriteQueue.Dequeue_of_pending_nil NUM_PRIORITIES _ none none h2]
  · haveI : IsTotal SpdyWriteQueue.Write SpdyWriteQueue.Write.not_lower :=
      ⟨fun a b => Nat.le_total b.priority a.priority⟩
    haveI : IsTrans SpdyWriteQueue.Write SpdyWriteQueue.Write.not_lower :=
      ⟨fun a b c hab hbc => Nat.le_trans hbc hab⟩
    exact List.sorted_insertionSort SpdyWriteQueue.Write.not_lower writes
  · intro p
    rw [← hsort, SpdyWriteQueue.filter_by_priority]
    by_cases hp : p < NUM_PRIORITIES
    · simp [hp]
    · simp only [hp, if_false]
      symm
      rw [List.filter_eq_nil_iff]
      intro w hw
      have := hpriority w hw
      simp only [decide_eq_true_eq]
      omega

/-- Witness of C23: the writes of the tests `DequeuesByPriority` and
`DequeuesFIFO`, with five priorities, come out as HIGHEST, MEDIUM, LOW, then
1, 2, 3. -/
theorem C23_Dequeue_order_is_stable_sort_witness :
    (SpdyWriteQueue.drain 5 6
        (SpdyWriteQueue.Enqueue_all SpdyWriteQueue.empty SpdyWriteQueue.test_writes)).1
      = (List.insertionSort SpdyWriteQueue.Write.not_lower SpdyWriteQueue.test_writes).map
          (fun w => (some w.frame_producer, w.stream))
    ∧ (List.insertionSort SpdyWriteQueue.Write.not_lower SpdyWriteQueue.test_writes).map
          (fun w => w.frame_producer) = [12, 11, 10, 1, 2, 3] :=
  ⟨(C23_Dequeue_order_is_stable_sort 5 SpdyWriteQueue.test_writes 6 (by decide)
      (by decide)).1, by decide⟩

/-- Claim C24: for every queue built from the empty queue by `Enqueue` calls
that respect the precondition, and every stream `s` that is not NULL,
`RemovePendingWritesForStream(s)` returns, the deque of every priority is then
the previous one without the writes for `s`, in the previous order, no pending
write is for `s`, and no write dequeued afterwards, however many `Dequeue`
calls are made, is for `s`. -/
theorem C24_RemovePendingWritesForStream_removes_stream (NUM_PRIORITIES : Nat)
    (writes : List SpdyWriteQueue.Write) (s : SpdyStream)
    (hrespects : ∀ w ∈ writes, w.respects) :
    ∃ q1, (SpdyWriteQueue.Enqueue_all SpdyWriteQueue.empty writes).RemovePendingWritesForStream
          (some s) = some q1
      ∧ (∀ i, q1.queue_ i
          = ((SpdyWriteQueue.Enqueue_all SpdyWriteQueue.empty writes).queue_ i).filter
              (fun pw => pw.stream ≠ some s))
      ∧ (∀ i pw, pw ∈ q1.queue_ i → pw.stream ≠ some s)
      ∧ (∀ fuel, ∀ d ∈ (SpdyWriteQueue.drain NUM_PRIORITIES fuel q1).1, d.2 ≠ some s) := by
  have hinv := SpdyWriteQueue.bucket_invariant_Enqueue_all writes SpdyWriteQueue.empty
    SpdyWriteQueue.bucket_invariant_empty hrespects
  obtain ⟨q1, hq1, hfilter⟩ := SpdyWriteQueue.RemovePendingWritesForStream_filter _ s hinv
  have hnone : ∀ i pw, pw ∈ q1.queue_ i → pw.stream ≠ some s := by
    intro i pw hmem
    rw [hfilter i] at hmem
    simpa using (List.mem_filter.mp hmem).2
  refine ⟨q1, hq1, hfilter, hnone, ?_⟩
  intro fuel d hd
  rw [SpdyWriteQueue.drain_eq_take, List.mem_map] at hd
  obtain ⟨pw, hpw, hdpw⟩ := hd
  obtain ⟨i, _, hi⟩ := (SpdyWriteQueue.mem_pending q1 NUM_PRIORITIES pw).mp
    (List.mem_of_mem_take hpw)
  rw [← hdpw]
  exact hnone i pw hi

set_option maxRecDepth 100000 in
/-- Witness of C24: the test `RemovePendingWritesForStream`. Of the 100 writes,
after the removal of `stream2`, the writes 0, 3, 6, ..., 99 of `stream1` are
dequeued in that order, and then `Dequeue` returns false. -/
theorem C24_RemovePendingWritesForStream_removes_stream_witness :
    (∀ w ∈ SpdyWriteQueue.removal_test_writes, w.respects)
    ∧ (∃ q1, (SpdyWriteQueue.Enqueue_all SpdyWriteQueue.empty
          SpdyWriteQueue.removal_test_writes).RemovePendingWritesForStream
            (some SpdyWriteQueue.stream2) = some q1
        ∧ (∀ i, q1.queue_ i
            = ((SpdyWriteQueue.Enqueue_all SpdyWriteQueue.empty
                SpdyWriteQueue.removal_test_writes).queue_ i).filter
                (fun pw => pw.stream ≠ some SpdyWriteQueue.stream2))
        ∧ (∀ i pw, pw ∈ q1.queue_ i → pw.stream ≠ some SpdyWriteQueue.stream2)
        ∧ (∀ fuel, ∀ d ∈ (SpdyWriteQueue.drain 5 fuel q1).1,
            d.2 ≠ some SpdyWriteQueue.stream2))
    ∧ ((SpdyWriteQueue.Enqueue_all SpdyWriteQueue.empty
          SpdyWriteQueue.removal_test_writes).RemovePendingWritesForStream
            (some SpdyWriteQueue.stream2)).map
        (fun q1 => ((SpdyWriteQueue.drain 5 100 q1).1,
          (SpdyWriteQueue.Dequeue 5 (SpdyWriteQueue.drain 5 100 q1).2 none none).1))
      = some ((List.range 34).map (fun k => (some (3 * k), some SpdyWriteQueue.stream1)),
          false) := by
  have hrespects : ∀ w ∈ SpdyWriteQueue.removal_test_writes, w.respects := by
    intro w hw
    simp only [SpdyWriteQueue.removal_test_writes, List.mem_map] at hw
    obtain ⟨i, _, hi⟩ := hw
    subst hi
    intro s hs
    simp only [Option.some.injEq] at hs
    subst hs
    by_cases h3 : i % 3 = 0 <;> simp [h3, SpdyWriteQueue.stream1, SpdyWriteQueue.stream2]
  exact ⟨hrespects,
    C24_RemovePendingWritesForStream_removes_stream 5 SpdyWriteQueue.removal_test_writes
      SpdyWriteQueue.stream2 hrespects,
    by rfl⟩

/-- Claim C28: when every `Enqueue` call satisfies its precondition, the queue
reached from the empty queue by any sequence of `Enqueue`, `Dequeue`,
`RemovePendingWritesForStream` and `Clear` calls has every pending write with
a stream that is not NULL in the deque of that stream's priority; each of the
four functions preserves this; and on such a queue
`RemovePendingWritesForStream(s)`, which scans the deque of `s` only, leaves
no pending write for `s` in any deque and keeps every other pending write. -/
theorem C28_bucket_invariant (NUM_PRIORITIES : Nat) (calls : List SpdyWriteQueue.QueueCall)
    (st : SpdyWriteQueue.QueueState) (hrespects : ∀ c ∈ calls, c.respects)
    (hrun : SpdyWriteQueue.QueueState.run NUM_PRIORITIES SpdyWriteQueue.QueueState.initial calls
      = some st) :
    SpdyWriteQueue.bucket_invariant st.queue
    ∧ (∀ s : SpdyStream, ∃ q1, st.queue.RemovePendingWritesForStream (some s) = some q1
        ∧ (∀ i pw, pw ∈ q1.queue_ i → pw.stream ≠ some s)
        ∧ (∀ i, q1.queue_ i = (st.queue.queue_ i).filter (fun pw => pw.stream ≠ some s)))
    ∧ (∀ (q : SpdyWriteQueue) (w : SpdyWriteQueue.Write), SpdyWriteQueue.bucket_invariant q →
        w.respects →
        SpdyWriteQueue.bucket_invariant (q.Enqueue w.priority w.frame_producer w.stream))
    ∧ (∀ (q : SpdyWriteQueue) frame_producer stream, SpdyWriteQueue.bucket_invariant q →
        SpdyWriteQueue.bucket_invariant
          (q.Dequeue NUM_PRIORITIES frame_producer stream).2.2.2)
    ∧ (∀ (q q1 : SpdyWriteQueue) stream, SpdyWriteQueue.bucket_invariant q →
        q.RemovePendingWritesForStream stream = some q1 → SpdyWriteQueue.bucket_invariant q1)
    ∧ (∀ q : SpdyWriteQueue, SpdyWriteQueue.bucket_invariant q →
        SpdyWriteQueue.bucket_invariant (q.Clear NUM_PRIORITIES)) := by
  have hinv : SpdyWriteQueue.bucket_invariant st.queue :=
    SpdyWriteQueue.bucket_invariant_run NUM_PRIORITIES calls SpdyWriteQueue.QueueState.initial st
      SpdyWriteQueue.bucket_invariant_empty hrespects hrun
  refine ⟨hinv, ?_, ?_, ?_, ?_, ?_⟩
  · intro s
    obtain ⟨q1, hq1, hfilter⟩ := SpdyWriteQueue.RemovePendingWritesForStream_filter st.queue s hinv
    refine ⟨q1, hq1, ?_, hfilter⟩
    intro i pw hmem
    rw [hfilter i] at hmem
    simpa using (List.mem_filter.mp hmem).2
  · exact fun q w hq hw => SpdyWriteQueue.bucket_invariant_Enqueue q w hq hw
  · exact fun q fp stream hq =>
      SpdyWriteQueue.bucket_invariant_Dequeue NUM_PRIORITIES q fp stream hq
  · exact fun q q1 stream hq h =>
      SpdyWriteQueue.bucket_invariant_RemovePendingWritesForStream q q1 stream hq h
  · exact fun q hq => SpdyWriteQueue.bucket_invariant_Clear NUM_PRIORITIES q hq

/-- Witness of C28: a sequence of calls with all four functions, on five
priorities; in the queue it ends in, the write 6 sits in the deque of priority 4. -/
theorem C28_bucket_invariant_witness :
    (∀ c ∈ SpdyWriteQueue.sample_calls, c.respects)
    ∧ SpdyWriteQueue.bucket_invariant
        ((SpdyWriteQueue.QueueState.run 5 SpdyWriteQueue.QueueState.initial
          SpdyWriteQueue.sample_calls).get rfl).queue
    ∧ ((SpdyWriteQueue.QueueState.run 5 SpdyWriteQueue.QueueState.initial
          SpdyWriteQueue.sample_calls).get rfl).queue.queue_ 4 = [PendingWrite.mk 6 none] := by
  have hrespects : ∀ c ∈ SpdyWriteQueue.sample_calls, c.respects := by
    intro c hc
    simp only [SpdyWriteQueue.sample_calls, List.mem_cons, List.mem_singleton,
      List.not_mem_nil, or_false] at hc
    rcases hc with h | h | h | h | h | h | h | h | h | h <;> subst h <;>
      simp [SpdyWriteQueue.QueueCall.respects, SpdyWriteQueue.Write.respects,
        SpdyWriteQueue.stream1, SpdyWriteQueue.stream2]
  exact ⟨hrespects,
    (C28_bucket_invariant 5 SpdyWriteQueue.sample_calls _ hrespects
      (Option.some_get _).symm).1,
    by decide⟩

/-- Claim C29: for every sequence of `Enqueue`, `Dequeue`,
`RemovePendingWritesForStream` and `Clear` calls that runs from the empty
queue, with priorities below `NUM_PRIORITIES`, the frame producers pending in
the queue, those handed out by `Dequeue` and those deleted by
`RemovePendingWritesForStream` or `Clear` are together, counted with
multiplicity, exactly the frame producers enqueued; so when the enqueued
producers are distinct objects, each is in exactly one of the three sets, and
in it once. -/
theorem C29_frame_producer_conservation (NUM_PRIORITIES : Nat)
    (calls : List SpdyWriteQueue.QueueCall) (st : SpdyWriteQueue.QueueState)
    (hrange : ∀ c ∈ calls, c.in_range NUM_PRIORITIES)
    (hrun : SpdyWriteQueue.QueueState.run NUM_PRIORITIES SpdyWriteQueue.QueueState.initial calls
      = some st) :
    List.Perm
      (SpdyWriteQueue.pending_producers st.queue NUM_PRIORITIES ++ st.handed_out
        ++ st.queue.deleted)
      (SpdyWriteQueue.enqueued calls)
    ∧ (∀ x, List.count x (SpdyWriteQueue.pending_producers st.queue NUM_PRIORITIES)
          + List.count x st.handed_out + List.count x st.queue.deleted
        = List.count x (SpdyWriteQueue.enqueued calls))
    ∧ ((SpdyWriteQueue.enqueued calls).Nodup →
        (SpdyWriteQueue.pending_producers st.queue NUM_PRIORITIES ++ st.handed_out
          ++ st.queue.deleted).Nodup
        ∧ ∀ x ∈ SpdyWriteQueue.enqueued calls,
            List.count x (SpdyWriteQueue.pending_producers st.queue NUM_PRIORITIES)
              + List.count x st.handed_out + List.count x st.queue.deleted = 1) := by
  have hcount : ∀ x, List.count x (st.producers NUM_PRIORITIES)
      = List.count x (SpdyWriteQueue.enqueued calls) := by
    intro x
    have h := SpdyWriteQueue.count_producers_run NUM_PRIORITIES calls
      SpdyWriteQueue.QueueState.initial st hrange hrun x
    have hnil : SpdyWriteQueue.empty.pending NUM_PRIORITIES = [] :=
      (SpdyWriteQueue.pending_eq_nil_iff SpdyWriteQueue.empty NUM_PRIORITIES).mpr
        (fun _ _ => rfl)
    have h0 : SpdyWriteQueue.QueueState.initial.producers NUM_PRIORITIES = [] := by
      simp only [SpdyWriteQueue.QueueState.producers, SpdyWriteQueue.QueueState.initial,
        SpdyWriteQueue.pending_producers, hnil]
      rfl
    rw [h0] at h
    simpa using h
  have hperm : List.Perm (st.producers NUM_PRIORITIES) (SpdyWriteQueue.enqueued calls) :=
    List.perm_iff_count.mpr hcount
  have hsum : ∀ x, List.count x (SpdyWriteQueue.pending_producers st.queue NUM_PRIORITIES)
        + List.count x st.handed_out + List.count x st.queue.deleted
      = List.count x (SpdyWriteQueue.enqueued calls) := by
    intro x
    have := hcount x
    simp only [SpdyWriteQueue.QueueState.producers, List.count_append] at this
    exact this
  refine ⟨hperm, hsum, ?_⟩
  intro hnodup
  refine ⟨hperm.nodup_iff.mpr hnodup, ?_⟩
  intro x hx
  rw [hsum x]
  exact List.count_eq_one_of_mem hnodup hx

/-- Witness of C29: the sample sequence of calls on five priorities; of the six
producers enqueued, 6 is pending, 2 and 4 were handed out, and 1, 5 and 3 were
deleted. -/
theorem C29_frame_producer_conservation_witness :
    (∀ c ∈ SpdyWriteQueue.sample_calls, c.in_range 5)
    ∧ List.Perm
        (SpdyWriteQueue.pending_producers
            ((SpdyWriteQueue.QueueState.run 5 SpdyWriteQueue.QueueState.initial
              SpdyWriteQueue.sample_calls).get rfl).queue 5
          ++ ((SpdyWriteQueue.QueueState.run 5 SpdyWriteQueue.QueueState.initial
              SpdyWriteQueue.sample_calls).get rfl).handed_out
          ++ ((SpdyWriteQueue.QueueState.run 5 SpdyWriteQueue.QueueState.initial
              SpdyWriteQueue.sample_calls).get rfl).queue.deleted)
        (SpdyWriteQueue.enqueued SpdyWriteQueue.sample_calls)
    ∧ SpdyWriteQueue.pending_producers
          ((SpdyWriteQueue.QueueState.run 5 SpdyWriteQueue.QueueState.initial
            SpdyWriteQueue.sample_calls).get rfl).queue 5 = [6]
    ∧ ((SpdyWriteQueue.QueueState.run 5 SpdyWriteQueue.QueueState.initial
          SpdyWriteQueue.sample_calls).get rfl).handed_out = [2, 4]
    ∧ ((SpdyWriteQueue.QueueState.run 5 SpdyWriteQueue.QueueState.initial
          SpdyWriteQueue.sample_calls).get rfl).queue.deleted = [1, 5, 3] := by
  have hrange : ∀ c ∈ SpdyWriteQueue.sample_calls, c.in_range 5 := by
    intro c hc
    simp only [SpdyWriteQueue.sample_calls, List.mem_cons, List.mem_singleton,
      List.not_mem_nil, or_false] at hc
    rcases hc with h | h | h | h | h | h | h | h | h | h <;> subst h <;>
      simp [SpdyWriteQueue.QueueCall.in_range, SpdyWriteQueue.stream1]
  exact ⟨hrange,
    (C29_frame_producer_conservation 5 SpdyWriteQueue.sample_calls _ hrange
      (Option.some_get _).symm).1,
    by decide, by decide, by decide⟩

end net

/-! # LocalOmniboxPopupSource: properties -/

namespace LocalOmniboxPopupSource

theorem substr_slash (p : String) : substr ("/" ++ p) 1 = some p := by
  have hlen : 1 ≤ ("/" ++ p).length := by
    rw [String.length_append]
    have : "/".length = 1 := by decide
    omega
  have hdrop : ("/" ++ p).drop 1 = p := by
    rw [String.drop_eq]
    rfl
  simp only [substr, hlen, if_true, hdrop]

theorem ShouldServiceRequest_slash (kChromeSearchScheme host p : String) :
    ShouldServiceRequest kChromeSearchScheme
        (URLRequest.mk (GURL.mk kChromeSearchScheme host ("/" ++ p)))
      = some (decide (p ∈ filenames)) := by
  simp [ShouldServiceRequest, GURL.SchemeIs, substr_slash, filenames, Bool.or_assoc]

theorem isSome_StartDataRequest (p : String) (is_incognito : Bool) :
    (StartDataRequest p is_incognito).isSome = decide (p ∈ filenames) := by
  simp only [StartDataRequest, filenames]
  split_ifs <;> simp [*]

theorem GetMimeType_eq (p : String) (is_incognito : Bool) :
    GetMimeType p
      = match StartDataRequest p is_incognito with
        | none => ""
        | some ResourceId.IDR_LOCAL_OMNIBOX_POPUP_HTML => "text/html"
        | some ResourceId.IDR_LOCAL_OMNIBOX_POPUP_JS => "application/javascript"
        | some ResourceId.IDR_LOCAL_OMNIBOX_POPUP_CSS => "text/css"
        | some _ => "image/png" := by
  simp only [StartDataRequest, GetMimeType]
  split_ifs <;> simp_all

/-- Claim C30: the three functions of `LocalOmniboxPopupSource` use one list of
seven paths. For every path `p`, `GetMimeType(p)` is not empty exactly when
`StartDataRequest(p)` loads a resource rather than running the callback with
NULL, exactly when `p` is one of the seven file names, exactly when
`ShouldServiceRequest` accepts a request with the chrome-search scheme whose
URL path is "/" followed by `p`; a request with another scheme is refused.
The seven names are "local-omnibox-popup.html", "local-omnibox-popup.js",
"local-omnibox-popup.css", "images/page_icon.png", "images/2x/page_icon.png",
"images/search_icon.png" and "images/2x/search_icon.png"; the MIME type of the
first is text/html, of the second application/javascript, of the third
text/css and of the four images image/png, of any other path it is empty; and
`StartDataRequest` loads for each name the resource of that file. -/
theorem C30_one_whitelist_of_seven_paths (kChromeSearchScheme host p : String)
    (is_incognito : Bool) :
    (GetMimeType p ≠ "" ↔ (StartDataRequest p is_incognito).isSome = true)
    ∧ ((StartDataRequest p is_incognito).isSome = true
      ↔ ShouldServiceRequest kChromeSearchScheme
          (URLRequest.mk (GURL.mk kChromeSearchScheme host ("/" ++ p))) = some true)
    ∧ ((StartDataRequest p is_incognito).isSome = true ↔ p ∈ filenames)
    ∧ (∀ scheme, scheme ≠ kChromeSearchScheme →
        ShouldServiceRequest kChromeSearchScheme
          (URLRequest.mk (GURL.mk scheme host ("/" ++ p))) = some false)
    ∧ GetMimeType p
      = (match StartDataRequest p is_incognito with
        | none => ""
        | some ResourceId.IDR_LOCAL_OMNIBOX_POPUP_HTML => "text/html"
        | some ResourceId.IDR_LOCAL_OMNIBOX_POPUP_JS => "application/javascript"
        | some ResourceId.IDR_LOCAL_OMNIBOX_POPUP_CSS => "text/css"
        | some _ => "image/png")
    ∧ filenames.length = 7
    ∧ filenames.Nodup
    ∧ filenames = ["local-omnibox-popup.html", "local-omnibox-popup.js",
        "local-omnibox-popup.css", "images/page_icon.png", "images/2x/page_icon.png",
        "images/search_icon.png", "images/2x/search_icon.png"]
    ∧ GetMimeType "local-omnibox-popup.html" = "text/html"
    ∧ GetMimeType "local-omnibox-popup.js" = "application/javascript"
    ∧ GetMimeType "local-omnibox-popup.css" = "text/css"
    ∧ GetMimeType "images/page_icon.png" = "image/png"
    ∧ GetMimeType "images/2x/page_icon.png" = "image/png"
    ∧ GetMimeType "images/search_icon.png" = "image/png"
    ∧ GetMimeType "images/2x/search_icon.png" = "image/png"
    ∧ GetMimeType p
      = (if p = "local-omnibox-popup.html" then "text/html"
        else if p = "local-omnibox-popup.js" then "application/javascript"
        else if p = "local-omnibox-popup.css" then "text/css"
        else if p = "images/page_icon.png" ∨ p = "images/2x/page_icon.png"
            ∨ p = "images/search_icon.png" ∨ p = "images/2x/search_icon.png" then "image/png"
        else "")
    ∧ StartDataRequest "local-omnibox-popup.html" is_incognito
      = some ResourceId.IDR_LOCAL_OMNIBOX_POPUP_HTML
    ∧ StartDataRequest "local-omnibox-popup.js" is_incognito
      = some ResourceId.IDR_LOCAL_OMNIBOX_POPUP_JS
    ∧ StartDataRequest "local-omnibox-popup.css" is_incognito
      = some ResourceId.IDR_LOCAL_OMNIBOX_POPUP_CSS
    ∧ StartDataRequest "images/page_icon.png" is_incognito
      = some ResourceId.IDR_LOCAL_OMNIBOX_POPUP_IMAGES_PAGE_ICON_PNG
    ∧ StartDataRequest "images/2x/page_icon.png" is_incognito
      = some ResourceId.IDR_LOCAL_OMNIBOX_POPUP_IMAGES_2X_PAGE_ICON_PNG
    ∧ StartDataRequest "images/search_icon.png" is_incognito
      = some ResourceId.IDR_LOCAL_OMNIBOX_POPUP_IMAGES_SEARCH_ICON_PNG
    ∧ StartDataRequest "images/2x/search_icon.png" is_incognito
      = some ResourceId.IDR_LOCAL_OMNIBOX_POPUP_IMAGES_2X_SEARCH_ICON_PNG := by
  have hmime := GetMimeType_eq p is_incognito
  have hsome := isSome_StartDataRequest p is_incognito
  refine ⟨?_, ?_, ?_, ?_, hmime, by decide, by decide, rfl, by decide, by decide, by decide,
    by decide, by decide, by decide, by decide, rfl, ?_, ?_, ?_, ?_, ?_, ?_, ?_⟩
  · rw [hmime]
    cases h : StartDataRequest p is_incognito with
    | none => simp
    | some r => cases r <;> simp <;> decide
  · rw [ShouldServiceRequest_slash, hsome]
    simp
  · rw [hsome]
    simp
  · intro scheme hne
    simp [ShouldServiceRequest, GURL.SchemeIs, hne]
  all_goals (cases is_incognito <;> decide)

end LocalOmniboxPopupSource
